import Mathlib

/-! # ftserver: framing layer, session negotiation, command interpreter and
response producers

A shallow embedding of `clientServerMessaging.c`, `manageConnections.c` and
`FTInfo.c`.

* A C `char` is its unsigned byte value, a natural number (real bytes are
  below 256).
* A `char*` argument is the list of bytes stored from the pointer on; the C
  string it denotes stops before the first `0` byte (`cstr`, `strlen`).
* A socket is a value: the bytes the peer still has to deliver, the bytes the
  transport accepted so far, one schedule per direction saying how many bytes
  each `recv` / `send` call moves, and the log of the calls made on it.
* A function whose behaviour C leaves undefined on some input (writing outside
  `messageLenStr[12]`, `atoi` overflow, a negative buffer length) has result
  `none` there.
* A `send` that fails returns `-1`, the case `sendCompleteString` tests for.
  The signal `SIGPIPE`, which a `send` on a connection closed by the client
  raises and which ends the process (`send` is called without flag and the
  program handles `SIGINT` only), is not modelled: what is proved of a session
  is proved of a session the process survives.
* Loops whose trip count depends on the transport take an iteration budget;
  the functions that call them give a budget that is never used up
  (`sendCompleteStringLoop_isSome`, `recvLengthLoop_fuel`,
  `recvPayloadLoop_isSome`).
-/

namespace FTServer

/-- The bytes of an ASCII string literal of the source. -/
def str (s : String) : List Nat := s.toList.map Char.toNat

/-- The C string stored in a buffer: the bytes before the first `'\0'`. -/
def cstr (buf : List Nat) : List Nat := buf.takeWhile (fun b => b != 0)

/-- C `strlen`: number of bytes before the first `'\0'`. -/
def strlen (buf : List Nat) : Nat := (cstr buf).length

/-! ## Transport -/

/-- What the transport does on one `recv` or `send` call: fail (return `-1`),
or move at most `k` bytes.  A failing `send` is one that reports its error by
the value returned; a `send` that raises `SIGPIPE` ends the process and is no
step of a schedule. -/
inductive Step where
  | fail : Step
  | give (k : Nat) : Step
  deriving DecidableEq, Repr

/-- One system call made on a socket, with the byte count asked for and the
value returned. -/
inductive Call where
  | recv (asked : Nat) (ret : Int) : Call
  | send (asked : Nat) (ret : Int) : Call
  deriving DecidableEq, Repr

/-- A connected stream socket.  When a schedule is exhausted the transport
moves everything that is asked for (and, for `recv`, available). -/
structure Socket where
  /-- Bytes the peer sends, in order; when they are used up the peer has
  closed its end. -/
  inbound : List Nat
  /-- Behaviour of the successive `recv` calls. -/
  recvSched : List Step
  /-- Bytes accepted by the transport so far, in order. -/
  outbound : List Nat
  /-- Behaviour of the successive `send` calls. -/
  sendSched : List Step
  /-- Calls made so far, oldest first. -/
  calls : List Call
  deriving DecidableEq, Repr

/-- System call `recv(fd, buf, n, 0)`: the return value, the bytes stored in
`buf`, and the socket afterwards.  Returns `-1` on error, `0` when no byte is
delivered (peer closed), else the number of bytes delivered (at most `n`). -/
def recv (s : Socket) (n : Nat) : Int × List Nat × Socket :=
  match s.recvSched with
  | Step.fail :: sched =>
    (-1, [], { s with recvSched := sched, calls := s.calls ++ [Call.recv n (-1)] })
  | Step.give k :: sched =>
    let got := s.inbound.take (min k n)
    (got.length, got,
      { s with inbound := s.inbound.drop (min k n), recvSched := sched,
               calls := s.calls ++ [Call.recv n got.length] })
  | [] =>
    let got := s.inbound.take n
    (got.length, got,
      { s with inbound := s.inbound.drop n, calls := s.calls ++ [Call.recv n got.length] })

/-- System call `send(fd, buf, n, 0)` on the first `n` bytes of `buf`: the
return value and the socket afterwards.  Returns `-1` on error, else the number
of bytes accepted (at most `n`).  The call returns in every case: the death of
the process by `SIGPIPE` is outside the model. -/
def send (s : Socket) (buf : List Nat) (n : Nat) : Int × Socket :=
  match s.sendSched with
  | Step.fail :: sched =>
    (-1, { s with sendSched := sched, calls := s.calls ++ [Call.send n (-1)] })
  | Step.give k :: sched =>
    let put := (buf.take n).take k
    (put.length,
      { s with outbound := s.outbound ++ put, sendSched := sched,
               calls := s.calls ++ [Call.send n put.length] })
  | [] =>
    let put := buf.take n
    (put.length,
      { s with outbound := s.outbound ++ put, calls := s.calls ++ [Call.send n put.length] })

/-! ## clientServerMessaging.c -/

/-- Largest value of a C `int`. -/
def INT_MAX : Int := 2147483647

/-- Smallest value of a C `int`. -/
def INT_MIN : Int := -2147483648

/-- Conversion of an unsigned value to `int` (two's complement wrap-around). -/
def toInt (n : Nat) : Int :=
  if n % 4294967296 < 2147483648 then (n % 4294967296 : Nat) else (n % 4294967296 : Nat) - 4294967296

/-- Decimal digits of `n`, most significant first, pushed in front of `acc`. -/
def decimalCore : Nat → Nat → List Nat → List Nat
  | 0, _, acc => acc
  | fuel + 1, n, acc =>
    if n < 10 then (48 + n) :: acc
    else decimalCore fuel (n / 10) ((48 + n % 10) :: acc)

/-- The ASCII decimal digits of `n`. -/
def decimal (n : Nat) : List Nat := decimalCore (n + 1) n []

/-- What `sprintf(buf, "%d", v)` writes. -/
def sprintfInt (v : Int) : List Nat :=
  if v < 0 then 45 :: decimal v.natAbs else decimal v.natAbs

/-- Function `recvError`: true when the value returned by `recv` reports an
error or a disconnected peer. -/
def recvError (charsRead : Int) : Bool :=
  if charsRead ≤ 0 then true else false

/-- The `while (charsRemaining > 0)` loop of `sendCompleteString`;
`posInMessage` is the part of the buffer from the next character to send on.
`none` when the iteration budget `fuel` is used up. -/
def sendCompleteStringLoop : Nat → Socket → List Nat → Int → Option (Int × Socket)
  | 0, _, _, _ => none
  | fuel + 1, s, posInMessage, charsRemaining =>
    if charsRemaining > 0 then
      let (charsSent, s1) := send s posInMessage charsRemaining.toNat
      if charsSent < 0 then some (-1, s1)
      else
        sendCompleteStringLoop fuel s1 (posInMessage.drop charsSent.toNat)
          (charsRemaining - charsSent)
    else some (0, s)

/-- Function `sendCompleteString`: `0` on success, `-1` on a send error.  The
loop makes at most one call per byte and one per schedule entry that accepts
nothing, so the budget given is never used up. -/
def sendCompleteString (s : Socket) (message : List Nat) : Option (Int × Socket) :=
  sendCompleteStringLoop (strlen message + s.sendSched.length + 1) s message
    (toInt (strlen message))

/-- Function `sendMessage`: sends `"<strlen(message)>@"`, then `message`. -/
def sendMessage (s : Socket) (message : List Nat) : Option (Int × Socket) :=
  let messageLenStr := sprintfInt (toInt (strlen message)) ++ [64]
  match sendCompleteString s messageLenStr with
  | none => none
  | some (r1, s1) =>
    if r1 = -1 then some (-1, s1)
    else
      match sendCompleteString s1 message with
      | none => none
      | some (r2, s2) => if r2 = -1 then some (-1, s2) else some (0, s2)

/-- C `isspace` in the "C" locale. -/
def isspace (c : Nat) : Bool := c == 32 || (9 ≤ c && c ≤ 13)

/-- C `isdigit`. -/
def isdigit (c : Nat) : Bool := 48 ≤ c && c ≤ 57

/-- Value of the leading run of decimal digits of `s`, continuing from `acc`. -/
def atoiDigits : Nat → List Nat → Nat
  | acc, [] => acc
  | acc, c :: cs => if isdigit c then atoiDigits (acc * 10 + (c - 48)) cs else acc

/-- The optional sign and the digits read by `atoi`, as a mathematical integer. -/
def atoiSigned : List Nat → Int
  | 45 :: ds => - (atoiDigits 0 ds : Int)
  | 43 :: ds => (atoiDigits 0 ds : Int)
  | ds => (atoiDigits 0 ds : Int)

/-- C `atoi`: skips white space, reads an optional sign and the digits that
follow.  `none` when the value does not fit an `int` (undefined in C). -/
def atoi (s : List Nat) : Option Int :=
  let v := atoiSigned (s.dropWhile isspace)
  if INT_MIN ≤ v ∧ v ≤ INT_MAX then some v else none

/-- The first loop of `recvMessage`: reads the length one byte at a time into
`messageLenStr[12]` until the byte read is `'@'`.  `written` holds the bytes
stored so far.  Result: `some (none, _)` when `recv` failed (the function
returns `NULL`), `some (some written, _)` when `'@'` was read, `none` when a
byte is stored past the end of the buffer or the budget is used up. -/
def recvLengthLoop : Nat → Socket → List Nat → Option (Option (List Nat) × Socket)
  | 0, _, _ => none
  | fuel + 1, s, written =>
    let (charsRead, got, s1) := recv s 1
    if recvError charsRead then some (none, s1)
    else if written.length + got.length > 12 then none
    else
      let written1 := written ++ got
      let endingChar := written1.getLast?
      if endingChar = some 64 then some (some written1, s1)
      else recvLengthLoop fuel s1 written1

/-- Lines 405-407 of `recvMessage`: from the bytes stored in `messageLenStr`
(the rest of the 12 bytes is `'\0'`), strip the last character of the string
and convert it with `atoi`.  `none` when `strlen` runs past the buffer, when
the string is empty (index `-1`), or when `atoi` overflows. -/
def parseMessageLen (written : List Nat) : Option Int :=
  let len := strlen written
  if len ≥ 12 then none
  else if len = 0 then none
  else atoi ((cstr written).take (len - 1))

/-- The second loop of `recvMessage`: reads until `charsRemaining` is `0`;
`message` holds the bytes stored so far. -/
def recvPayloadLoop : Nat → Socket → Int → List Nat → Option (Option (List Nat) × Socket)
  | 0, _, _, _ => none
  | fuel + 1, s, charsRemaining, message =>
    if charsRemaining > 0 then
      let (charsRead, got, s1) := recv s charsRemaining.toNat
      if recvError charsRead then some (none, s1)
      else recvPayloadLoop fuel s1 (charsRemaining - charsRead) (message ++ got)
    else some (some message, s)

/-- Function `recvMessage`: `some (some m, _)` when the message buffer `m`
(its `messageLen` bytes; the terminating `'\0'` is left out) is returned,
`some (none, _)` when `NULL` is returned, `none` when the behaviour is
undefined.  Every iteration of either loop consumes a byte or returns, so the
budgets given are never used up. -/
def recvMessage (s : Socket) : Option (Option (List Nat) × Socket) :=
  match recvLengthLoop (s.inbound.length + 1) s [] with
  | none => none
  | some (none, s1) => some (none, s1)
  | some (some written, s1) =>
    match parseMessageLen written with
    | none => none
    | some messageLen =>
      if messageLen < 0 ∨ messageLen + 1 > INT_MAX then none
      else recvPayloadLoop (messageLen.toNat + 1) s1 messageLen []

/-- A fresh socket on which the peer sends `inbound`. -/
def Socket.fresh (inbound : List Nat) : Socket :=
  { inbound := inbound, recvSched := [], outbound := [], sendSched := [], calls := [] }

/-! ## FTInfo.c -/

/-- The `struct FTInfo` of one control connection.  The two descriptors are
held as the sockets they denote; `dataSocket = none` stands for the invalid
descriptor `-5` (never connected), and `none` in the string fields for `NULL`. -/
structure FTInfo where
  controlSocket : Socket
  clientHost : List Nat
  clientNickname : List Nat
  dataPort : Option (List Nat)
  command : Option (List Nat)
  filename : Option (List Nat)
  dataSocket : Option Socket
  deriving DecidableEq, Repr

/-- IPv4 address of the host `flip1`. -/
def FLIP1 : List Nat := str "128.193.54.168"

/-- IPv4 address of the host `flip2`. -/
def FLIP2 : List Nat := str "128.193.54.182"

/-- IPv4 address of the host `flip3`. -/
def FLIP3 : List Nat := str "128.193.36.41"

/-- Function `getNickname`. -/
def getNickname (clientHost : List Nat) : List Nat :=
  if cstr clientHost = FLIP1 then str "flip1"
  else if cstr clientHost = FLIP2 then str "flip2"
  else if cstr clientHost = FLIP3 then str "flip3"
  else cstr clientHost

/-- Function `newFTInfo`. -/
def newFTInfo (controlSocket : Socket) (clientHost : List Nat) : FTInfo :=
  { controlSocket := controlSocket, clientHost := clientHost,
    clientNickname := getNickname clientHost,
    dataPort := none, command := none, filename := none, dataSocket := none }

/-! ## manageConnections.c -/

/-- Command `-g`. -/
def GET_FILE : List Nat := str "-g"

/-- Command `-l`. -/
def LIST_FILES : List Nat := str "-l"

/-- Command `-ltxt`. -/
def LIST_TXT_FILES : List Nat := str "-ltxt"

/-- The extension `.txt`. -/
def TXT_EXTENSION : List Nat := str ".txt"

/-- Length of the extension `.txt`. -/
def TXT_EXTENSION_LEN : Nat := 4

/-- Largest number of bytes read from a file or sent to the client at a time. -/
def MAX_SEND_SIZE : Nat := 10000

/-- C `strtok_r(s, " ", &saveptr)` on the C string `s`: the token found, or
`none` for `NULL`, and the C string `saveptr` points to afterwards. -/
def strtok_r (s : List Nat) : Option (List Nat) × List Nat :=
  let s1 := s.dropWhile (fun c => c == 32)
  match s1 with
  | [] => (none, [])
  | _ =>
    let token := s1.takeWhile (fun c => c != 32)
    match s1.dropWhile (fun c => c != 32) with
    | [] => (some token, [])
    | _ :: saveptr => (some token, saveptr)

/-- The non-empty pieces of a string between space characters. -/
def tokensOf (s : List Nat) : List (List Nat) :=
  (s.splitOn 32).filter (fun t => !t.isEmpty)

/-- The token list of a message as the source reads it: the non-empty pieces
of its C string between space characters, the space being the separator of
every `strtok_r` call of the source.  The bytes of a received payload from its
first `'\0'` on belong to no token; `tokensOf` of the whole payload is the
token list that counts them. -/
def tokens (message : List Nat) : List (List Nat) := tokensOf (cstr message)

/-- Function `validatePortnum`: true when every character is a digit. -/
def validatePortnum (portnum : List Nat) : Bool :=
  (cstr portnum).all isdigit

/-- Function `copyToken`: a fresh copy of the string `token`. -/
def copyToken (token : List Nat) : List Nat := cstr token

/-- Lines 233-267 of `validateControlConnection`: the flag `messageError` and
the value stored in `myFT->dataPort` (unchanged from `dataPort` when nothing is
stored). -/
def parseDataPort (messageFromClient : List Nat) (dataPort : Option (List Nat)) :
    Bool × Option (List Nat) :=
  let (token1, saveptr1) := strtok_r (cstr messageFromClient)
  if token1 = none ∨ token1 ≠ some (str "DATA_PORT:") then (true, dataPort)
  else
    let (token2, saveptr2) := strtok_r saveptr1
    match token2 with
    | none => (true, dataPort)
    | some portnum =>
      if !validatePortnum portnum then (true, dataPort)
      else if (strtok_r saveptr2).1 ≠ none then (true, dataPort)
      else (false, some (copyToken portnum))

/-- Error message sent for a malformed first message. -/
def formatErrMessage : List Nat :=
  str "MESSAGE FORMAT ERROR: Initial message must be formatted as: \"DATA_PORT: <portnum>\""

/-- Greeting sent for a well-formed first message. -/
def successMessage : List Nat := str "FTSERVER CONNECTION ESTABLISHED"

/-- Function `validateControlConnection`: the value returned and the session
afterwards. -/
def validateControlConnection (myFT : FTInfo) : Option (Bool × FTInfo) :=
  match recvMessage myFT.controlSocket with
  | none => none
  | some (none, s1) => some (false, { myFT with controlSocket := s1 })
  | some (some messageFromClient, s1) =>
    let (messageError, dataPort) := parseDataPort messageFromClient myFT.dataPort
    let myFT1 := { myFT with controlSocket := s1, dataPort := dataPort }
    if messageError then
      match sendMessage myFT1.controlSocket formatErrMessage with
      | none => none
      | some (_, s2) => some (false, { myFT1 with controlSocket := s2 })
    else
      match sendMessage myFT1.controlSocket successMessage with
      | none => none
      | some (r, s2) =>
        if r = -1 then some (false, { myFT1 with controlSocket := s2 })
        else some (true, { myFT1 with controlSocket := s2 })

/-- What the parsing part of `handleRequest` (lines 333-421) leaves in its
variables: the flag `requestError`, the error message chosen, and the command
and file name stored in the session. -/
structure Request where
  requestError : Bool
  errMessage : Option (List Nat)
  command : Option (List Nat)
  filename : Option (List Nat)
  deriving DecidableEq, Repr

/-- Lines 333-421 of `handleRequest`. -/
def parseRequest (clientRequest : List Nat) : Request :=
  let (token1, saveptr1) := strtok_r (cstr clientRequest)
  match token1 with
  | none =>
    { requestError := true, errMessage := some (str "NO COMMAND RECEIVED"),
      command := none, filename := none }
  | some token1 =>
    let (token2, saveptr2) := strtok_r saveptr1
    if token1 = GET_FILE then
      match token2 with
      | none =>
        { requestError := true,
          errMessage := some (str "BAD REQUEST: <filename> required after -g command."),
          command := none, filename := none }
      | some token2 =>
        if (strtok_r saveptr2).1 ≠ none then
          { requestError := true,
            errMessage := some (str "BAD REQUEST: only <filename> should come after -g command."),
            command := none, filename := none }
        else
          { requestError := false, errMessage := none,
            command := some (copyToken token1), filename := some (copyToken token2) }
    else if token1 = LIST_FILES then
      if token2 ≠ none then
        { requestError := true,
          errMessage := some (str "BAD REQUEST: no arguments should appear after -l command."),
          command := none, filename := none }
      else
        { requestError := false, errMessage := none,
          command := some (copyToken token1), filename := none }
    else if token1 = LIST_TXT_FILES then
      if token2 ≠ none then
        { requestError := true,
          errMessage := some (str "BAD REQUEST: no arguments should appear after -ltxt command."),
          command := none, filename := none }
      else
        { requestError := false, errMessage := none,
          command := some (copyToken token1), filename := none }
    else
      { requestError := true,
        errMessage := some (str
          "UNRECOGNIZED COMMAND: Accepted commands are -l, -ltxt, and -g <filename>."),
        command := none, filename := none }

/-- An open file descriptor: the bytes not read yet, the behaviour of the
successive `read` calls, and the values the `read` calls returned so far,
oldest first. -/
structure File where
  content : List Nat
  readSched : List Step
  reads : List Int
  deriving DecidableEq, Repr

/-- System call `read(fd, buf, n)`: the return value (`-1` on error, `0` at end
of file), the bytes stored in `buf`, and the file afterwards. -/
def read (f : File) (n : Nat) : Int × List Nat × File :=
  match f.readSched with
  | Step.fail :: sched => (-1, [], { f with readSched := sched, reads := f.reads ++ [-1] })
  | Step.give k :: sched =>
    let got := f.content.take (min k n)
    (got.length, got,
      { content := f.content.drop (min k n), readSched := sched,
        reads := f.reads ++ [(got.length : Int)] })
  | [] =>
    let got := f.content.take n
    (got.length, got,
      { f with content := f.content.drop n, reads := f.reads ++ [(got.length : Int)] })

/-- Result of `open(filename, O_RDONLY)`: failure, with the text `strerror`
gives for `errno`, or an open file, with the text for the `errno` a failing
`read` on it sets. -/
inductive OpenResult where
  | error (errnoText : List Nat) : OpenResult
  | opened (file : File) (readErrnoText : List Nat) : OpenResult
  deriving DecidableEq, Repr

/-- Result of `opendir(".")` and of the `readdir` calls that follow: failure
of `opendir`, with the text for `errno`, or the names `readdir` returns before
it returns `NULL`, with the text for `errno` when that `NULL` reports an error. -/
inductive DirResult where
  | error (errnoText : List Nat) : DirResult
  | opened (entries : List (List Nat)) (readdirErrnoText : Option (List Nat)) : DirResult
  deriving DecidableEq, Repr

/-- What the server does outside the two sockets of a session. -/
inductive Event where
  | connect (host port : List Nat) (connected : Bool) : Event
  | openFile (filename : List Nat) : Event
  | openDir : Event
  | closeDataSocket : Event
  deriving DecidableEq, Repr

/-- The environment of a session: what a connection attempt to the client,
opening a file and listing the current directory yield, and the events so
far, oldest first. -/
structure World where
  dataPeer : List Nat → List Nat → Option Socket
  files : List Nat → OpenResult
  directory : DirResult
  events : List Event

/-- Function `establishDataSocket`: the connected socket, or `none` for `-1`. -/
def establishDataSocket (w : World) (clientHost dataPort : List Nat) :
    Option Socket × World :=
  let r := w.dataPeer (cstr clientHost) (cstr dataPort)
  (r, { w with events := w.events ++ [Event.connect (cstr clientHost) (cstr dataPort) r.isSome] })

/-- Function `deleteFTInfo`: the data socket is closed when it was ever
connected (`dataSocketFD >= 0`). -/
def deleteFTInfo (w : World) (myFT : FTInfo) : World :=
  if myFT.dataSocket.isSome then { w with events := w.events ++ [Event.closeDataSocket] }
  else w

/-- Function `waitToCloseDataSocket`: one `recv` of one byte on the control
socket, the result of which is ignored. -/
def waitToCloseDataSocket (myFT : FTInfo) : FTInfo :=
  { myFT with controlSocket := (recv myFT.controlSocket 1).2.2 }

/-- Number of values of an `unsigned long long`. -/
def ULLONG_MOD : Nat := 18446744073709551616

/-- Function `sendSuccessMessage`: the value returned and the session afterwards. -/
def sendSuccessMessage (myFT : FTInfo) (bytesSent : Nat) : Option (Int × FTInfo) :=
  let successPrefix := str "SUCCESS! "
  let successSuffix := str " bytes sent over data connection."
  let successMessage := successPrefix ++ decimal (bytesSent % ULLONG_MOD) ++ successSuffix
  match sendMessage myFT.controlSocket successMessage with
  | none => none
  | some (r, s1) =>
    if r = -1 then some (-1, { myFT with controlSocket := s1 })
    else some (0, waitToCloseDataSocket { myFT with controlSocket := s1 })

/-- Function `sendErrorMessage`; `errMessage` is `strerror(errno)`. -/
def sendErrorMessage (myFT : FTInfo) (errMessage : List Nat) : Option (Int × FTInfo) :=
  match sendMessage myFT.controlSocket errMessage with
  | none => none
  | some (r, s1) =>
    if r = 0 then some (0, waitToCloseDataSocket { myFT with controlSocket := s1 })
    else some (-1, { myFT with controlSocket := s1 })

/-- Message sent on a new data connection. -/
def validationMessage : List Nat := str "FTSERVER DATA CONNECTION INITIALIZATION"

/-- Response expected on a new data connection. -/
def responseExpected : List Nat := str "FTSERVER DATA CONNECTION ACCEPTED"

/-- Function `validateDataConnection`.  `none` also when no data port is
stored (the precondition of `handleRequest` is broken). -/
def validateDataConnection (w : World) (myFT : FTInfo) : Option (Bool × World × FTInfo) :=
  match myFT.dataPort with
  | none => none
  | some dataPort =>
    let (socketFDReturned, w1) := establishDataSocket w myFT.clientHost dataPort
    match socketFDReturned with
    | none => some (false, w1, myFT)
    | some dataSocket =>
      match sendMessage dataSocket validationMessage with
      | none => none
      | some (r, d1) =>
        if r = -1 then some (false, w1, { myFT with dataSocket := some d1 })
        else
          match recvMessage d1 with
          | none => none
          | some (none, d2) => some (false, w1, { myFT with dataSocket := some d2 })
          | some (some responseReceived, d2) =>
            if cstr responseReceived ≠ responseExpected then
              some (false, w1, { myFT with dataSocket := some d2 })
            else some (true, w1, { myFT with dataSocket := some d2 })

/-- The `do ... while (charsRead > 0)` loop of `sendFileToClient`.  Result:
`none` in first position when `sendMessage` failed (the function returns at
once), else the last `charsRead` and `totalCharsRead`; then the file and the
data socket. -/
def sendFileLoop : Nat → File → Socket → Nat → Option (Option (Int × Nat) × File × Socket)
  | 0, _, _, _ => none
  | fuel + 1, fileToSend, dataSocket, totalCharsRead =>
    let (charsRead, readBuffer, file1) := read fileToSend MAX_SEND_SIZE
    if charsRead > 0 then
      let totalCharsRead1 := (totalCharsRead + charsRead.toNat) % ULLONG_MOD
      match sendMessage dataSocket readBuffer with
      | none => none
      | some (r, d1) =>
        if r = -1 then some (none, file1, d1)
        else sendFileLoop fuel file1 d1 totalCharsRead1
    else some (some (charsRead, totalCharsRead), file1, dataSocket)

/-- Function `sendFileToClient`.  `none` also when no file name or no data
socket is stored (the precondition is broken).  Each iteration of the loop
reads a byte or is the last, so the budget given is never used up. -/
def sendFileToClient (w : World) (myFT : FTInfo) : Option (World × FTInfo) :=
  match myFT.filename, myFT.dataSocket with
  | some filename, some dataSocket =>
    let w1 := { w with events := w.events ++ [Event.openFile (cstr filename)] }
    match w.files (cstr filename) with
    | OpenResult.error errnoText =>
      match sendErrorMessage myFT errnoText with
      | none => none
      | some (_, myFT1) => some (w1, myFT1)
    | OpenResult.opened fileToSend readErrnoText =>
      match sendFileLoop (fileToSend.content.length + 1) fileToSend dataSocket 0 with
      | none => none
      | some (none, _, d1) => some (w1, { myFT with dataSocket := some d1 })
      | some (some (charsRead, totalCharsRead), _, d1) =>
        let myFT1 := { myFT with dataSocket := some d1 }
        if charsRead = 0 then
          match sendSuccessMessage myFT1 totalCharsRead with
          | none => none
          | some (_, myFT2) => some (w1, myFT2)
        else
          match sendErrorMessage myFT1 readErrnoText with
          | none => none
          | some (_, myFT2) => some (w1, myFT2)
  | _, _ => none

/-- Function `isTxtFile`. -/
def isTxtFile (filename : List Nat) : Bool :=
  let filenameLen := strlen filename
  if filenameLen < TXT_EXTENSION_LEN then false
  else
    let offset := filenameLen - TXT_EXTENSION_LEN
    let finalChars := (cstr filename).drop offset
    if finalChars = TXT_EXTENSION then true else false

/-- The `while (currentEntry != NULL)` loop of `sendListingToClient` over the
entries not visited yet.  Result: `none` in first position when `sendMessage`
failed (the function returns at once), else `sendBuffer`, `charsInSendBuffer`
and `totalCharsSent`; then the data socket.  `none` when a name does not fit
`sendBuffer` (written past its end). -/
def sendListingLoop (includeAllFiles : Bool) :
    List (List Nat) → Socket → List Nat → Nat → Nat →
      Option (Option (List Nat × Nat × Nat) × Socket)
  | [], dataSocket, sendBuffer, charsInSendBuffer, totalCharsSent =>
    some (some (sendBuffer, charsInSendBuffer, totalCharsSent), dataSocket)
  | currentFilename :: entries, dataSocket, sendBuffer, charsInSendBuffer, totalCharsSent =>
    if includeAllFiles || isTxtFile currentFilename then
      let entryLen := strlen currentFilename + 1
      if charsInSendBuffer + entryLen > MAX_SEND_SIZE then
        match sendMessage dataSocket sendBuffer with
        | none => none
        | some (r, d1) =>
          if r = -1 then some (none, d1)
          else if entryLen > MAX_SEND_SIZE then none
          else
            sendListingLoop includeAllFiles entries d1 (cstr currentFilename ++ [10]) entryLen
              ((totalCharsSent + charsInSendBuffer) % ULLONG_MOD)
      else
        sendListingLoop includeAllFiles entries dataSocket
          (sendBuffer ++ cstr currentFilename ++ [10]) (charsInSendBuffer + entryLen)
          totalCharsSent
    else sendListingLoop includeAllFiles entries dataSocket sendBuffer charsInSendBuffer
      totalCharsSent

/-- Message sent when no file has the extension `.txt`. -/
def noTxtFilesMessage : List Nat :=
  str "There are no files with the .txt extension in this directory."

/-- Function `sendListingToClient`.  `none` also when no command or no data
socket is stored (the precondition is broken). -/
def sendListingToClient (w : World) (myFT : FTInfo) : Option (World × FTInfo) :=
  match myFT.command, myFT.dataSocket with
  | some command, some dataSocket =>
    let includeAllFiles := if command = LIST_TXT_FILES then false else true
    let w1 := { w with events := w.events ++ [Event.openDir] }
    match w.directory with
    | DirResult.error errnoText =>
      match sendErrorMessage myFT errnoText with
      | none => none
      | some (_, myFT1) => some (w1, myFT1)
    | DirResult.opened entries readdirErrnoText =>
      match sendListingLoop includeAllFiles entries dataSocket [] 0 0 with
      | none => none
      | some (none, d1) => some (w1, { myFT with dataSocket := some d1 })
      | some (some (sendBuffer, charsInSendBuffer, totalCharsSent), d1) =>
        let myFT1 := { myFT with dataSocket := some d1 }
        match readdirErrnoText with
        | some errnoText =>
          match sendErrorMessage myFT1 errnoText with
          | none => none
          | some (_, myFT2) => some (w1, myFT2)
        | none =>
          if !includeAllFiles && charsInSendBuffer == 0 && totalCharsSent == 0 then
            match sendMessage myFT1.controlSocket noTxtFilesMessage with
            | none => none
            | some (r, s1) =>
              if r = -1 then some (w1, { myFT1 with controlSocket := s1 })
              else some (w1, waitToCloseDataSocket { myFT1 with controlSocket := s1 })
          else if charsInSendBuffer > 0 then
            match sendMessage d1 sendBuffer with
            | none => none
            | some (r, d2) =>
              if r = -1 then some (w1, { myFT1 with dataSocket := some d2 })
              else
                match sendSuccessMessage { myFT1 with dataSocket := some d2 }
                    ((totalCharsSent + charsInSendBuffer) % ULLONG_MOD) with
                | none => none
                | some (_, myFT2) => some (w1, myFT2)
          else
            match sendSuccessMessage myFT1 totalCharsSent with
            | none => none
            | some (_, myFT2) => some (w1, myFT2)
  | _, _ => none

/-- Function `handleRequest`. -/
def handleRequest (w : World) (myFT : FTInfo) : Option (World × FTInfo) :=
  match recvMessage myFT.controlSocket with
  | none => none
  | some (none, s1) => some (w, { myFT with controlSocket := s1 })
  | some (some clientRequest, s1) =>
    let request := parseRequest clientRequest
    let myFT1 : FTInfo :=
      { myFT with controlSocket := s1,
                  command := if request.command.isSome then request.command else myFT.command,
                  filename := if request.filename.isSome then request.filename
                              else myFT.filename }
    if request.requestError then
      match sendMessage myFT1.controlSocket (request.errMessage.getD []) with
      | none => none
      | some (_, s2) => some (w, { myFT1 with controlSocket := s2 })
    else
      match validateDataConnection w myFT1 with
      | none => none
      | some (valid, w1, myFT2) =>
        if !valid then some (w1, myFT2)
        else if myFT2.command = some GET_FILE then sendFileToClient w1 myFT2
        else sendListingToClient w1 myFT2

/-- One iteration of the loop of `acceptConnection`, from the point where
`acceptClientConnection` returned a connection from `clientHost`: the world
after `deleteFTInfo` and the last state of the session (before it is freed). -/
def acceptConnection (w : World) (controlSocket : Socket) (clientHost : List Nat) :
    Option (World × FTInfo) :=
  let myFT := newFTInfo controlSocket clientHost
  match validateControlConnection myFT with
  | none => none
  | some (valid, myFT1) =>
    if !valid then some (deleteFTInfo w myFT1, myFT1)
    else
      match handleRequest w myFT1 with
      | none => none
      | some (w1, myFT2) => some (deleteFTInfo w1 myFT2, myFT2)

/-- The framed message of the specification for a payload: the ASCII decimal
digits of its length, `'@'`, then its bytes. -/
def frame (payload : List Nat) : List Nat := decimal payload.length ++ 64 :: payload

/-- A world in which no data connection can be made, no file opened and the
directory not listed. -/
def World.closed : World :=
  { dataPeer := fun _ _ => none, files := fun _ => OpenResult.error [],
    directory := DirResult.error [], events := [] }

/-- A schedule under which every call moves at least one byte and none fails. -/
def positive (sched : List Step) : Bool :=
  sched.all (fun st => match st with
    | Step.give k => decide (0 < k)
    | Step.fail => false)

/-- A `recv` call that returned an error (`-1`) or no byte (`0`). -/
def Call.failedRecv : Call → Bool
  | Call.recv _ ret => decide (ret ≤ 0)
  | Call.send _ _ => false

/-- The typed request of the specification: what a command line is
classified as. -/
inductive Verdict where
  | getFile (filename : List Nat) : Verdict
  | listAll : Verdict
  | listFiltered : Verdict
  | error (message : List Nat) : Verdict
  deriving DecidableEq, Repr

/-- The classification that the variables left by the parsing part of
`handleRequest` stand for; `none` when they stand for none (an error flag with
a command stored, a valid request without command, a file name without `-g`,
and so on). -/
def Request.verdict (r : Request) : Option Verdict :=
  match r.requestError, r.errMessage, r.command, r.filename with
  | true, some message, none, none => some (Verdict.error message)
  | false, none, some command, some filename =>
    if command = GET_FILE then some (Verdict.getFile filename) else none
  | false, none, some command, none =>
    if command = LIST_FILES then some Verdict.listAll
    else if command = LIST_TXT_FILES then some Verdict.listFiltered
    else none
  | _, _, _, _ => none

/-- A world for examples: the client accepts the data connection and answers
`reply` on it; `files` and `directory` are what the file system holds. -/
def World.sample (reply : List Nat) (files : List Nat → OpenResult) (directory : DirResult) :
    World :=
  { dataPeer := fun _ _ => some (Socket.fresh (frame reply)), files := files,
    directory := directory, events := [] }

/-- A session for examples, after the control handshake: the client at
`10.0.0.1` asked for data port `8080` and its command line is pending on the
control socket. -/
def FTInfo.sample (commandLine : List Nat) : FTInfo :=
  { newFTInfo (Socket.fresh (frame commandLine)) (str "10.0.0.1") with
    dataPort := some (str "8080") }

/-- A `send` call that returned an error (`-1`). -/
def Call.failedSend : Call → Bool
  | Call.send _ ret => decide (ret < 0)
  | Call.recv _ _ => false

/-- The events with which a response producer starts: `sendFileToClient` opens
the file, `sendListingToClient` opens the directory. -/
def Event.isProducer : Event → Bool
  | Event.openFile _ => true
  | Event.openDir => true
  | _ => false

/-- A file on disk with the given content, read in full chunks. -/
def File.fresh (content : List Nat) : File :=
  { content := content, readSched := [], reads := [] }

/-- The success message of the specification for a byte count. -/
def successText (bytes : Nat) : List Nat :=
  str "SUCCESS! " ++ decimal bytes ++ str " bytes sent over data connection."

/-- Largest number of decimal digits of an `unsigned long long`. -/
def MAX_ULLINT_DIGITS : Nat := 20

/-- Length of the buffer `successMessage` of `sendSuccessMessage`, as the
function computes it. -/
def successMessageBufferLen : Nat :=
  strlen (str "SUCCESS! ") + MAX_ULLINT_DIGITS + strlen (str " bytes sent over data connection.")
    + 1

/-- A schedule under which every `send` call either reports an error or
accepts at least one byte. -/
def progressing (sched : List Step) : Bool :=
  sched.all (fun st => match st with
    | Step.give k => decide (0 < k)
    | Step.fail => true)

/-- Number of bytes the transport accepted over the `send` calls of a log. -/
def accepted : List Call → Nat
  | [] => 0
  | Call.send _ ret :: rest => ret.toNat + accepted rest
  | Call.recv _ _ :: rest => accepted rest

/-- A log made of `send` calls only, each of which asks for exactly the bytes
not accepted yet (at least one), `remaining` of them at the start, and is
answered by at most that many. -/
def asksRemaining : Nat → List Call → Bool
  | _, [] => true
  | remaining, Call.send asked ret :: rest =>
    decide (asked = remaining) && decide (0 < asked) && decide (ret ≤ (asked : Int)) &&
      asksRemaining (remaining - ret.toNat) rest
  | _, Call.recv _ _ :: _ => false

/-- The invariant of the specification on the command of a session: the
command is absent or one of `-g`, `-l`, `-ltxt`, and a file name is stored
exactly when the command is `-g`. -/
def FTInfo.commandInvariant (myFT : FTInfo) : Bool :=
  decide (myFT.command = none ∨ myFT.command = some GET_FILE ∨
    myFT.command = some LIST_FILES ∨ myFT.command = some LIST_TXT_FILES) &&
  decide (myFT.filename.isSome = true ↔ myFT.command = some GET_FILE)

/-- The entries a listing keeps, in the order of the enumeration, each as the
name followed by a newline: every entry when `includeAllFiles` is set, else
the entries `isTxtFile` accepts. -/
def keptEntries (includeAllFiles : Bool) (entries : List (List Nat)) : List (List Nat) :=
  (entries.filter (fun e => includeAllFiles || isTxtFile e)).map (fun e => cstr e ++ [10])

/-- The accumulation rule of the specification, in its own words: each entry
is appended to the buffer, and whenever adding the next entry would exceed
`max` the buffer is flushed as one frame first.  Result: the frames flushed,
in order, and the bytes left in the buffer. -/
def packEntries (max : Nat) : List (List Nat) → List Nat → List (List Nat) × List Nat
  | [], buffer => ([], buffer)
  | entry :: rest, buffer =>
    if buffer.length + entry.length > max then
      (buffer :: (packEntries max rest entry).1, (packEntries max rest entry).2)
    else packEntries max rest (buffer ++ entry)

/-- The frame payloads of a listing according to the specification: the
frames flushed while accumulating, then the bytes remaining in the buffer, if
any, as one last frame. -/
def listingFrames (max : Nat) (kept : List (List Nat)) : List (List Nat) :=
  if (packEntries max kept []).2.isEmpty then (packEntries max kept []).1
  else (packEntries max kept []).1 ++ [(packEntries max kept []).2]

/-! # Theorems -/

/-! ## Decimal rendering and `atoi` -/

theorem toInt_of_lt {n : Nat} (h : n < 2147483648) : toInt n = (n : Int) := by
  unfold toInt
  have h1 : n % 4294967296 = n := Nat.mod_eq_of_lt (by omega)
  rw [h1, if_pos h]

theorem toInt_le (n : Nat) : toInt n ≤ (n : Int) := by
  unfold toInt
  have h1 : n % 4294967296 ≤ n := Nat.mod_le _ _
  split <;> omega

theorem decimalCore_append (fuel n : Nat) (acc : List Nat) :
    decimalCore fuel n acc = decimalCore fuel n [] ++ acc := by
  induction fuel generalizing n acc with
  | zero => simp [decimalCore]
  | succ fuel ih =>
    unfold decimalCore
    split
    · simp
    · rw [ih (n / 10) ((48 + n % 10) :: acc), ih (n / 10) [48 + n % 10]]
      simp

theorem decimalCore_digits (fuel n : Nat) :
    ∀ b ∈ decimalCore fuel n [], isdigit b = true := by
  induction fuel generalizing n with
  | zero => simp [decimalCore]
  | succ fuel ih =>
    unfold decimalCore
    split
    · intro b hb
      simp only [List.mem_singleton] at hb
      subst hb
      simp [isdigit]; omega
    · rw [decimalCore_append]
      intro b hb
      simp only [List.mem_append, List.mem_singleton] at hb
      rcases hb with hb | hb
      · exact ih _ b hb
      · subst hb
        simp [isdigit]; omega

theorem decimal_digits (n : Nat) : ∀ b ∈ decimal n, isdigit b = true :=
  decimalCore_digits _ _

theorem decimalCore_ne_nil (fuel n : Nat) : decimalCore (fuel + 1) n [] ≠ [] := by
  unfold decimalCore
  split
  · simp
  · rw [decimalCore_append]; simp

theorem decimal_ne_nil (n : Nat) : decimal n ≠ [] := decimalCore_ne_nil _ _

theorem atoiDigits_append_digit (acc : Nat) (l rest : List Nat)
    (hl : ∀ b ∈ l, isdigit b = true) :
    atoiDigits acc (l ++ rest) = atoiDigits (atoiDigits acc l) rest := by
  induction l generalizing acc with
  | nil => simp [atoiDigits]
  | cons c cs ih =>
    have hc : isdigit c = true := hl c (by simp)
    simp only [List.cons_append, atoiDigits, hc, if_true]
    exact ih _ (fun b hb => hl b (by simp [hb]))

theorem atoiDigits_decimalCore (fuel n acc : Nat) (h : n < fuel) :
    atoiDigits acc (decimalCore fuel n []) = acc * 10 ^ (decimalCore fuel n []).length + n := by
  induction fuel generalizing n acc with
  | zero => omega
  | succ fuel ih =>
    unfold decimalCore
    split
    · rename_i hn
      have hd : isdigit (48 + n) = true := by simp [isdigit]; omega
      simp [atoiDigits, hd]
    · rename_i hn
      rw [decimalCore_append]
      have hlt : n / 10 < fuel := by omega
      rw [atoiDigits_append_digit _ _ _ (decimalCore_digits _ _), ih (n / 10) acc hlt]
      have hd : isdigit (48 + n % 10) = true := by simp [isdigit]; omega
      simp only [atoiDigits, hd, if_true, List.length_append, List.length_singleton]
      have : 48 + n % 10 - 48 = n % 10 := by omega
      rw [this, pow_succ]
      have h10 : n / 10 * 10 + n % 10 = n := by omega
      nlinarith [h10]

theorem atoiDigits_decimal (n : Nat) : atoiDigits 0 (decimal n) = n := by
  unfold decimal
  rw [atoiDigits_decimalCore (n + 1) n 0 (by omega)]
  simp

theorem decimalCore_length_le (fuel n k : Nat) (h : n < 10 ^ (k + 1)) :
    (decimalCore fuel n []).length ≤ k + 1 := by
  induction fuel generalizing n k with
  | zero => simp [decimalCore]
  | succ fuel ih =>
    unfold decimalCore
    split
    · simp
    · rename_i hn
      rw [decimalCore_append]
      simp only [List.length_append, List.length_singleton]
      cases k with
      | zero => simp at h; omega
      | succ k =>
        have : n / 10 < 10 ^ (k + 1) := by
          rw [pow_succ] at h
          omega
        have := ih (n / 10) k this
        omega

theorem decimal_length_le (n : Nat) (h : n < 2147483648) : (decimal n).length ≤ 10 :=
  decimalCore_length_le _ n 9 (by norm_num; omega)

/-! ## Transport steps -/

theorem positive_cons_give {k : Nat} {sched : List Step}
    (h : positive (Step.give k :: sched) = true) : 0 < k ∧ positive sched = true := by
  simpa [positive] using h

theorem positive_cons_fail {sched : List Step} : positive (Step.fail :: sched) = false := by
  simp [positive]

/-- Under a positive schedule `send` accepts a non-empty prefix of what is offered. -/
theorem send_positive (s : Socket) (buf : List Nat) (n : Nat)
    (hp : positive s.sendSched = true) (hn : 0 < n) (hb : n ≤ buf.length) :
    ∃ j : Nat, 1 ≤ j ∧ j ≤ n ∧ (send s buf n).1 = (j : Int) ∧
      (send s buf n).2.outbound = s.outbound ++ buf.take j ∧
      positive (send s buf n).2.sendSched = true ∧
      (send s buf n).2.inbound = s.inbound ∧
      (send s buf n).2.recvSched = s.recvSched := by
  unfold send
  split
  · rename_i sched hs
    rw [hs, positive_cons_fail] at hp
    exact absurd hp (by simp)
  · rename_i k sched hs
    rw [hs] at hp
    obtain ⟨hk, hp2⟩ := positive_cons_give hp
    refine ⟨min k n, by omega, by omega, ?_, ?_, hp2, rfl, rfl⟩
    · simp [List.length_take]; omega
    · simp [List.take_take]
  · rename_i hs
    refine ⟨n, hn, le_refl _, ?_, rfl, ?_, rfl, rfl⟩
    · simp [List.length_take]; omega
    · simpa using hp

/-- Under a positive schedule `recv` delivers a prefix of the pending bytes,
non-empty unless the peer has closed. -/
theorem recv_positive (s : Socket) (n : Nat)
    (hp : positive s.recvSched = true) (hn : 0 < n) :
    ∃ j : Nat, j ≤ n ∧ j ≤ s.inbound.length ∧ (s.inbound ≠ [] → 1 ≤ j) ∧
      (recv s n).1 = (j : Int) ∧ (recv s n).2.1 = s.inbound.take j ∧
      (recv s n).2.2.inbound = s.inbound.drop j ∧
      positive (recv s n).2.2.recvSched = true ∧
      (recv s n).2.2.outbound = s.outbound ∧
      (recv s n).2.2.sendSched = s.sendSched := by
  have hne : s.inbound ≠ [] → 1 ≤ s.inbound.length := by
    intro h
    cases hs : s.inbound with
    | nil => exact absurd hs h
    | cons a l => simp
  unfold recv
  split
  · rename_i sched hs
    rw [hs, positive_cons_fail] at hp
    exact absurd hp (by simp)
  · rename_i k sched hs
    rw [hs] at hp
    obtain ⟨hk, hp2⟩ := positive_cons_give hp
    refine ⟨min (min k n) s.inbound.length, by omega, by omega, ?_, ?_, ?_, ?_, hp2, rfl, rfl⟩
    · intro h; have := hne h; omega
    · simp [List.length_take]
    · simp only
      apply List.ext_getElem <;> simp [List.length_take]
    · simp only
      rcases Nat.le_total (min k n) s.inbound.length with h | h
      · rw [Nat.min_eq_left h]
      · rw [Nat.min_eq_right h, List.drop_of_length_le h, List.drop_of_length_le (le_refl _)]
  · rename_i hs
    refine ⟨min n s.inbound.length, by omega, by omega, ?_, ?_, ?_, ?_, ?_, rfl, rfl⟩
    · intro h; have := hne h; omega
    · simp [List.length_take]
    · simp only
      apply List.ext_getElem <;> simp [List.length_take]
    · simp only
      rcases Nat.le_total n s.inbound.length with h | h
      · rw [Nat.min_eq_left h]
      · rw [Nat.min_eq_right h, List.drop_of_length_le h, List.drop_of_length_le (le_refl _)]
    · simpa using hp

/-- What one `send` call can do, whatever the schedule. -/
theorem send_spec (s : Socket) (buf : List Nat) (n : Nat) :
    (send s buf n).2.inbound = s.inbound ∧ (send s buf n).2.recvSched = s.recvSched ∧
    (send s buf n).2.sendSched.length ≤ s.sendSched.length ∧
    (((send s buf n).1 = -1 ∧ (send s buf n).2.outbound = s.outbound) ∨
      ∃ j : Nat, j ≤ n ∧ j ≤ buf.length ∧ (send s buf n).1 = (j : Int) ∧
        (send s buf n).2.outbound = s.outbound ++ buf.take j ∧
        (0 < n → n ≤ buf.length → j = 0 →
          (send s buf n).2.sendSched.length < s.sendSched.length)) := by
  unfold send
  split
  · rename_i sched hs
    refine ⟨rfl, rfl, by simp [hs], Or.inl ⟨rfl, rfl⟩⟩
  · rename_i k sched hs
    refine ⟨rfl, rfl, by simp [hs], Or.inr ⟨min (min k n) buf.length, by omega, by omega, ?_, ?_, ?_⟩⟩
    · simp [List.length_take]
    · simp only [List.take_take]
      congr 1
      apply List.ext_getElem <;> simp [List.length_take]
    · intro _ _ _
      simp [hs]
  · rename_i hs
    refine ⟨rfl, rfl, le_refl _, Or.inr ⟨min n buf.length, by omega, by omega, ?_, ?_, ?_⟩⟩
    · simp [List.length_take]
    · simp only
      congr 1
      apply List.ext_getElem <;> simp [List.length_take]
    · intro h1 h2 h3
      omega

/-! ## `sendCompleteString` and `sendMessage` -/

/-- Whatever the schedule, the send loop returns `0` or `-1`, and when it
returns `0` it has written exactly the `charsRemaining` bytes it was given. -/
theorem sendCompleteStringLoop_result (fuel : Nat) (s : Socket) (pos : List Nat) (c : Int)
    (r : Int) (s' : Socket) (h : sendCompleteStringLoop fuel s pos c = some (r, s')) :
    (r = 0 ∨ r = -1) ∧ (r = 0 → s'.outbound = s.outbound ++ pos.take c.toNat) ∧
      s'.inbound = s.inbound ∧ s'.recvSched = s.recvSched := by
  induction fuel generalizing s pos c with
  | zero => simp [sendCompleteStringLoop] at h
  | succ fuel ih =>
    unfold sendCompleteStringLoop at h
    by_cases hc : c > 0
    · simp only [hc, if_true] at h
      obtain ⟨hin, hrs, -, hcase⟩ := send_spec s pos c.toNat
      rcases hcase with ⟨hneg, hout⟩ | ⟨j, hj1, hj2, hret, hout, -⟩
      · simp only [hneg] at h
        simp at h
        obtain ⟨rfl, rfl⟩ := h
        exact ⟨Or.inr rfl, by simp, hin, hrs⟩
      · have hnn : ¬ ((send s pos c.toNat).1 < 0) := by rw [hret]; omega
        simp only [hnn, if_false] at h
        obtain ⟨h1, h2, h3, h4⟩ := ih _ _ _ h
        refine ⟨h1, ?_, h3.trans hin, h4.trans hrs⟩
        intro hr
        rw [h2 hr, hout, hret, List.append_assoc]
        congr 1
        have e1 : ((j : Int)).toNat = j := by simp
        have e2 : (c - (j : Int)).toNat = c.toNat - j := by omega
        rw [e1, e2]
        have e3 : c.toNat = j + (c.toNat - j) := by omega
        conv_rhs => rw [e3, List.take_add]
    · simp only [hc, if_false] at h
      simp at h
      obtain ⟨rfl, rfl⟩ := h
      have : c.toNat = 0 := by omega
      simp [this]

/-- Under a positive schedule the send loop succeeds and writes all the bytes. -/
theorem sendCompleteStringLoop_positive (fuel : Nat) (s : Socket) (pos : List Nat) (c : Int)
    (hp : positive s.sendSched = true) (hlen : c.toNat ≤ pos.length) (hf : c.toNat < fuel) :
    ∃ s', sendCompleteStringLoop fuel s pos c = some (0, s') ∧
      s'.outbound = s.outbound ++ pos.take c.toNat ∧ positive s'.sendSched = true ∧
      s'.inbound = s.inbound ∧ s'.recvSched = s.recvSched := by
  induction fuel generalizing s pos c with
  | zero => omega
  | succ fuel ih =>
    unfold sendCompleteStringLoop
    by_cases hc : c > 0
    · simp only [hc, if_true]
      obtain ⟨j, hj1, hj2, hret, hout, hpos, hin, hrs⟩ :=
        send_positive s pos c.toNat hp (by omega) hlen
      have hnn : ¬ ((send s pos c.toNat).1 < 0) := by rw [hret]; omega
      simp only [hnn, if_false]
      have e1 : ((j : Int)).toNat = j := by simp
      have e2 : (c - (j : Int)).toNat = c.toNat - j := by omega
      rw [hret, e1]
      obtain ⟨s', h1, h2, h3, h4, h5⟩ := ih (send s pos c.toNat).2 (pos.drop j) (c - j) hpos
        (by rw [e2, List.length_drop]; omega) (by omega)
      refine ⟨s', h1, ?_, h3, h4.trans hin, h5.trans hrs⟩
      rw [h2, hout, e2, List.append_assoc]
      congr 1
      have e3 : c.toNat = j + (c.toNat - j) := by omega
      conv_rhs => rw [e3, List.take_add]
    · simp only [hc, if_false]
      have : c.toNat = 0 := by omega
      exact ⟨s, rfl, by simp [this], hp, rfl, rfl⟩

/-- The send loop never uses up a budget that covers the bytes to send and
the schedule entries left. -/
theorem sendCompleteStringLoop_isSome (fuel : Nat) (s : Socket) (pos : List Nat) (c : Int)
    (hlen : c.toNat ≤ pos.length) (hf : c.toNat + s.sendSched.length < fuel) :
    (sendCompleteStringLoop fuel s pos c).isSome = true := by
  induction fuel generalizing s pos c with
  | zero => omega
  | succ fuel ih =>
    unfold sendCompleteStringLoop
    by_cases hc : c > 0
    · simp only [hc, if_true]
      obtain ⟨-, -, hsl, hcase⟩ := send_spec s pos c.toNat
      rcases hcase with ⟨hneg, -⟩ | ⟨j, hj1, hj2, hret, -, hprog⟩
      · simp [hneg]
      · have hnn : ¬ ((send s pos c.toNat).1 < 0) := by rw [hret]; omega
        simp only [hnn, if_false]
        have e1 : ((j : Int)).toNat = j := by simp
        have e2 : (c - (j : Int)).toNat = c.toNat - j := by omega
        rw [hret, e1]
        apply ih
        · rw [e2, List.length_drop]; omega
        · rw [e2]
          by_cases hj0 : j = 0
          · have := hprog (by omega) hlen hj0
            omega
          · omega
    · simp [hc]

theorem strlen_le_length (buf : List Nat) : strlen buf ≤ buf.length := by
  unfold strlen cstr
  exact (List.takeWhile_sublist _).length_le

theorem toInt_toNat_le (n : Nat) : (toInt n).toNat ≤ n := by
  have := toInt_le n
  omega

/-- Function `sendCompleteString` always returns. -/
theorem sendCompleteString_isSome (s : Socket) (message : List Nat) :
    (sendCompleteString s message).isSome = true := by
  unfold sendCompleteString
  apply sendCompleteStringLoop_isSome
  · exact (toInt_toNat_le _).trans (strlen_le_length _)
  · have := toInt_toNat_le (strlen message)
    omega

theorem cstr_eq_self {l : List Nat} (h : ∀ b ∈ l, b ≠ 0) : cstr l = l := by
  unfold cstr
  rw [List.takeWhile_eq_self_iff]
  intro x hx
  simpa using h x hx

theorem take_strlen (buf : List Nat) : buf.take (strlen buf) = cstr buf := by
  unfold strlen cstr
  induction buf with
  | nil => simp
  | cons a l ih =>
    by_cases ha : a = 0
    · simp [ha]
    · have hp : (a != 0) = true := by simpa using ha
      rw [List.takeWhile_cons_of_pos (p := fun b => b != 0) hp]
      simpa using ih

theorem isdigit_ne {b : Nat} (h : isdigit b = true) : b ≠ 0 ∧ b ≠ 64 ∧ b ≠ 45 ∧ b ≠ 43 ∧
    isspace b = false ∧ b ≠ 32 := by
  simp [isdigit] at h
  simp [isspace]
  omega

theorem toInt_range (n : Nat) : -2147483648 ≤ toInt n ∧ toInt n < 2147483648 := by
  unfold toInt
  have : n % 4294967296 < 4294967296 := Nat.mod_lt _ (by norm_num)
  split <;> omega

/-- The length string `"%d@"` holds no `'\0'` and at most 12 characters. -/
theorem messageLenStr_facts (v : Int) (hv : v.natAbs ≤ 2147483648) :
    (∀ b ∈ sprintfInt v ++ [64], b ≠ 0) ∧ (sprintfInt v ++ [64]).length ≤ 12 := by
  have hlen : (decimal v.natAbs).length ≤ 10 :=
    decimalCore_length_le _ _ 9 (by norm_num; omega)
  have hdig := decimal_digits v.natAbs
  unfold sprintfInt
  split
  · refine ⟨?_, by simp; omega⟩
    intro b hb
    simp only [List.cons_append, List.mem_cons, List.mem_append, List.mem_singleton,
      List.not_mem_nil, or_false] at hb
    rcases hb with rfl | hb | rfl
    · omega
    · exact (isdigit_ne (hdig b hb)).1
    · omega
  · refine ⟨?_, by simp; omega⟩
    intro b hb
    simp only [List.mem_append, List.mem_singleton] at hb
    rcases hb with hb | rfl
    · exact (isdigit_ne (hdig b hb)).1
    · omega

/-- Under a positive schedule `sendCompleteString` succeeds and writes the
first `(int)strlen(message)` bytes of the string. -/
theorem sendCompleteString_positive (s : Socket) (message : List Nat)
    (hp : positive s.sendSched = true) :
    ∃ s', sendCompleteString s message = some (0, s') ∧
      s'.outbound = s.outbound ++ message.take (toInt (strlen message)).toNat ∧
      positive s'.sendSched = true ∧ s'.inbound = s.inbound ∧ s'.recvSched = s.recvSched := by
  unfold sendCompleteString
  apply sendCompleteStringLoop_positive _ _ _ _ hp
  · exact (toInt_toNat_le _).trans (strlen_le_length _)
  · have := toInt_toNat_le (strlen message)
    omega

/-- When `sendCompleteString` returns `0` it has written the first
`(int)strlen(message)` bytes of the string. -/
theorem sendCompleteString_result (s s' : Socket) (message : List Nat) (r : Int)
    (h : sendCompleteString s message = some (r, s')) :
    (r = 0 ∨ r = -1) ∧
      (r = 0 → s'.outbound = s.outbound ++ message.take (toInt (strlen message)).toNat) ∧
      s'.inbound = s.inbound ∧ s'.recvSched = s.recvSched :=
  sendCompleteStringLoop_result _ _ _ _ _ _ h

/-- The bytes `sendMessage` puts on the wire for `message`. -/
theorem sendMessage_wire (message : List Nat) :
    (sprintfInt (toInt (strlen message)) ++ [64]).take
        (toInt (strlen (sprintfInt (toInt (strlen message)) ++ [64]))).toNat
      = sprintfInt (toInt (strlen message)) ++ [64] := by
  have hr := toInt_range (strlen message)
  obtain ⟨h0, hl⟩ := messageLenStr_facts (toInt (strlen message)) (by omega)
  have e : strlen (sprintfInt (toInt (strlen message)) ++ [64])
      = (sprintfInt (toInt (strlen message)) ++ [64]).length := by
    show (cstr _).length = _
    rw [cstr_eq_self h0]
  rw [e, toInt_of_lt (by omega)]
  simp

/-- Whatever the schedule, `sendMessage` returns `0` or `-1`; when it returns
`0` the length string and the first `(int)strlen(message)` bytes of the
message were written, in this order. -/
theorem sendMessage_result (s s' : Socket) (message : List Nat) (r : Int)
    (h : sendMessage s message = some (r, s')) :
    (r = 0 ∨ r = -1) ∧
      (r = 0 → s'.outbound = s.outbound ++
        ((sprintfInt (toInt (strlen message)) ++ [64]) ++
          message.take (toInt (strlen message)).toNat)) ∧
      s'.inbound = s.inbound ∧ s'.recvSched = s.recvSched := by
  unfold sendMessage at h
  simp only at h
  cases h1 : sendCompleteString s (sprintfInt (toInt (strlen message)) ++ [64]) with
  | none => simp [h1] at h
  | some p1 =>
    obtain ⟨r1, s1⟩ := p1
    obtain ⟨hr1, ho1, hi1, hs1⟩ := sendCompleteString_result _ _ _ _ h1
    simp only [h1] at h
    by_cases hneg : r1 = -1
    · simp only [hneg, if_true] at h
      simp at h
      obtain ⟨rfl, rfl⟩ := h
      exact ⟨Or.inr rfl, by simp, hi1, hs1⟩
    · simp only [hneg, if_false] at h
      have hr10 : r1 = 0 := by rcases hr1 with h0 | h0 <;> [exact h0; exact absurd h0 hneg]
      cases h2 : sendCompleteString s1 message with
      | none => simp [h2] at h
      | some p2 =>
        obtain ⟨r2, s2⟩ := p2
        obtain ⟨hr2, ho2, hi2, hs2⟩ := sendCompleteString_result _ _ _ _ h2
        simp only [h2] at h
        by_cases hneg2 : r2 = -1
        · simp only [hneg2, if_true] at h
          simp at h
          obtain ⟨rfl, rfl⟩ := h
          exact ⟨Or.inr rfl, by simp, hi2.trans hi1, hs2.trans hs1⟩
        · simp only [hneg2, if_false] at h
          simp at h
          obtain ⟨rfl, rfl⟩ := h
          have hr20 : r2 = 0 := by rcases hr2 with h0 | h0 <;> [exact h0; exact absurd h0 hneg2]
          refine ⟨Or.inl rfl, ?_, hi2.trans hi1, hs2.trans hs1⟩
          intro _
          rw [ho2 hr20, ho1 hr10, sendMessage_wire, List.append_assoc]

/-- Under a positive schedule `sendMessage` succeeds. -/
theorem sendMessage_positive (s : Socket) (message : List Nat)
    (hp : positive s.sendSched = true) :
    ∃ s', sendMessage s message = some (0, s') ∧
      s'.outbound = s.outbound ++
        ((sprintfInt (toInt (strlen message)) ++ [64]) ++
          message.take (toInt (strlen message)).toNat) ∧
      positive s'.sendSched = true ∧ s'.inbound = s.inbound ∧ s'.recvSched = s.recvSched := by
  obtain ⟨s1, h1, ho1, hp1, hi1, hs1⟩ :=
    sendCompleteString_positive s (sprintfInt (toInt (strlen message)) ++ [64]) hp
  obtain ⟨s2, h2, ho2, hp2, hi2, hs2⟩ := sendCompleteString_positive s1 message hp1
  refine ⟨s2, ?_, ?_, hp2, hi2.trans hi1, hs2.trans hs1⟩
  · unfold sendMessage
    simp [h1, h2]
  · rw [ho2, ho1, sendMessage_wire, List.append_assoc]

/-- `sendMessage` always returns. -/
theorem sendMessage_isSome (s : Socket) (message : List Nat) :
    (sendMessage s message).isSome = true := by
  unfold sendMessage
  simp only
  have h1 := sendCompleteString_isSome s (sprintfInt (toInt (strlen message)) ++ [64])
  cases e1 : sendCompleteString s (sprintfInt (toInt (strlen message)) ++ [64]) with
  | none => simp [e1] at h1
  | some p1 =>
    obtain ⟨r1, s1⟩ := p1
    simp only
    split
    · rfl
    · have h2 := sendCompleteString_isSome s1 message
      cases e2 : sendCompleteString s1 message with
      | none => simp [e2] at h2
      | some p2 =>
        obtain ⟨r2, s2⟩ := p2
        simp only
        split <;> rfl

/-- For a message shorter than `2^31` bytes the wire bytes are the decimal
length, `'@'` and the C string. -/
theorem wire_of_lt (message : List Nat) (h : strlen message < 2147483648) :
    (sprintfInt (toInt (strlen message)) ++ [64]) ++
        message.take (toInt (strlen message)).toNat
      = decimal (strlen message) ++ 64 :: cstr message := by
  rw [toInt_of_lt h]
  have : ¬ ((strlen message : Int) < 0) := by omega
  simp [sprintfInt, this, take_strlen]

/-! ## `recvMessage`: what a run reads, whatever the schedule -/

/-- What one `recv` call can do, whatever the schedule. -/
theorem recv_spec (s : Socket) (n : Nat) :
    (recv s n).2.2.calls = s.calls ++ [Call.recv n (recv s n).1] ∧
    s.inbound = (recv s n).2.1 ++ (recv s n).2.2.inbound ∧
    (((recv s n).1 = -1 ∧ (recv s n).2.1 = []) ∨ (recv s n).1 = ((recv s n).2.1.length : Int)) ∧
    (recv s n).2.1.length ≤ n ∧
    (recv s n).2.2.outbound = s.outbound ∧ (recv s n).2.2.sendSched = s.sendSched := by
  unfold recv
  split
  · exact ⟨rfl, by simp, Or.inl ⟨rfl, rfl⟩, by simp, rfl, rfl⟩
  · refine ⟨rfl, by simp, Or.inr rfl, ?_, rfl, rfl⟩
    simp only [List.length_take]
    omega
  · refine ⟨rfl, by simp, Or.inr rfl, ?_, rfl, rfl⟩
    simp only [List.length_take]
    omega

theorem recvError_iff (charsRead : Int) : recvError charsRead = true ↔ charsRead ≤ 0 := by
  unfold recvError
  split <;> simp [*]

/-- Log invariant of the length loop: it returns `NULL` exactly when one of its
`recv` calls failed, and otherwise has consumed the bytes it stored, the last
of which is `'@'`. -/
theorem recvLengthLoop_log (fuel : Nat) (s s' : Socket) (written : List Nat)
    (r : Option (List Nat)) (h : recvLengthLoop fuel s written = some (r, s')) :
    ∃ new, s'.calls = s.calls ++ new ∧
      (r = none ↔ ∃ c ∈ new, Call.failedRecv c = true) ∧
      (∀ w, r = some w → ∃ got, w = written ++ got ∧ s.inbound = got ++ s'.inbound ∧
        w.getLast? = some 64) ∧
      s'.outbound = s.outbound ∧ s'.sendSched = s.sendSched := by
  induction fuel generalizing s written with
  | zero => simp [recvLengthLoop] at h
  | succ fuel ih =>
    unfold recvLengthLoop at h
    obtain ⟨hcalls, hinb, hret, hle, hout, hss⟩ := recv_spec s 1
    simp only at h
    by_cases herr : recvError (recv s 1).1 = true
    · simp only [herr, if_true] at h
      simp at h
      obtain ⟨rfl, rfl⟩ := h
      refine ⟨[Call.recv 1 (recv s 1).1], hcalls, ?_, by simp, hout, hss⟩
      simp [Call.failedRecv, (recvError_iff _).1 herr]
    · have herr' : recvError (recv s 1).1 = false := by simpa using herr
      simp only [herr', Bool.false_eq_true, if_false] at h
      have hpos : ¬ ((recv s 1).1 ≤ 0) := fun hh => herr ((recvError_iff _).2 hh)
      split at h
      · simp at h
      · split at h
        · rename_i hend
          simp at h
          obtain ⟨rfl, rfl⟩ := h
          refine ⟨[Call.recv 1 (recv s 1).1], hcalls, ?_, ?_, hout, hss⟩
          · simp [Call.failedRecv, hpos]
          · intro w hw
            simp at hw
            subst hw
            exact ⟨(recv s 1).2.1, rfl, hinb, hend⟩
        · obtain ⟨new, h1, h2, h3, h4, h5⟩ := ih _ _ h
          refine ⟨Call.recv 1 (recv s 1).1 :: new, ?_, ?_, ?_, h4.trans hout, h5.trans hss⟩
          · rw [h1, hcalls]; simp
          · rw [h2]
            simp [Call.failedRecv, hpos]
          · intro w hw
            obtain ⟨got, e1, e2, e3⟩ := h3 w hw
            refine ⟨(recv s 1).2.1 ++ got, ?_, ?_, e3⟩
            · rw [e1]; simp
            · rw [hinb, e2]; simp

/-- Log invariant of the payload loop: it returns `NULL` exactly when one of
its `recv` calls failed, and otherwise has consumed exactly `charsRemaining`
bytes and stored them. -/
theorem recvPayloadLoop_log (fuel : Nat) (s s' : Socket) (c : Int) (message : List Nat)
    (r : Option (List Nat)) (h : recvPayloadLoop fuel s c message = some (r, s')) :
    ∃ new, s'.calls = s.calls ++ new ∧
      (r = none ↔ ∃ c ∈ new, Call.failedRecv c = true) ∧
      (∀ p, r = some p → ∃ got, p = message ++ got ∧ s.inbound = got ++ s'.inbound ∧
        got.length = c.toNat) ∧
      s'.outbound = s.outbound ∧ s'.sendSched = s.sendSched := by
  induction fuel generalizing s c message with
  | zero => simp [recvPayloadLoop] at h
  | succ fuel ih =>
    unfold recvPayloadLoop at h
    by_cases hc : c > 0
    · simp only [hc, if_true] at h
      obtain ⟨hcalls, hinb, hret, hle, hout, hss⟩ := recv_spec s c.toNat
      by_cases herr : recvError (recv s c.toNat).1 = true
      · simp only [herr, if_true] at h
        simp at h
        obtain ⟨rfl, rfl⟩ := h
        refine ⟨[Call.recv c.toNat (recv s c.toNat).1], hcalls, ?_, by simp, hout, hss⟩
        simp [Call.failedRecv, (recvError_iff _).1 herr]
      · have herr' : recvError (recv s c.toNat).1 = false := by simpa using herr
        simp only [herr', Bool.false_eq_true, if_false] at h
        have hpos : ¬ ((recv s c.toNat).1 ≤ 0) := fun hh => herr ((recvError_iff _).2 hh)
        have hlen : (recv s c.toNat).1 = ((recv s c.toNat).2.1.length : Int) := by
          rcases hret with ⟨h1, -⟩ | h1
          · omega
          · exact h1
        obtain ⟨new, h1, h2, h3, h4, h5⟩ := ih _ _ _ h
        refine ⟨Call.recv c.toNat (recv s c.toNat).1 :: new, ?_, ?_, ?_,
          h4.trans hout, h5.trans hss⟩
        · rw [h1, hcalls]; simp
        · rw [h2]
          simp [Call.failedRecv, hpos]
        · intro p hp
          obtain ⟨got, e1, e2, e3⟩ := h3 p hp
          refine ⟨(recv s c.toNat).2.1 ++ got, ?_, ?_, ?_⟩
          · rw [e1]; simp
          · rw [e2] at hinb; rw [hinb]; simp
          · rw [List.length_append, e3, hlen]
            omega
    · simp only [hc, if_false] at h
      simp at h
      obtain ⟨rfl, rfl⟩ := h
      refine ⟨[], by simp, by simp, ?_, rfl, rfl⟩
      intro p hp
      simp at hp
      subst hp
      exact ⟨[], by simp, by simp, by simp; omega⟩

/-! ## Loop budgets of `recvMessage` -/

/-- A successful `recv` consumes at least one pending byte. -/
theorem recv_consumes (s : Socket) (n : Nat) (h : ¬ ((recv s n).1 ≤ 0)) :
    (recv s n).2.2.inbound.length < s.inbound.length := by
  obtain ⟨-, hinb, hret, -, -, -⟩ := recv_spec s n
  have hlen : (recv s n).1 = ((recv s n).2.1.length : Int) := by
    rcases hret with ⟨h1, -⟩ | h1
    · omega
    · exact h1
  have := congrArg List.length hinb
  rw [List.length_append] at this
  omega

/-- The length loop does not depend on its budget once the budget exceeds the
number of pending bytes: the budget given by `recvMessage` is never used up. -/
theorem recvLengthLoop_fuel (fuel extra : Nat) (s : Socket) (written : List Nat)
    (h : s.inbound.length < fuel) :
    recvLengthLoop (fuel + extra) s written = recvLengthLoop fuel s written := by
  induction fuel generalizing s written with
  | zero => omega
  | succ fuel ih =>
    rw [show fuel + 1 + extra = (fuel + extra) + 1 by omega]
    unfold recvLengthLoop
    simp only
    by_cases herr : recvError (recv s 1).1 = true
    · simp [herr]
    · have herr' : recvError (recv s 1).1 = false := by simpa using herr
      have hpos : ¬ ((recv s 1).1 ≤ 0) := fun hh => herr ((recvError_iff _).2 hh)
      have hlt := recv_consumes s 1 hpos
      simp only [herr', Bool.false_eq_true, if_false]
      rw [ih _ _ (lt_of_lt_of_le hlt (by omega))]

/-- The payload loop returns within `charsRemaining + 1` iterations. -/
theorem recvPayloadLoop_isSome (fuel : Nat) (s : Socket) (c : Int) (message : List Nat)
    (h : c.toNat < fuel) : (recvPayloadLoop fuel s c message).isSome = true := by
  induction fuel generalizing s c message with
  | zero => omega
  | succ fuel ih =>
    unfold recvPayloadLoop
    by_cases hc : c > 0
    · simp only [hc, if_true]
      by_cases herr : recvError (recv s c.toNat).1 = true
      · simp [herr]
      · have herr' : recvError (recv s c.toNat).1 = false := by simpa using herr
        have hpos : ¬ ((recv s c.toNat).1 ≤ 0) := fun hh => herr ((recvError_iff _).2 hh)
        simp only [herr', Bool.false_eq_true, if_false]
        apply ih
        omega
    · simp [hc]

/-! ## `recvMessage` under a positive schedule -/

/-- Under positive schedules the length loop depends on the pending bytes only. -/
theorem recvLengthLoop_sched_indep (fuel : Nat) (s t : Socket) (written : List Nat)
    (hi : s.inbound = t.inbound) (hs : positive s.recvSched = true)
    (ht : positive t.recvSched = true) :
    (recvLengthLoop fuel s written = none ∧ recvLengthLoop fuel t written = none) ∨
    ∃ r s' t', recvLengthLoop fuel s written = some (r, s') ∧
      recvLengthLoop fuel t written = some (r, t') ∧ s'.inbound = t'.inbound ∧
      positive s'.recvSched = true ∧ positive t'.recvSched = true := by
  induction fuel generalizing s t written with
  | zero => exact Or.inl ⟨rfl, rfl⟩
  | succ fuel ih =>
    obtain ⟨j, hj1, hj2, hj3, hjr, hjg, hji, hjp, -, -⟩ := recv_positive s 1 hs (by omega)
    obtain ⟨k, hk1, hk2, hk3, hkr, hkg, hki, hkp, -, -⟩ := recv_positive t 1 ht (by omega)
    have hjk : j = k := by
      by_cases hne : s.inbound = []
      · have h1 : s.inbound.length = 0 := by simp [hne]
        have h2 : t.inbound.length = 0 := by rw [← hi]; exact h1
        omega
      · have := hj3 hne
        have := hk3 (by rw [← hi]; exact hne)
        omega
    subst hjk
    rw [← hi] at hkg hki
    have hinb : (recv s 1).2.2.inbound = (recv t 1).2.2.inbound := by rw [hji, hki]
    unfold recvLengthLoop
    simp only [hjr, hkr, hjg, hkg]
    by_cases herr : recvError (j : Int) = true
    · simp only [herr, if_true]
      exact Or.inr ⟨none, _, _, rfl, rfl, hinb, hjp, hkp⟩
    · have herr' : recvError (j : Int) = false := by simpa using herr
      simp only [herr', Bool.false_eq_true, if_false]
      split
      · exact Or.inl ⟨rfl, rfl⟩
      · split
        · exact Or.inr ⟨_, _, _, rfl, rfl, hinb, hjp, hkp⟩
        · exact ih _ _ _ hinb hjp hkp

/-- Under a positive schedule the payload loop returns the next
`charsRemaining` pending bytes when that many are pending. -/
theorem recvPayloadLoop_positive (fuel : Nat) (s : Socket) (c : Int) (message : List Nat)
    (hp : positive s.recvSched = true) (hf : c.toNat < fuel)
    (hlen : c.toNat ≤ s.inbound.length) :
    ∃ s', recvPayloadLoop fuel s c message
        = some (some (message ++ s.inbound.take c.toNat), s') ∧
      s'.inbound = s.inbound.drop c.toNat ∧ positive s'.recvSched = true ∧
      s'.outbound = s.outbound ∧ s'.sendSched = s.sendSched := by
  induction fuel generalizing s c message with
  | zero => omega
  | succ fuel ih =>
    unfold recvPayloadLoop
    by_cases hc : c > 0
    · simp only [hc, if_true]
      obtain ⟨j, hj1, hj2, hj3, hjr, hjg, hji, hjp, hjo, hjs⟩ :=
        recv_positive s c.toNat hp (by omega)
      have hne : s.inbound ≠ [] := by
        intro h0
        rw [h0] at hlen
        simp at hlen
        omega
      have hj := hj3 hne
      have herr' : recvError (j : Int) = false := by
        cases h : recvError (j : Int)
        · rfl
        · have := (recvError_iff _).1 h
          omega
      simp only [hjr, hjg, herr', Bool.false_eq_true, if_false]
      have e2 : (c - (j : Int)).toNat = c.toNat - j := by omega
      obtain ⟨s', h1, h2, h3, h4, h5⟩ := ih (recv s c.toNat).2.2 (c - j)
        (message ++ s.inbound.take j) hjp (by omega)
        (by rw [hji, List.length_drop, e2]; omega)
      refine ⟨s', ?_, ?_, h3, h4.trans hjo, h5.trans hjs⟩
      · rw [h1, hji, e2, List.append_assoc]
        have e3 : c.toNat = j + (c.toNat - j) := by omega
        conv_rhs => rw [e3, List.take_add]
      · rw [h2, hji, e2, List.drop_drop]
        congr 1
        omega
    · simp only [hc, if_false]
      have : c.toNat = 0 := by omega
      exact ⟨s, by simp [this], by simp [this], hp, rfl, rfl⟩

/-- Under a positive schedule the payload loop returns `NULL`, having used
up the pending bytes, when fewer than `charsRemaining` bytes are pending. -/
theorem recvPayloadLoop_short (fuel : Nat) (s : Socket) (c : Int) (message : List Nat)
    (hp : positive s.recvSched = true) (hf : s.inbound.length < fuel)
    (hlen : s.inbound.length < c.toNat) :
    ∃ s', recvPayloadLoop fuel s c message = some (none, s') ∧
      s'.inbound = [] ∧ positive s'.recvSched = true ∧
      s'.outbound = s.outbound ∧ s'.sendSched = s.sendSched := by
  induction fuel generalizing s c message with
  | zero => omega
  | succ fuel ih =>
    unfold recvPayloadLoop
    have hc : c > 0 := by omega
    simp only [hc, if_true]
    obtain ⟨j, hj1, hj2, hj3, hjr, hjg, hji, hjp, hjo, hjs⟩ :=
      recv_positive s c.toNat hp (by omega)
    by_cases hne : s.inbound = []
    · have hj0 : j = 0 := by simp [hne] at hj2; exact hj2
      subst hj0
      have herr : recvError ((0 : Nat) : Int) = true := (recvError_iff _).2 (by simp)
      simp only [hjr, herr, if_true]
      refine ⟨_, rfl, ?_, hjp, hjo, hjs⟩
      rw [hji, hne]; rfl
    · have hj := hj3 hne
      have herr' : recvError (j : Int) = false := by
        cases h : recvError (j : Int)
        · rfl
        · have := (recvError_iff _).1 h
          omega
      simp only [hjr, hjg, herr', Bool.false_eq_true, if_false]
      have e2 : (c - (j : Int)).toNat = c.toNat - j := by omega
      obtain ⟨s', h1, h2, h3, h4, h5⟩ := ih (recv s c.toNat).2.2 (c - j)
        (message ++ s.inbound.take j) hjp
        (by rw [hji, List.length_drop]; omega)
        (by rw [hji, List.length_drop, e2]; omega)
      exact ⟨s', h1, h2, h3, h4.trans hjo, h5.trans hjs⟩

/-- Under a positive schedule the length loop stores the bytes up to the
first `'@'` when they fit the 12-byte buffer. -/
theorem recvLengthLoop_positive (ds : List Nat) (fuel : Nat) (s : Socket)
    (written rest : List Nat) (hp : positive s.recvSched = true)
    (hi : s.inbound = ds ++ 64 :: rest) (hds : ∀ b ∈ ds, b ≠ 64)
    (hfit : written.length + ds.length + 1 ≤ 12) (hf : ds.length < fuel) :
    ∃ s', recvLengthLoop fuel s written = some (some (written ++ ds ++ [64]), s') ∧
      s'.inbound = rest ∧ positive s'.recvSched = true ∧
      s'.outbound = s.outbound ∧ s'.sendSched = s.sendSched := by
  induction ds generalizing fuel s written with
  | nil =>
    cases fuel with
    | zero => simp at hf
    | succ fuel =>
      obtain ⟨j, hj1, hj2, hj3, hjr, hjg, hji, hjp, hjo, hjs⟩ :=
        recv_positive s 1 hp (by omega)
      have hj : j = 1 := by
        have := hj3 (by rw [hi]; simp)
        omega
      subst hj
      have herr' : recvError ((1 : Nat) : Int) = false := by decide
      unfold recvLengthLoop
      simp only [hjr, hjg, herr', Bool.false_eq_true, if_false]
      rw [hi] at hjg hji ⊢
      simp only [List.nil_append, List.take_succ_cons, List.take_zero, List.length_singleton]
      simp at hfit
      have hnot : ¬ (written.length + 1 > 12) := by omega
      simp only [hnot, if_false]
      simp only [List.nil_append, List.drop_succ_cons, List.drop_zero] at hji
      have hlast : (written ++ [64]).getLast? = some 64 := by
        simp [List.getLast?_append]
      simp only [hlast, if_true, List.append_nil]
      exact ⟨_, rfl, hji, hjp, hjo, hjs⟩
  | cons d ds ih =>
    cases fuel with
    | zero => simp at hf
    | succ fuel =>
      obtain ⟨j, hj1, hj2, hj3, hjr, hjg, hji, hjp, hjo, hjs⟩ :=
        recv_positive s 1 hp (by omega)
      have hj : j = 1 := by
        have := hj3 (by rw [hi]; simp)
        omega
      subst hj
      have herr' : recvError ((1 : Nat) : Int) = false := by decide
      unfold recvLengthLoop
      simp only [hjr, hjg, herr', Bool.false_eq_true, if_false]
      rw [hi] at hji ⊢
      simp only [List.cons_append, List.take_succ_cons, List.take_zero, List.length_singleton]
      simp only [List.length_cons] at hfit hf
      have hnot : ¬ (written.length + 1 > 12) := by omega
      simp only [hnot, if_false]
      simp only [List.cons_append, List.drop_succ_cons, List.drop_zero] at hji
      have hd : d ≠ 64 := hds d (by simp)
      have hlast : ¬ ((written ++ [d]).getLast? = some 64) := by
        simp [List.getLast?_append, hd]
      simp only [hlast, if_false]
      obtain ⟨s', h1, h2, h3, h4, h5⟩ := ih fuel (recv s 1).2.2 (written ++ [d]) hjp hji
        (fun b hb => hds b (by simp [hb])) (by simp; omega) (by omega)
      refine ⟨s', ?_, h2, h3, h4.trans hjo, h5.trans hjs⟩
      rw [h1]
      simp

theorem dropWhile_isspace_digits (ds : List Nat) (h : ∀ b ∈ ds, isdigit b = true) :
    ds.dropWhile isspace = ds := by
  cases ds with
  | nil => rfl
  | cons d ds =>
    have := (isdigit_ne (h d (by simp))).2.2.2.2.1
    simp [List.dropWhile, this]

/-- On a run of decimal digits `atoi` returns the number it denotes. -/
theorem atoi_digits (ds : List Nat) (h : ∀ b ∈ ds, isdigit b = true)
    (hv : atoiDigits 0 ds ≤ 2147483647) : atoi ds = some (atoiDigits 0 ds : Int) := by
  have hs : atoiSigned ds = (atoiDigits 0 ds : Int) := by
    cases ds with
    | nil => rfl
    | cons d ds =>
      obtain ⟨-, -, h45, h43, -, -⟩ := isdigit_ne (h d (by simp))
      unfold atoiSigned
      split
      · rename_i heq
        simp at heq
        exact absurd heq.1 h45
      · rename_i heq
        simp at heq
        exact absurd heq.1 h43
      · rfl
  unfold atoi
  simp only [dropWhile_isspace_digits ds h, hs]
  have hrange : INT_MIN ≤ (atoiDigits 0 ds : Int) ∧ (atoiDigits 0 ds : Int) ≤ INT_MAX := by
    unfold INT_MIN INT_MAX
    omega
  simp [hrange]

/-- The length derived from a run of at most 10 decimal digits followed by `'@'`. -/
theorem parseMessageLen_digits (ds : List Nat) (h : ∀ b ∈ ds, isdigit b = true)
    (hlen : ds.length ≤ 10) (hv : atoiDigits 0 ds ≤ 2147483647) :
    parseMessageLen (ds ++ [64]) = some (atoiDigits 0 ds : Int) := by
  have h0 : ∀ b ∈ ds ++ [64], b ≠ 0 := by
    intro b hb
    simp only [List.mem_append, List.mem_singleton] at hb
    rcases hb with hb | rfl
    · exact (isdigit_ne (h b hb)).1
    · omega
  unfold parseMessageLen strlen
  rw [cstr_eq_self h0]
  have h1 : ¬ ((ds ++ [64]).length ≥ 12) := by simp; omega
  have h2 : ¬ ((ds ++ [64]).length = 0) := by simp
  simp only [h1, h2, if_false]
  have h3 : (ds ++ [64]).take ((ds ++ [64]).length - 1) = ds := by simp
  rw [h3]
  exact atoi_digits ds h hv

/-- Under a positive schedule, on a stream that starts with at most 10 decimal
digits denoting `L` and `'@'`, `recvMessage` returns the next `L` bytes and
leaves the rest pending; when fewer than `L` bytes follow it returns `NULL`. -/
theorem recvMessage_digits (s : Socket) (ds tail : List Nat)
    (hp : positive s.recvSched = true) (hi : s.inbound = ds ++ 64 :: tail)
    (hd : ∀ b ∈ ds, isdigit b = true) (hlen : ds.length ≤ 10)
    (hv : atoiDigits 0 ds < 2147483647) :
    ∃ s', recvMessage s = some
        (if atoiDigits 0 ds ≤ tail.length then some (tail.take (atoiDigits 0 ds)) else none, s') ∧
      s'.inbound = (if atoiDigits 0 ds ≤ tail.length then tail.drop (atoiDigits 0 ds) else []) ∧
      positive s'.recvSched = true ∧ s'.outbound = s.outbound ∧ s'.sendSched = s.sendSched := by
  obtain ⟨s1, h1, hi1, hp1, ho1, hs1⟩ := recvLengthLoop_positive ds (s.inbound.length + 1) s []
    tail hp hi (fun b hb => (isdigit_ne (hd b hb)).2.1) (by simp; omega)
    (by rw [hi]; simp; omega)
  have hparse := parseMessageLen_digits ds hd hlen (by omega)
  unfold recvMessage
  simp only [h1, List.nil_append, hparse]
  have hguard : ¬ ((atoiDigits 0 ds : Int) < 0 ∨ (atoiDigits 0 ds : Int) + 1 > INT_MAX) := by
    unfold INT_MAX
    omega
  simp only [hguard, if_false, Int.toNat_ofNat]
  by_cases hle : atoiDigits 0 ds ≤ tail.length
  · obtain ⟨s2, h2, hi2, hp2, ho2, hs2⟩ := recvPayloadLoop_positive (atoiDigits 0 ds + 1) s1
      (atoiDigits 0 ds : Int) [] hp1 (by simp) (by rw [hi1]; simpa using hle)
    refine ⟨s2, ?_, ?_, hp2, ho2.trans ho1, hs2.trans hs1⟩
    · rw [h2, hi1]; simp [hle]
    · rw [hi2, hi1]; simp [hle]
  · obtain ⟨s2, h2, hi2, hp2, ho2, hs2⟩ := recvPayloadLoop_short (atoiDigits 0 ds + 1) s1
      (atoiDigits 0 ds : Int) [] hp1 (by rw [hi1]; omega) (by rw [hi1]; simp; omega)
    refine ⟨s2, ?_, ?_, hp2, ho2.trans ho1, hs2.trans hs1⟩
    · rw [h2]; simp [hle]
    · rw [hi2]; simp [hle]

/-- Under positive schedules `recvMessage` depends on the pending bytes only:
two sockets with the same pending bytes give the same result and leave the same
bytes pending. -/
theorem recvMessage_sched_indep (s t : Socket) (hi : s.inbound = t.inbound)
    (hs : positive s.recvSched = true) (ht : positive t.recvSched = true) :
    (recvMessage s).map (fun x => (x.1, x.2.inbound))
      = (recvMessage t).map (fun x => (x.1, x.2.inbound)) := by
  unfold recvMessage
  rw [← hi]
  rcases recvLengthLoop_sched_indep (s.inbound.length + 1) s t [] hi hs ht with
    ⟨h1, h2⟩ | ⟨r, s1, t1, h1, h2, hi1, hs1, ht1⟩
  · simp [h1, h2]
  · simp only [h1, h2]
    cases r with
    | none => simp [hi1]
    | some written =>
      simp only
      cases hparse : parseMessageLen written with
      | none => simp
      | some messageLen =>
        simp only
        by_cases hguard : messageLen < 0 ∨ messageLen + 1 > INT_MAX
        · simp [hguard]
        · simp only [hguard, if_false]
          by_cases hle : messageLen.toNat ≤ s1.inbound.length
          · obtain ⟨s2, e1, e2, -⟩ := recvPayloadLoop_positive (messageLen.toNat + 1) s1
              messageLen [] hs1 (by omega) hle
            obtain ⟨t2, f1, f2, -⟩ := recvPayloadLoop_positive (messageLen.toNat + 1) t1
              messageLen [] ht1 (by omega) (by rw [← hi1]; exact hle)
            simp [e1, f1, e2, f2, hi1]
          · obtain ⟨s2, e1, e2, -⟩ := recvPayloadLoop_short (messageLen.toNat + 1) s1
              messageLen [] hs1 (by omega) (by omega)
            obtain ⟨t2, f1, f2, -⟩ := recvPayloadLoop_short (messageLen.toNat + 1) t1
              messageLen [] ht1 (by rw [← hi1]; omega) (by rw [← hi1]; omega)
            simp [e1, f1, e2, f2]

/-- The digits evaluated by `atoi` denote the number Mathlib reads from them. -/
theorem atoiDigits_eq_ofDigits (acc : Nat) (ds : List Nat) (h : ∀ b ∈ ds, isdigit b = true) :
    atoiDigits acc ds
      = acc * 10 ^ ds.length + Nat.ofDigits 10 ((ds.map (fun b => b - 48)).reverse) := by
  induction ds generalizing acc with
  | nil => simp [atoiDigits]
  | cons d ds ih =>
    have hd : isdigit d = true := h d (by simp)
    simp only [atoiDigits, hd, if_true, List.map_cons, List.reverse_cons, List.length_cons]
    rw [ih _ (fun b hb => h b (by simp [hb])), Nat.ofDigits_append]
    simp only [List.length_reverse, List.length_map, Nat.ofDigits_singleton]
    ring

/-- The digits written by `"%d"` are the decimal digits of the number. -/
theorem decimalCore_eq_digits (fuel n : Nat) (h : n < fuel) (hn : 0 < n) :
    decimalCore fuel n [] = ((Nat.digits 10 n).reverse).map (fun d => 48 + d) := by
  induction fuel generalizing n with
  | zero => omega
  | succ fuel ih =>
    unfold decimalCore
    split
    · rename_i hlt
      rw [Nat.digits_of_lt 10 n (by omega) hlt]
      simp
    · rename_i hge
      rw [decimalCore_append, ih (n / 10) (by omega) (by omega)]
      conv_rhs => rw [Nat.digits_def' (by norm_num) hn]
      simp

/-! ## Framing layer: claims -/

/-- C1 (as stated, refuted): the payload `"A\0B"` does not survive the round
trip.  `sendMessage` measures it with `strlen`, so it returns `0` having written
`"1@A"`, and `recvMessage` on these bytes returns `"A"`. -/
theorem roundtrip_nul_counterexample :
    (sendMessage (Socket.fresh []) [65, 0, 66]).bind (fun sent =>
        (recvMessage (Socket.fresh sent.2.outbound)).map (fun got =>
          (sent.1, sent.2.outbound, got.1)))
      = some (0, str "1@A", some [65]) ∧
    [65] ≠ [65, 0, 66] := by
  decide

/-- C1 (amended): framing round trip for C strings.  For every payload `P`
without a `'\0'` byte and shorter than `2^31 - 1` bytes, however the bytes are
chunked on the way in, `recvMessage` applied to the byte stream written by a
successful `sendMessage(P)` returns exactly `P` and leaves nothing pending. -/
theorem sendMessage_recvMessage_roundtrip (P : List Nat) (s s' r : Socket)
    (h0 : ∀ b ∈ P, b ≠ 0) (hlen : P.length < 2147483647)
    (hsend : sendMessage s P = some (0, s'))
    (hr : positive r.recvSched = true)
    (hwire : r.inbound = s'.outbound.drop s.outbound.length) :
    ∃ r', recvMessage r = some (some P, r') ∧ r'.inbound = [] := by
  have hc : cstr P = P := cstr_eq_self h0
  have hl : strlen P = P.length := by unfold strlen; rw [hc]
  obtain ⟨-, hout, -, -⟩ := sendMessage_result s s' P 0 hsend
  have hout := hout rfl
  rw [wire_of_lt P (by omega), hl, hc] at hout
  rw [hout] at hwire
  simp only [List.drop_left] at hwire
  have hval : atoiDigits 0 (decimal P.length) = P.length := atoiDigits_decimal _
  obtain ⟨r', h1, h2, -⟩ := recvMessage_digits r (decimal P.length) P hr hwire
    (decimal_digits _) (decimal_length_le _ (by omega)) (by rw [hval]; exact hlen)
  rw [hval] at h1 h2
  simp only [le_refl, if_true, List.take_length, List.drop_length] at h1 h2
  exact ⟨r', h1, h2⟩

theorem sendMessage_recvMessage_roundtrip_witness :
    ∃ r', recvMessage (Socket.fresh (str "7@a@b\nc d")) = some (some (str "a@b\nc d"), r') ∧
      r'.inbound = [] :=
  sendMessage_recvMessage_roundtrip (str "a@b\nc d") (Socket.fresh [])
    { inbound := [], recvSched := [], outbound := str "7@a@b\nc d", sendSched := [],
      calls := [Call.send 2 2, Call.send 7 7] }
    (Socket.fresh (str "7@a@b\nc d")) (by decide) (by decide) (by decide) (by decide)
    (by decide)

/-- C2 (as stated, refuted): the payload of the three bytes `A`, `'\0'`, `B`.
`sendMessage` returns `0` having written the four bytes `1@A`, not the digit
`3`, `'@'` and the three bytes of the payload. -/
theorem sendMessage_wire_nul_counterexample :
    sendMessage (Socket.fresh []) [65, 0, 66]
      = some (0, { inbound := [], recvSched := [], outbound := str "1@A", sendSched := [],
                   calls := [Call.send 2 2, Call.send 1 1] }) ∧
    ([65, 0, 66] : List Nat).length = 3 ∧
    str "1@A" ≠ decimal 3 ++ 64 :: [65, 0, 66] ∧
    frame [65, 0, 66] = str "3@A" ++ [0, 66] := by
  decide

/-- C2 (amended): wire format for C strings.  A successful `sendMessage` of a
buffer whose C string (its bytes before the first `'\0'`) has length
`L = strlen(message)` (below `2^31`, the range of the `int` printed by `"%d"`)
appends to the channel exactly the ASCII decimal digits of `L`, one `'@'` and
the `L` bytes of the C string, and nothing else; for a payload without `'\0'`
`L` is its length and these are all its bytes. -/
theorem sendMessage_wire_format (s s' : Socket) (message : List Nat)
    (hlen : strlen message < 2147483648) (h : sendMessage s message = some (0, s')) :
    s'.outbound = s.outbound ++ (decimal (strlen message) ++ 64 :: cstr message) ∧
    (cstr message).length = strlen message ∧
    ((∀ b ∈ message, b ≠ 0) →
      s'.outbound = s.outbound ++ (decimal message.length ++ 64 :: message)) := by
  obtain ⟨-, hout, -, -⟩ := sendMessage_result s s' message 0 h
  have hout := hout rfl
  rw [wire_of_lt message hlen] at hout
  refine ⟨hout, rfl, ?_⟩
  intro h0
  have hc : cstr message = message := cstr_eq_self h0
  have hl : strlen message = message.length := by unfold strlen; rw [hc]
  rw [hout, hl, hc]

theorem sendMessage_wire_format_witness :
    ({ inbound := [], recvSched := [], outbound := str "x12@hello, world", sendSched := [],
       calls := [Call.send 3 1, Call.send 2 0, Call.send 2 2, Call.send 12 5, Call.send 7 7] }
        : Socket).outbound
      = str "x" ++ (decimal (strlen (str "hello, world")) ++ 64 :: cstr (str "hello, world")) :=
  (sendMessage_wire_format
    { inbound := [], recvSched := [], outbound := str "x",
      sendSched := [Step.give 1, Step.give 0, Step.give 9, Step.give 5], calls := [] }
    _ (str "hello, world") (by decide) (by decide)).1

/-- C3: partial I/O resilience.  Under every schedule in which each transport
call moves a positive number of bytes (one byte at a time, say), `sendMessage`
returns `0` having written the same bytes, and `recvMessage` returns the same
result and leaves the same bytes pending, as under the schedule that moves
everything asked for in one call. -/
theorem partial_io_resilience (s r : Socket) (message : List Nat)
    (sendSched recvSched : List Step)
    (hs : positive sendSched = true) (hr : positive recvSched = true) :
    (sendMessage { s with sendSched := sendSched } message).map (fun x => (x.1, x.2.outbound))
      = (sendMessage { s with sendSched := [] } message).map (fun x => (x.1, x.2.outbound)) ∧
    (sendMessage { s with sendSched := sendSched } message).map (fun x => (x.1, x.2.outbound))
      = some (0, s.outbound ++ ((sprintfInt (toInt (strlen message)) ++ [64]) ++
          message.take (toInt (strlen message)).toNat)) ∧
    (recvMessage { r with recvSched := recvSched }).map (fun x => (x.1, x.2.inbound))
      = (recvMessage { r with recvSched := [] }).map (fun x => (x.1, x.2.inbound)) := by
  obtain ⟨s1, h1, ho1, -⟩ := sendMessage_positive { s with sendSched := sendSched } message hs
  obtain ⟨s2, h2, ho2, -⟩ := sendMessage_positive { s with sendSched := [] } message rfl
  refine ⟨?_, ?_, ?_⟩
  · rw [h1, h2]
    simp [ho1, ho2]
  · rw [h1]
    simp [ho1]
  · exact recvMessage_sched_indep _ _ rfl hr rfl

theorem partial_io_resilience_witness :
    (sendMessage { Socket.fresh [] with sendSched := [Step.give 1, Step.give 1, Step.give 1,
        Step.give 1, Step.give 1] } (str "abc")).map (fun x => (x.1, x.2.outbound))
      = some (0, str "3@abc") ∧
    (recvMessage { Socket.fresh (str "3@abc") with recvSched := [Step.give 1, Step.give 1,
        Step.give 1, Step.give 1, Step.give 1] }).map (fun x => (x.1, x.2.inbound))
      = (recvMessage (Socket.fresh (str "3@abc"))).map (fun x => (x.1, x.2.inbound)) :=
  ⟨(partial_io_resilience (Socket.fresh []) (Socket.fresh (str "3@abc")) (str "abc")
      [Step.give 1, Step.give 1, Step.give 1, Step.give 1, Step.give 1]
      [Step.give 1, Step.give 1, Step.give 1, Step.give 1, Step.give 1]
      (by decide) (by decide)).2.1,
   (partial_io_resilience (Socket.fresh []) (Socket.fresh (str "3@abc")) (str "abc")
      [Step.give 1, Step.give 1, Step.give 1, Step.give 1, Step.give 1]
      [Step.give 1, Step.give 1, Step.give 1, Step.give 1, Step.give 1]
      (by decide) (by decide)).2.2⟩

/-- C4: `recvMessage` returns `NULL` exactly when one of the `recv` calls it
made returned `0` (peer closed) or an error, be it while reading the length
prefix or while reading the payload; when it returns a payload, the bytes
consumed are the stored prefix ending in `'@'` followed by the payload, and the
payload has exactly the `L` bytes announced by the prefix. -/
theorem recvMessage_null_iff_failed_read (s s' : Socket) (r : Option (List Nat))
    (h : recvMessage s = some (r, s')) :
    ∃ new, s'.calls = s.calls ++ new ∧
      (r = none ↔ ∃ c ∈ new, Call.failedRecv c = true) ∧
      (∀ p, r = some p → ∃ (written : List Nat) (L : Nat),
        written.getLast? = some 64 ∧ parseMessageLen written = some (L : Int) ∧
        p.length = L ∧ s.inbound = written ++ p ++ s'.inbound) := by
  unfold recvMessage at h
  cases h1 : recvLengthLoop (s.inbound.length + 1) s [] with
  | none => simp [h1] at h
  | some x =>
    obtain ⟨r1, s1⟩ := x
    obtain ⟨new1, hc1, hf1, hw1, -, -⟩ := recvLengthLoop_log _ _ _ _ _ h1
    simp only [h1] at h
    cases r1 with
    | none =>
      simp at h
      obtain ⟨rfl, rfl⟩ := h
      exact ⟨new1, hc1, by simpa using hf1, by simp⟩
    | some written =>
      simp only at h
      cases hparse : parseMessageLen written with
      | none => simp [hparse] at h
      | some messageLen =>
        simp only [hparse] at h
        by_cases hguard : messageLen < 0 ∨ messageLen + 1 > INT_MAX
        · simp [hguard] at h
        · simp only [hguard, if_false] at h
          obtain ⟨new2, hc2, hf2, hw2, -, -⟩ := recvPayloadLoop_log _ _ _ _ _ _ h
          obtain ⟨got1, e1, e2, e3⟩ := hw1 written rfl
          have hnone1 : ¬ ∃ c ∈ new1, Call.failedRecv c = true := by
            rw [← hf1]; simp
          refine ⟨new1 ++ new2, by rw [hc2, hc1, List.append_assoc], ?_, ?_⟩
          · rw [hf2]
            constructor
            · rintro ⟨c, hc, hcf⟩
              exact ⟨c, by simp [hc], hcf⟩
            · rintro ⟨c, hc, hcf⟩
              simp only [List.mem_append] at hc
              rcases hc with hc | hc
              · exact absurd ⟨c, hc, hcf⟩ hnone1
              · exact ⟨c, hc, hcf⟩
          · intro p hp
            obtain ⟨got2, f1, f2, f3⟩ := hw2 p hp
            simp only [List.nil_append] at f1 e1
            subst f1 e1
            refine ⟨written, messageLen.toNat, e3, ?_, f3, ?_⟩
            · rw [hparse]
              congr 1
              omega
            · rw [e2, f2]
              simp

theorem recvMessage_null_iff_failed_read_witness :
    ∃ new, ({ inbound := [], recvSched := [], outbound := [], sendSched := [],
              calls := [Call.recv 1 1, Call.recv 1 1, Call.recv 5 3, Call.recv 2 0] }
              : Socket).calls = (Socket.fresh (str "5@hel")).calls ++ new ∧
      ((none : Option (List Nat)) = none ↔ ∃ c ∈ new, Call.failedRecv c = true) ∧
      (∀ p, (none : Option (List Nat)) = some p → ∃ (written : List Nat) (L : Nat),
        written.getLast? = some 64 ∧ parseMessageLen written = some (L : Int) ∧
        p.length = L ∧ (Socket.fresh (str "5@hel")).inbound = written ++ p ++
          ({ inbound := [], recvSched := [], outbound := [], sendSched := [],
             calls := [Call.recv 1 1, Call.recv 1 1, Call.recv 5 3, Call.recv 2 0] }
             : Socket).inbound) :=
  recvMessage_null_iff_failed_read (Socket.fresh (str "5@hel")) _ none (by decide)

/-- C5 (as stated, refuted): on the stream `"-5@"` the length loop stores
`"-5@"` and the length derived from it is `-5`, a negative number; what
`recvMessage` does with it is undefined (a buffer of `-4` bytes). -/
theorem recvMessage_negative_length_counterexample :
    (recvLengthLoop 4 (Socket.fresh (str "-5@")) []).map (fun x => x.1)
      = some (some (str "-5@")) ∧
    parseMessageLen (str "-5@") = some (-5) ∧
    recvMessage (Socket.fresh (str "-5@")) = none := by
  decide

/-- C5 (amended): when the bytes received before `'@'` are a run of at most 10
decimal digits whose value is below `2^31 - 1`, the payload length `L` that
`recvMessage` derives is the non-negative integer the run denotes, and
`recvMessage` then reads exactly `L` payload bytes: it returns the next `L`
bytes and leaves the bytes after them pending, or returns `NULL` when the peer
closes before `L` bytes. -/
theorem recvMessage_length_of_digits (s : Socket) (ds tail : List Nat)
    (hp : positive s.recvSched = true) (hi : s.inbound = ds ++ 64 :: tail)
    (hd : ∀ b ∈ ds, isdigit b = true) (hlen : ds.length ≤ 10)
    (hv : Nat.ofDigits 10 ((ds.map (fun b => b - 48)).reverse) < 2147483647) :
    parseMessageLen (ds ++ [64])
      = some ((Nat.ofDigits 10 ((ds.map (fun b => b - 48)).reverse) : Nat) : Int) ∧
    ∃ s', recvMessage s = some
        (if Nat.ofDigits 10 ((ds.map (fun b => b - 48)).reverse) ≤ tail.length
          then some (tail.take (Nat.ofDigits 10 ((ds.map (fun b => b - 48)).reverse)))
          else none, s') ∧
      s'.inbound = (if Nat.ofDigits 10 ((ds.map (fun b => b - 48)).reverse) ≤ tail.length
          then tail.drop (Nat.ofDigits 10 ((ds.map (fun b => b - 48)).reverse)) else []) := by
  have hval : atoiDigits 0 ds = Nat.ofDigits 10 ((ds.map (fun b => b - 48)).reverse) := by
    rw [atoiDigits_eq_ofDigits 0 ds hd]; simp
  rw [← hval] at hv ⊢
  refine ⟨parseMessageLen_digits ds hd hlen (by omega), ?_⟩
  obtain ⟨s', h1, h2, -⟩ := recvMessage_digits s ds tail hp hi hd hlen hv
  exact ⟨s', h1, h2⟩

theorem recvMessage_length_of_digits_witness :
    parseMessageLen (str "03" ++ [64])
      = some ((Nat.ofDigits 10 (((str "03").map (fun b => b - 48)).reverse) : Nat) : Int) ∧
    ∃ s', recvMessage (Socket.fresh (str "03@abcdef")) = some
        (if Nat.ofDigits 10 (((str "03").map (fun b => b - 48)).reverse) ≤ (str "abcdef").length
          then some ((str "abcdef").take
            (Nat.ofDigits 10 (((str "03").map (fun b => b - 48)).reverse)))
          else none, s') ∧
      s'.inbound = (if Nat.ofDigits 10 (((str "03").map (fun b => b - 48)).reverse)
            ≤ (str "abcdef").length
          then (str "abcdef").drop (Nat.ofDigits 10 (((str "03").map (fun b => b - 48)).reverse))
          else []) :=
  recvMessage_length_of_digits (Socket.fresh (str "03@abcdef")) (str "03") (str "abcdef")
    (by decide) (by decide) (by decide) (by decide) (by decide)

/-! ## Tokens -/

theorem tokensOf_nil : tokensOf [] = [] := by
  simp [tokensOf, List.splitOn]

theorem tokensOf_cons_space (s : List Nat) : tokensOf (32 :: s) = tokensOf s := by
  simp [tokensOf, List.splitOn]

theorem tokensOf_dropWhile_space (s : List Nat) :
    tokensOf (s.dropWhile (fun c => c == 32)) = tokensOf s := by
  induction s with
  | nil => rfl
  | cons a l ih =>
    by_cases ha : a = 32
    · subst ha
      rw [tokensOf_cons_space]
      simpa [List.dropWhile] using ih
    · have : (a == 32) = false := by simpa using ha
      simp [List.dropWhile, this]

theorem takeWhile_ne_space (s : List Nat) :
    ∀ x ∈ s.takeWhile (fun c => c != 32), ¬ ((x == 32) = true) := by
  intro x hx
  have := List.mem_takeWhile_imp hx
  simpa using this

/-- Relation between `strtok_r` and the token list: `NULL` when there is no
token, else the first token, with the other tokens left behind `saveptr`. -/
theorem strtok_r_spec (s : List Nat) :
    ((strtok_r s).1 = none ∧ tokensOf s = []) ∨
    ∃ t, (strtok_r s).1 = some t ∧ tokensOf s = t :: tokensOf (strtok_r s).2 ∧
      (∀ b ∈ t, b ∈ s) ∧ (∀ b ∈ (strtok_r s).2, b ∈ s) := by
  have hsub : ∀ b ∈ s.dropWhile (fun c => c == 32), b ∈ s :=
    fun b hb => (List.dropWhile_sublist _).subset hb
  rw [← tokensOf_dropWhile_space s]
  unfold strtok_r
  simp only
  cases hs1 : s.dropWhile (fun c => c == 32) with
  | nil => exact Or.inl ⟨rfl, tokensOf_nil⟩
  | cons a l =>
    right
    have hsplit : List.takeWhile (fun c => c != 32) (a :: l) ++
        List.dropWhile (fun c => c != 32) (a :: l) = a :: l := List.takeWhile_append_dropWhile _ _
    have hmemt : ∀ b ∈ List.takeWhile (fun c => c != 32) (a :: l), b ∈ s := by
      intro b hb
      exact hsub b (hs1 ▸ (List.takeWhile_sublist _).subset hb)
    have hmemd : ∀ b ∈ List.dropWhile (fun c => c != 32) (a :: l), b ∈ s := by
      intro b hb
      exact hsub b (hs1 ▸ (List.dropWhile_sublist _).subset hb)
    have ha : a ≠ 32 := by
      intro h32
      have hmem : a ∈ s.dropWhile (fun c => c == 32) := by rw [hs1]; simp
      have hhead := List.head_dropWhile_not (fun c => c == 32) s (by rw [hs1]; simp)
      simp [hs1, h32] at hhead
    have hne : List.takeWhile (fun c => c != 32) (a :: l) ≠ [] := by
      have : (a != 32) = true := by simpa using ha
      simp [List.takeWhile, this]
    cases hd : List.dropWhile (fun c => c != 32) (a :: l) with
    | nil =>
      rw [hd] at hsplit
      simp only [List.append_nil] at hsplit
      refine ⟨_, rfl, ?_, hmemt, by simp⟩
      simp only
      rw [tokensOf_nil]
      have hall : ∀ x ∈ a :: l, ¬ ((x == 32) = true) := by
        rw [← hsplit]
        exact takeWhile_ne_space _
      rw [hsplit]
      unfold tokensOf List.splitOn
      rw [List.splitOnP_eq_single _ _ hall]
      simp
    | cons sep rest =>
      have hsep : (sep == 32) = true := by
        have hhead := List.head_dropWhile_not (fun c => c != 32) (a :: l) (by rw [hd]; simp)
        simpa [hd] using hhead
      refine ⟨_, rfl, ?_, hmemt, ?_⟩
      · simp only
        rw [hd] at hsplit
        conv_lhs => rw [← hsplit]
        unfold tokensOf List.splitOn
        rw [List.splitOnP_first _ _ (takeWhile_ne_space _) sep hsep]
        rw [List.filter_cons]
        have : (!(List.takeWhile (fun c => c != 32) (a :: l)).isEmpty) = true := by
          cases hh : List.takeWhile (fun c => c != 32) (a :: l) with
          | nil => exact absurd hh hne
          | cons _ _ => rfl
        simp [this]
      · intro b hb
        exact hmemd b (by rw [hd]; simp [hb])

theorem cstr_no_nul (m : List Nat) : ∀ b ∈ cstr m, b ≠ 0 := by
  intro b hb
  have := List.mem_takeWhile_imp hb
  simpa using this

/-- The three `strtok_r` calls made on a message, in terms of its token list. -/
theorem strtok_r_three (m : List Nat) :
    (tokens m = [] ∧ (strtok_r (cstr m)).1 = none) ∨
    ∃ t1, (strtok_r (cstr m)).1 = some t1 ∧ (∀ b ∈ t1, b ≠ 0) ∧
      ((tokens m = [t1] ∧ (strtok_r (strtok_r (cstr m)).2).1 = none) ∨
       ∃ t2, (strtok_r (strtok_r (cstr m)).2).1 = some t2 ∧ (∀ b ∈ t2, b ≠ 0) ∧
        ((tokens m = [t1, t2] ∧ (strtok_r (strtok_r (strtok_r (cstr m)).2).2).1 = none) ∨
         ∃ t3 rest, tokens m = t1 :: t2 :: t3 :: rest ∧
          (strtok_r (strtok_r (strtok_r (cstr m)).2).2).1 = some t3)) := by
  unfold tokens
  rcases strtok_r_spec (cstr m) with ⟨h1, e1⟩ | ⟨t1, h1, e1, m1, n1⟩
  · exact Or.inl ⟨e1, h1⟩
  · right
    have z1 : ∀ b ∈ (strtok_r (cstr m)).2, b ≠ 0 := fun b hb => cstr_no_nul m b (n1 b hb)
    refine ⟨t1, h1, fun b hb => cstr_no_nul m b (m1 b hb), ?_⟩
    rcases strtok_r_spec (strtok_r (cstr m)).2 with ⟨h2, e2⟩ | ⟨t2, h2, e2, m2, n2⟩
    · exact Or.inl ⟨by rw [e1, e2], h2⟩
    · right
      refine ⟨t2, h2, fun b hb => z1 b (m2 b hb), ?_⟩
      rcases strtok_r_spec (strtok_r (strtok_r (cstr m)).2).2 with ⟨h3, e3⟩ | ⟨t3, h3, e3, -, -⟩
      · exact Or.inl ⟨by rw [e1, e2, e3], h3⟩
      · exact Or.inr ⟨t3, _, by rw [e1, e2, e3], h3⟩

/-- The verdict of the first-message check is a function of the token list. -/
theorem parseDataPort_eq (m : List Nat) (dp : Option (List Nat)) :
    parseDataPort m dp =
      match tokens m with
      | [t1, t2] =>
        if t1 = str "DATA_PORT:" ∧ t2.all isdigit = true then (false, some t2) else (true, dp)
      | _ => (true, dp) := by
  unfold parseDataPort
  simp only
  rcases strtok_r_three m with ⟨e, h1⟩ | ⟨t1, h1, z1, h⟩
  · simp [e, h1]
  · rcases h with ⟨e, h2⟩ | ⟨t2, h2, z2, h⟩
    · simp [e, h1, h2]
    · have hc : cstr t2 = t2 := cstr_eq_self z2
      rcases h with ⟨e, h3⟩ | ⟨t3, rest, e, h3⟩
      · simp only [e, h1, h2, h3]
        by_cases hd : t1 = str "DATA_PORT:"
        · by_cases hv : t2.all isdigit = true
          · simp [hd, validatePortnum, copyToken, hc, hv]
          · simp [hd, validatePortnum, copyToken, hc, hv]
        · simp [hd]
      · simp only [e, h1, h2, h3]
        by_cases hd : t1 = str "DATA_PORT:"
        · by_cases hv : t2.all isdigit = true
          · simp [hd, validatePortnum, hc, hv]
          · simp [hd, validatePortnum, hc, hv]
        · simp [hd]

/-- The outcome of command parsing is a function of the token list. -/
theorem parseRequest_eq (m : List Nat) :
    parseRequest m =
      match tokens m with
      | [] =>
        { requestError := true, errMessage := some (str "NO COMMAND RECEIVED"),
          command := none, filename := none }
      | t1 :: args =>
        if t1 = GET_FILE then
          match args with
          | [] =>
            { requestError := true,
              errMessage := some (str "BAD REQUEST: <filename> required after -g command."),
              command := none, filename := none }
          | [t2] =>
            { requestError := false, errMessage := none,
              command := some t1, filename := some t2 }
          | _ =>
            { requestError := true,
              errMessage := some
                (str "BAD REQUEST: only <filename> should come after -g command."),
              command := none, filename := none }
        else if t1 = LIST_FILES then
          if args ≠ [] then
            { requestError := true,
              errMessage := some
                (str "BAD REQUEST: no arguments should appear after -l command."),
              command := none, filename := none }
          else
            { requestError := false, errMessage := none, command := some t1, filename := none }
        else if t1 = LIST_TXT_FILES then
          if args ≠ [] then
            { requestError := true,
              errMessage := some
                (str "BAD REQUEST: no arguments should appear after -ltxt command."),
              command := none, filename := none }
          else
            { requestError := false, errMessage := none, command := some t1, filename := none }
        else
          { requestError := true,
            errMessage := some (str
              "UNRECOGNIZED COMMAND: Accepted commands are -l, -ltxt, and -g <filename>."),
            command := none, filename := none } := by
  unfold parseRequest
  simp only
  rcases strtok_r_three m with ⟨e, h1⟩ | ⟨t1, h1, z1, h⟩
  · simp [e, h1]
  · have hc1 : cstr t1 = t1 := cstr_eq_self z1
    rcases h with ⟨e, h2⟩ | ⟨t2, h2, z2, h⟩
    · simp only [e, h1, h2, copyToken, hc1]
      split_ifs <;> simp_all
    · have hc2 : cstr t2 = t2 := cstr_eq_self z2
      rcases h with ⟨e, h3⟩ | ⟨t3, rest, e, h3⟩
      · simp only [e, h1, h2, h3, copyToken, hc1, hc2]
        split_ifs <;> simp_all
      · simp only [e, h1, h2, h3, copyToken, hc1, hc2]
        split_ifs <;> simp_all

/-! ## Calls made on a socket -/

/-- A `send` call. -/
theorem send_calls (s : Socket) (buf : List Nat) (n : Nat) :
    (send s buf n).2.calls = s.calls ++ [Call.send n (send s buf n).1] := by
  unfold send
  split <;> rfl

/-- The send loop only adds `send` calls to the log. -/
theorem sendCompleteStringLoop_calls (fuel : Nat) (s : Socket) (pos : List Nat) (c : Int)
    (r : Int) (s' : Socket) (h : sendCompleteStringLoop fuel s pos c = some (r, s')) :
    ∃ new, s'.calls = s.calls ++ new ∧ ∀ x ∈ new, ∃ n ret, x = Call.send n ret := by
  induction fuel generalizing s pos c with
  | zero => simp [sendCompleteStringLoop] at h
  | succ fuel ih =>
    unfold sendCompleteStringLoop at h
    by_cases hc : c > 0
    · simp only [hc, if_true] at h
      by_cases hneg : (send s pos c.toNat).1 < 0
      · simp only [hneg, if_true] at h
        simp at h
        obtain ⟨-, rfl⟩ := h
        exact ⟨[_], send_calls s pos c.toNat, by simp⟩
      · simp only [hneg, if_false] at h
        obtain ⟨new, h1, h2⟩ := ih _ _ _ h
        refine ⟨Call.send c.toNat (send s pos c.toNat).1 :: new,
          by rw [h1, send_calls]; simp, ?_⟩
        intro x hx
        simp only [List.mem_cons] at hx
        rcases hx with rfl | hx
        · exact ⟨_, _, rfl⟩
        · exact h2 x hx
    · simp only [hc, if_false] at h
      simp at h
      obtain ⟨-, rfl⟩ := h
      exact ⟨[], by simp, by simp⟩

/-- Function `sendMessage` only adds `send` calls to the log. -/
theorem sendMessage_calls (s s' : Socket) (message : List Nat) (r : Int)
    (h : sendMessage s message = some (r, s')) :
    ∃ new, s'.calls = s.calls ++ new ∧ ∀ x ∈ new, ∃ n ret, x = Call.send n ret := by
  unfold sendMessage at h
  simp only at h
  cases h1 : sendCompleteString s (sprintfInt (toInt (strlen message)) ++ [64]) with
  | none => simp [h1] at h
  | some p1 =>
    obtain ⟨r1, s1⟩ := p1
    obtain ⟨new1, c1, a1⟩ := sendCompleteStringLoop_calls _ _ _ _ _ _ h1
    simp only [h1] at h
    by_cases hneg : r1 = -1
    · simp only [hneg, if_true] at h
      simp at h
      obtain ⟨-, rfl⟩ := h
      exact ⟨new1, c1, a1⟩
    · simp only [hneg, if_false] at h
      cases h2 : sendCompleteString s1 message with
      | none => simp [h2] at h
      | some p2 =>
        obtain ⟨r2, s2⟩ := p2
        obtain ⟨new2, c2, a2⟩ := sendCompleteStringLoop_calls _ _ _ _ _ _ h2
        simp only [h2] at h
        have hs : s2 = s' := by
          by_cases hneg2 : r2 = -1
          · simp only [hneg2, if_true] at h
            simp at h
            exact h.2
          · simp only [hneg2, if_false] at h
            simp at h
            exact h.2
        subst hs
        refine ⟨new1 ++ new2, by rw [c2, c1, List.append_assoc], ?_⟩
        intro x hx
        simp only [List.mem_append] at hx
        rcases hx with hx | hx
        · exact a1 x hx
        · exact a2 x hx

/-- Function `recvMessage` leaves the sending side of the socket alone. -/
theorem recvMessage_frame (s s' : Socket) (r : Option (List Nat))
    (h : recvMessage s = some (r, s')) :
    s'.outbound = s.outbound ∧ s'.sendSched = s.sendSched := by
  unfold recvMessage at h
  cases h1 : recvLengthLoop (s.inbound.length + 1) s [] with
  | none => simp [h1] at h
  | some x =>
    obtain ⟨r1, s1⟩ := x
    obtain ⟨-, -, -, -, ho1, hs1⟩ := recvLengthLoop_log _ _ _ _ _ h1
    simp only [h1] at h
    cases r1 with
    | none =>
      simp at h
      obtain ⟨-, rfl⟩ := h
      exact ⟨ho1, hs1⟩
    | some written =>
      simp only at h
      cases hparse : parseMessageLen written with
      | none => simp [hparse] at h
      | some messageLen =>
        simp only [hparse] at h
        by_cases hguard : messageLen < 0 ∨ messageLen + 1 > INT_MAX
        · simp [hguard] at h
        · simp only [hguard, if_false] at h
          obtain ⟨-, -, -, -, ho2, hs2⟩ := recvPayloadLoop_log _ _ _ _ _ _ h
          exact ⟨ho2.trans ho1, hs2.trans hs1⟩

/-- On a short string without `'\0'`, under a positive schedule, `sendMessage`
succeeds and appends the frame of the string. -/
theorem sendMessage_frame (s : Socket) (message : List Nat)
    (hp : positive s.sendSched = true) (h0 : ∀ b ∈ message, b ≠ 0)
    (hlen : message.length < 2147483648) :
    ∃ s', sendMessage s message = some (0, s') ∧ s'.outbound = s.outbound ++ frame message ∧
      s'.inbound = s.inbound ∧ s'.recvSched = s.recvSched ∧ positive s'.sendSched = true := by
  have hc : cstr message = message := cstr_eq_self h0
  have hl : strlen message = message.length := by unfold strlen; rw [hc]
  obtain ⟨s', h1, h2, h3, h4, h5⟩ := sendMessage_positive s message hp
  refine ⟨s', h1, ?_, h4, h5, h3⟩
  rw [h2, wire_of_lt message (by omega), hl, hc]
  rfl

/-! ## Control handshake: claims -/

/-- C6 (as stated, refuted): the message `DATA_PORT: 8080`, `'\0'`,
` extra tokens` holds four pieces between spaces, the second of which is not
made of digits only; `validateControlConnection` returns true on it, stores
the port `8080` and sends `FTSERVER CONNECTION ESTABLISHED`. -/
theorem validateControlConnection_nul_counterexample :
    tokensOf (str "DATA_PORT: 8080" ++ 0 :: str " extra tokens")
      = [str "DATA_PORT:", str "8080" ++ [0], str "extra", str "tokens"] ∧
    (str "8080" ++ [0]).all isdigit = false ∧
    (validateControlConnection
        (newFTInfo (Socket.fresh (frame (str "DATA_PORT: 8080" ++ 0 :: str " extra tokens")))
          (str "10.0.0.1"))).map
      (fun r => (r.1, r.2.dataPort, r.2.controlSocket.outbound, r.2.controlSocket.inbound))
      = some (true, some (str "8080"), frame (str "FTSERVER CONNECTION ESTABLISHED"), []) := by
  decide

/-- C6 (amended): the message is read as a C string (its bytes before the
first `'\0'`). Given that a first message is received on the control socket
and that the transport accepts the reply, `validateControlConnection`
returns true exactly when the token list of that C string is the literal
`DATA_PORT:` followed by one token made of decimal digits only; and it
returns true, stores `port` as the data port of the session and sends
`FTSERVER CONNECTION ESTABLISHED` exactly when the token list is
`DATA_PORT:` followed by the digit token `port`. -/
theorem validateControlConnection_accepts_iff (myFT : FTInfo) (message : List Nat)
    (s1 : Socket) (hrecv : recvMessage myFT.controlSocket = some (some message, s1))
    (hsend : positive myFT.controlSocket.sendSched = true) :
    ∃ result myFT', validateControlConnection myFT = some (result, myFT') ∧
      (result = true ↔
        ∃ port, tokens message = [str "DATA_PORT:", port] ∧ port.all isdigit = true) ∧
      ∀ port,
        (result = true ∧ myFT'.dataPort = some port ∧
          myFT'.controlSocket.outbound
            = myFT.controlSocket.outbound ++ frame (str "FTSERVER CONNECTION ESTABLISHED")) ↔
        (tokens message = [str "DATA_PORT:", port] ∧ port.all isdigit = true) := by
  obtain ⟨ho1, hs1⟩ := recvMessage_frame _ _ _ hrecv
  have hp1 : positive s1.sendSched = true := by rw [hs1]; exact hsend
  unfold validateControlConnection
  simp only [hrecv]
  rw [parseDataPort_eq]
  by_cases hval : ∃ port, tokens message = [str "DATA_PORT:", port] ∧ port.all isdigit = true
  · obtain ⟨port, htok, hdig⟩ := hval
    obtain ⟨s2, e1, e2, -⟩ := sendMessage_frame s1 successMessage hp1 (by decide) (by decide)
    simp only [htok, hdig, and_self, if_true, Bool.false_eq_true, if_false, e1]
    refine ⟨true, _, rfl, ?_, ?_⟩
    · exact ⟨fun _ => ⟨port, rfl, hdig⟩, fun _ => rfl⟩
    · intro port'
      simp only [true_and, e2, ho1]
      constructor
      · rintro ⟨hp, -⟩
        simp at hp
        subst hp
        exact ⟨rfl, hdig⟩
      · rintro ⟨hp, -⟩
        simp at hp
        subst hp
        exact ⟨rfl, rfl⟩
  · obtain ⟨s2, e1, -⟩ := sendMessage_frame s1 formatErrMessage hp1 (by decide) (by decide)
    have hparse : (match tokens message with
        | [t1, t2] =>
          if t1 = str "DATA_PORT:" ∧ t2.all isdigit = true then (false, some t2)
          else (true, myFT.dataPort)
        | _ => (true, myFT.dataPort)) = (true, myFT.dataPort) := by
      split
      · rename_i t1 t2 heq
        split
        · rename_i hcond
          exact absurd ⟨t2, by rw [heq, hcond.1], hcond.2⟩ hval
        · rfl
      · rfl
    simp only [hparse, if_true, e1]
    refine ⟨false, _, rfl, ?_, ?_⟩
    · simp only [Bool.false_eq_true, false_iff]
      exact hval
    · intro port
      simp only [Bool.false_eq_true, false_and, false_iff]
      intro h
      exact hval ⟨port, h⟩

theorem validateControlConnection_accepts_iff_witness :
    ∃ result myFT',
      validateControlConnection
          (newFTInfo (Socket.fresh (frame (str "DATA_PORT: 8080"))) (str "10.0.0.1"))
        = some (result, myFT') ∧
      (result = true ↔
        ∃ port, tokens (str "DATA_PORT: 8080") = [str "DATA_PORT:", port] ∧
          port.all isdigit = true) ∧
      ∀ port,
        (result = true ∧ myFT'.dataPort = some port ∧
          myFT'.controlSocket.outbound
            = (newFTInfo (Socket.fresh (frame (str "DATA_PORT: 8080")))
                (str "10.0.0.1")).controlSocket.outbound ++
              frame (str "FTSERVER CONNECTION ESTABLISHED")) ↔
        (tokens (str "DATA_PORT: 8080") = [str "DATA_PORT:", port] ∧ port.all isdigit = true) :=
  validateControlConnection_accepts_iff
    (newFTInfo (Socket.fresh (frame (str "DATA_PORT: 8080"))) (str "10.0.0.1"))
    (str "DATA_PORT: 8080")
    { inbound := [], recvSched := [], outbound := [], sendSched := [],
      calls := [Call.recv 1 1, Call.recv 1 1, Call.recv 1 1, Call.recv 15 15] }
    (by decide) (by decide)

set_option maxRecDepth 100000 in
/-- C7 (as stated, refuted): the message `DATA_PORT: 80`, `'\0'`, `abc` has a
port token that is not numeric, yet the session goes on: the server sends
`FTSERVER CONNECTION ESTABLISHED` and not the format error, stores the data
port `80`, reads the command `-l` and tries to connect to the client. -/
theorem malformed_nul_data_port_counterexample :
    tokensOf (str "DATA_PORT: 80" ++ 0 :: str "abc")
      = [str "DATA_PORT:", str "80" ++ 0 :: str "abc"] ∧
    (str "80" ++ 0 :: str "abc").all isdigit = false ∧
    (acceptConnection World.closed
        (Socket.fresh (frame (str "DATA_PORT: 80" ++ 0 :: str "abc") ++ frame (str "-l")))
        (str "10.0.0.1")).map
      (fun r => (r.1.events, r.2.dataPort, r.2.command, r.2.controlSocket.outbound,
        r.2.controlSocket.inbound))
      = some ([Event.connect (str "10.0.0.1") (str "80") false], some (str "80"),
          some (str "-l"), frame (str "FTSERVER CONNECTION ESTABLISHED"), []) := by
  decide

/-- C7 (amended): every data-port message that is malformed as a C string
is rejected. When the C string of the first message received on the control
socket (its bytes before the first `'\0'`) does not consist of the token
`DATA_PORT:` followed by one token of decimal digits, and the transport
accepts the reply, the server sends the fixed format-error message on the
control channel, the data port of the session (like its command, file name
and data socket) stays absent, and the session ends with no event outside
the control socket (no connection attempt) and with nothing but `send`
calls made on the control socket after the message was received (no command
is read). The four messages `DATA_PORT:`, `DATA_PORT: abc`,
`DATA_PORT: 8080 extra` and the empty string are such messages. -/
theorem malformed_data_port_rejected (w : World) (controlSocket : Socket)
    (clientHost message : List Nat) (s1 : Socket)
    (hrecv : recvMessage controlSocket = some (some message, s1))
    (hbad : ¬ ∃ port, tokens message = [str "DATA_PORT:", port] ∧ port.all isdigit = true)
    (hsend : positive controlSocket.sendSched = true) :
    (∃ w' myFT', acceptConnection w controlSocket clientHost = some (w', myFT') ∧
      myFT'.controlSocket.outbound = controlSocket.outbound ++ frame formatErrMessage ∧
      myFT'.dataPort = none ∧ myFT'.dataSocket = none ∧ myFT'.command = none ∧
      myFT'.filename = none ∧ w'.events = w.events ∧
      myFT'.controlSocket.inbound = s1.inbound ∧
      ∃ new, myFT'.controlSocket.calls = s1.calls ++ new ∧
        ∀ x ∈ new, ∃ n ret, x = Call.send n ret) ∧
    ∀ m ∈ [str "DATA_PORT:", str "DATA_PORT: abc", str "DATA_PORT: 8080 extra", str ""],
      ¬ ∃ port, tokens m = [str "DATA_PORT:", port] ∧ port.all isdigit = true := by
  constructor
  · obtain ⟨ho1, hs1⟩ := recvMessage_frame _ _ _ hrecv
    have hp1 : positive s1.sendSched = true := by rw [hs1]; exact hsend
    obtain ⟨s2, e1, e2, e3, -⟩ := sendMessage_frame s1 formatErrMessage hp1 (by decide) (by decide)
    obtain ⟨new, c1, c2⟩ := sendMessage_calls _ _ _ _ e1
    have hparse : parseDataPort message none = (true, none) := by
      rw [parseDataPort_eq]
      split
      · rename_i t1 t2 heq
        split
        · rename_i hcond
          exact absurd ⟨t2, by rw [heq, hcond.1], hcond.2⟩ hbad
        · rfl
      · rfl
    have hv : validateControlConnection (newFTInfo controlSocket clientHost)
        = some (false, { newFTInfo controlSocket clientHost with controlSocket := s2 }) := by
      unfold validateControlConnection
      simp only [newFTInfo, hrecv, hparse, if_true, e1]
    refine ⟨w, { newFTInfo controlSocket clientHost with controlSocket := s2 }, ?_,
      by rw [e2, ho1], rfl, rfl, rfl, rfl, rfl, e3, new, c1, c2⟩
    unfold acceptConnection
    simp only [hv]
    simp [deleteFTInfo, newFTInfo]
  · intro m hm
    rintro ⟨port, h1, h2⟩
    simp only [List.mem_cons, List.mem_singleton, List.not_mem_nil, or_false] at hm
    rcases hm with rfl | rfl | rfl | rfl
    · have : tokens (str "DATA_PORT:") = [str "DATA_PORT:"] := by decide
      rw [this] at h1
      simp at h1
    · have : tokens (str "DATA_PORT: abc") = [str "DATA_PORT:", str "abc"] := by decide
      rw [this] at h1
      simp only [List.cons.injEq, true_and, and_true] at h1
      subst h1
      revert h2
      decide
    · have : tokens (str "DATA_PORT: 8080 extra")
          = [str "DATA_PORT:", str "8080", str "extra"] := by decide
      rw [this] at h1
      simp at h1
    · have : tokens (str "") = [] := by decide
      rw [this] at h1
      simp at h1

set_option maxRecDepth 100000 in
theorem malformed_data_port_rejected_witness :
    (∃ w' myFT', acceptConnection World.closed (Socket.fresh (frame (str "DATA_PORT: abc")))
        (str "10.0.0.1") = some (w', myFT') ∧
      myFT'.controlSocket.outbound
        = (Socket.fresh (frame (str "DATA_PORT: abc"))).outbound ++ frame formatErrMessage ∧
      myFT'.dataPort = none ∧ myFT'.dataSocket = none ∧ myFT'.command = none ∧
      myFT'.filename = none ∧ w'.events = World.closed.events ∧
      myFT'.controlSocket.inbound
        = ({ inbound := [], recvSched := [], outbound := [], sendSched := [],
             calls := [Call.recv 1 1, Call.recv 1 1, Call.recv 1 1, Call.recv 14 14] }
             : Socket).inbound ∧
      ∃ new, myFT'.controlSocket.calls
          = ({ inbound := [], recvSched := [], outbound := [], sendSched := [],
               calls := [Call.recv 1 1, Call.recv 1 1, Call.recv 1 1, Call.recv 14 14] }
               : Socket).calls ++ new ∧
        ∀ x ∈ new, ∃ n ret, x = Call.send n ret) ∧
    ∀ m ∈ [str "DATA_PORT:", str "DATA_PORT: abc", str "DATA_PORT: 8080 extra", str ""],
      ¬ ∃ port, tokens m = [str "DATA_PORT:", port] ∧ port.all isdigit = true :=
  malformed_data_port_rejected World.closed (Socket.fresh (frame (str "DATA_PORT: abc")))
    (str "10.0.0.1") (str "DATA_PORT: abc")
    { inbound := [], recvSched := [], outbound := [], sendSched := [],
      calls := [Call.recv 1 1, Call.recv 1 1, Call.recv 1 1, Call.recv 14 14] }
    (by decide)
    (by
      rintro ⟨port, h1, h2⟩
      have : tokens (str "DATA_PORT: abc") = [str "DATA_PORT:", str "abc"] := by decide
      rw [this] at h1
      simp only [List.cons.injEq, true_and, and_true] at h1
      subst h1
      revert h2
      decide)
    (by decide)

/-! ## Tokens of composed messages -/

theorem tokensOf_replicate_space (k : Nat) (s : List Nat) :
    tokensOf (List.replicate k 32 ++ s) = tokensOf s := by
  induction k with
  | zero => simp
  | succ k ih =>
    rw [List.replicate_succ, List.cons_append, tokensOf_cons_space, ih]

theorem tokensOf_single (a : List Nat) (hne : a ≠ []) (h32 : ∀ b ∈ a, b ≠ 32) :
    tokensOf a = [a] := by
  unfold tokensOf List.splitOn
  rw [List.splitOnP_eq_single _ _ (fun x hx => by simpa using h32 x hx)]
  cases a with
  | nil => exact absurd rfl hne
  | cons _ _ => simp

theorem tokensOf_append_space (a rest : List Nat) (hne : a ≠ []) (h32 : ∀ b ∈ a, b ≠ 32) :
    tokensOf (a ++ 32 :: rest) = a :: tokensOf rest := by
  unfold tokensOf List.splitOn
  rw [List.splitOnP_first _ _ (fun x hx => by simpa using h32 x hx) 32 (by simp)]
  cases a with
  | nil => exact absurd rfl hne
  | cons _ _ => simp

/-- Two tokens separated by one or more spaces are the two tokens of the message. -/
theorem tokens_two (a b : List Nat) (k : Nat) (ha : a ≠ []) (hb : b ≠ [])
    (ha32 : ∀ x ∈ a, x ≠ 32 ∧ x ≠ 0) (hb32 : ∀ x ∈ b, x ≠ 32 ∧ x ≠ 0) (hk : 0 < k) :
    tokens (a ++ List.replicate k 32 ++ b) = [a, b] := by
  have hc : cstr (a ++ List.replicate k 32 ++ b) = a ++ List.replicate k 32 ++ b := by
    apply cstr_eq_self
    intro x hx
    simp only [List.mem_append, List.mem_replicate] at hx
    rcases hx with (hx | hx) | hx
    · exact (ha32 x hx).2
    · omega
    · exact (hb32 x hx).2
  unfold tokens
  rw [hc]
  obtain ⟨j, rfl⟩ : ∃ j, k = j + 1 := ⟨k - 1, by omega⟩
  rw [List.replicate_succ, List.append_assoc, List.cons_append,
    tokensOf_append_space a _ ha (fun x hx => (ha32 x hx).1), tokensOf_replicate_space,
    tokensOf_single b hb (fun x hx => (hb32 x hx).1)]

/-- A character other than the space that follows a token is part of it. -/
theorem tokens_glued (a rest : List Nat) (c : Nat) (ha : ∀ x ∈ a, x ≠ 32 ∧ x ≠ 0)
    (hc32 : c ≠ 32) (hc0 : c ≠ 0) :
    ∃ x more, tokens (a ++ c :: rest) = (a ++ c :: x) :: more := by
  have hc : cstr (a ++ c :: rest) = a ++ c :: cstr rest := by
    unfold cstr
    rw [List.takeWhile_append_of_pos (fun x hx => by simpa using (ha x hx).2)]
    have : (c != 0) = true := by simpa using hc0
    rw [List.takeWhile_cons_of_pos (p := fun b => b != 0) this]
  unfold tokens
  rw [hc]
  have hsplit := List.takeWhile_append_dropWhile (fun x => x != 32) (cstr rest)
  have hpre : ∀ b ∈ a ++ c :: List.takeWhile (fun x => x != 32) (cstr rest), b ≠ 32 := by
    intro b hb
    simp only [List.mem_append, List.mem_cons] at hb
    rcases hb with hb | rfl | hb
    · exact (ha b hb).1
    · exact hc32
    · have := List.mem_takeWhile_imp hb
      simpa using this
  cases hd : List.dropWhile (fun x => x != 32) (cstr rest) with
  | nil =>
    rw [hd, List.append_nil] at hsplit
    rw [hsplit] at hpre
    exact ⟨cstr rest, [], tokensOf_single _ (by simp) hpre⟩
  | cons sep tl =>
    have hsep : sep = 32 := by
      have hhead := List.head_dropWhile_not (fun x => x != 32) (cstr rest) (by rw [hd]; simp)
      simpa [hd] using hhead
    subst hsep
    rw [hd] at hsplit
    refine ⟨List.takeWhile (fun x => x != 32) (cstr rest), tokensOf tl, ?_⟩
    have e : a ++ c :: cstr rest
        = (a ++ c :: List.takeWhile (fun x => x != 32) (cstr rest)) ++ 32 :: tl := by
      conv_lhs => rw [← hsplit]
      simp
    rw [e, tokensOf_append_space _ _ (by simp) hpre]

theorem tokens_nul (a rest : List Nat) (ha : a ≠ []) (ha32 : ∀ x ∈ a, x ≠ 32 ∧ x ≠ 0) :
    tokens (a ++ 0 :: rest) = [a] := by
  have hc : cstr (a ++ 0 :: rest) = a := by
    unfold cstr
    rw [List.takeWhile_append_of_pos (fun x hx => by simpa using (ha32 x hx).2)]
    simp
  unfold tokens
  rw [hc, tokensOf_single a ha (fun x hx => (ha32 x hx).1)]

/-! ## Tokenization and command interpreter: claims -/

/-- C8 (as stated, refuted): a tab does not separate tokens.  The message
`"DATA_PORT:\t8080"` is rejected by the handshake (the format-error message is
sent, no data port is stored), and the command line `"-g\ta.txt"` is an
unrecognized command, not a get-file request. -/
theorem tab_separator_counterexample :
    parseDataPort (str "DATA_PORT:\t8080") none = (true, none) ∧
    (validateControlConnection
        (newFTInfo (Socket.fresh (frame (str "DATA_PORT:\t8080"))) (str "10.0.0.1"))).map
      (fun x => (x.1, x.2.dataPort, x.2.controlSocket.outbound))
      = some (false, none, frame formatErrMessage) ∧
    parseRequest (str "-g\ta.txt") =
      { requestError := true,
        errMessage := some (str
          "UNRECOGNIZED COMMAND: Accepted commands are -l, -ltxt, and -g <filename>."),
        command := none, filename := none } := by
  decide

/-- C8 (amended): the handshake message and the command line are tokenized on
the space character only.  One or more spaces between two tokens separate them:
`DATA_PORT:`, spaces and a digit token is an accepted handshake storing that
token, and `-g`, spaces and a token `f` is a valid get-file request for `f`.
Any other character `c` after the first token (a tab or a newline, say) is part
of that token: the handshake is then rejected and the command line is not a
valid request. -/
theorem space_only_tokenization (port f : List Nat) (k c : Nat) (dp : Option (List Nat))
    (hport : port ≠ []) (hdig : ∀ b ∈ port, isdigit b = true)
    (hf : f ≠ []) (hf32 : ∀ b ∈ f, b ≠ 32 ∧ b ≠ 0) (hk : 0 < k) (hc : c ≠ 32) :
    parseDataPort (str "DATA_PORT:" ++ List.replicate k 32 ++ port) dp = (false, some port) ∧
    parseDataPort (str "DATA_PORT:" ++ c :: port) dp = (true, dp) ∧
    parseRequest (str "-g" ++ List.replicate k 32 ++ f) =
      { requestError := false, errMessage := none,
        command := some (str "-g"), filename := some f } ∧
    ((parseRequest (str "-g" ++ c :: f)).requestError = true ∧
      (parseRequest (str "-g" ++ c :: f)).command = none ∧
      (parseRequest (str "-g" ++ c :: f)).filename = none) := by
  have hD : ∀ x ∈ str "DATA_PORT:", x ≠ 32 ∧ x ≠ 0 := by decide
  have hG : ∀ x ∈ str "-g", x ≠ 32 ∧ x ≠ 0 := by decide
  have hG' : str "-g" = [45, 103] := by decide
  have hP : ∀ x ∈ port, x ≠ 32 ∧ x ≠ 0 := fun x hx =>
    ⟨(isdigit_ne (hdig x hx)).2.2.2.2.2, (isdigit_ne (hdig x hx)).1⟩
  have hall : port.all isdigit = true := by simpa using hdig
  refine ⟨?_, ?_, ?_, ?_⟩
  · rw [parseDataPort_eq, tokens_two _ _ k (by decide) hport hD hP hk]
    simp [hall]
  · rw [parseDataPort_eq]
    by_cases hc0 : c = 0
    · subst hc0
      rw [tokens_nul _ _ (by decide) hD]
    · obtain ⟨x, more, e⟩ := tokens_glued (str "DATA_PORT:") port c hD hc hc0
      rw [e]
      split
      · rename_i t1 t2 heq
        simp only [List.cons.injEq] at heq
        have hne : ¬ (t1 = str "DATA_PORT:") := by
          rw [← heq.1]
          intro h
          have := congrArg List.length h
          simp at this
        simp [hne]
      · rfl
  · rw [parseRequest_eq, tokens_two _ _ k (by decide) hf hG hf32 hk]
    simp [GET_FILE]
  · by_cases hc0 : c = 0
    · subst hc0
      rw [parseRequest_eq, tokens_nul _ _ (by decide) hG]
      simp [GET_FILE]
    · obtain ⟨x, more, e⟩ := tokens_glued (str "-g") f c hG hc hc0
      rw [parseRequest_eq, e]
      have h1 : ¬ (str "-g" ++ c :: x = GET_FILE) := by
        intro h
        have := congrArg List.length h
        simp [GET_FILE, hG'] at this
      have h2 : ¬ (str "-g" ++ c :: x = LIST_FILES) := by
        intro h
        have := congrArg List.length h
        simp [LIST_FILES, hG'] at this
        rw [show str "-l" = [45, 108] by decide] at this
        simp at this
      have h3 : ¬ (str "-g" ++ c :: x = LIST_TXT_FILES) := by
        rw [hG', show LIST_TXT_FILES = [45, 108, 116, 120, 116] by decide]
        intro h
        simp at h
      simp [h1, h2, h3]

theorem space_only_tokenization_witness :
    parseDataPort (str "DATA_PORT:" ++ List.replicate 3 32 ++ str "8080") none
      = (false, some (str "8080")) ∧
    parseDataPort (str "DATA_PORT:" ++ 9 :: str "8080") none = (true, none) ∧
    parseRequest (str "-g" ++ List.replicate 3 32 ++ str "a.txt") =
      { requestError := false, errMessage := none,
        command := some (str "-g"), filename := some (str "a.txt") } ∧
    ((parseRequest (str "-g" ++ 9 :: str "a.txt")).requestError = true ∧
      (parseRequest (str "-g" ++ 9 :: str "a.txt")).command = none ∧
      (parseRequest (str "-g" ++ 9 :: str "a.txt")).filename = none) :=
  space_only_tokenization (str "8080") (str "a.txt") 3 9 none (by decide) (by decide)
    (by decide) (by decide) (by decide) (by decide)

/-- C9 (as stated, refuted): in the command line `-g a.txt`, `'\0'`,
` b.txt c.txt` three tokens follow `-g`, yet the request is a valid get-file
request for `a.txt`; in `-g `, `'\0'`, `a.txt` one token follows `-g`, yet the
result is the error that asks for a file name. -/
theorem parseRequest_get_file_nul_counterexample :
    tokensOf (str "-g a.txt" ++ 0 :: str " b.txt c.txt")
      = [str "-g", str "a.txt" ++ [0], str "b.txt", str "c.txt"] ∧
    parseRequest (str "-g a.txt" ++ 0 :: str " b.txt c.txt")
      = { requestError := false, errMessage := none, command := some (str "-g"),
          filename := some (str "a.txt") } ∧
    tokensOf (str "-g " ++ 0 :: str "a.txt") = [str "-g", 0 :: str "a.txt"] ∧
    parseRequest (str "-g " ++ 0 :: str "a.txt")
      = { requestError := true,
          errMessage := some (str "BAD REQUEST: <filename> required after -g command."),
          command := none, filename := none } := by
  decide

/-- C9 (amended): the command line is read as a C string (its bytes before
the first `'\0'`). For every command line the first token of whose C string
is `-g`, the request is a valid get-file request with file name `f` exactly
when one further token `f` follows; with no further token the result is the
error `BAD REQUEST: <filename> required after -g command.`, and with two or
more further tokens it is the error `BAD REQUEST: only <filename> should
come after -g command.`. -/
theorem parseRequest_get_file (clientRequest : List Nat) (args : List (List Nat))
    (h : tokens clientRequest = str "-g" :: args) :
    (∀ f, ((parseRequest clientRequest).requestError = false ∧
        (parseRequest clientRequest).command = some (str "-g") ∧
        (parseRequest clientRequest).filename = some f) ↔ args = [f]) ∧
    (args = [] → parseRequest clientRequest =
      { requestError := true,
        errMessage := some (str "BAD REQUEST: <filename> required after -g command."),
        command := none, filename := none }) ∧
    (2 ≤ args.length → parseRequest clientRequest =
      { requestError := true,
        errMessage := some (str "BAD REQUEST: only <filename> should come after -g command."),
        command := none, filename := none }) := by
  rw [parseRequest_eq, h]
  have hg : str "-g" = GET_FILE := rfl
  simp only [hg, if_true]
  cases args with
  | nil => simp
  | cons a rest =>
    cases rest with
    | nil => simp
    | cons b rest2 => simp

theorem parseRequest_get_file_witness :
    (∀ f, ((parseRequest (str "-g a.txt")).requestError = false ∧
        (parseRequest (str "-g a.txt")).command = some (str "-g") ∧
        (parseRequest (str "-g a.txt")).filename = some f) ↔ [str "a.txt"] = [f]) ∧
    ([str "a.txt"] = [] → parseRequest (str "-g a.txt") =
      { requestError := true,
        errMessage := some (str "BAD REQUEST: <filename> required after -g command."),
        command := none, filename := none }) ∧
    (2 ≤ [str "a.txt"].length → parseRequest (str "-g a.txt") =
      { requestError := true,
        errMessage := some (str "BAD REQUEST: only <filename> should come after -g command."),
        command := none, filename := none }) :=
  parseRequest_get_file (str "-g a.txt") [str "a.txt"] (by decide)

/-- C10 (as stated, refuted): in the command lines `-l `, `'\0'`, `x` and
`-ltxt `, `'\0'`, `x` a further token follows the command, yet the requests are
a valid list-all and a valid list-filtered request. -/
theorem parseRequest_list_nul_counterexample :
    tokensOf (str "-l " ++ 0 :: str "x") = [str "-l", 0 :: str "x"] ∧
    parseRequest (str "-l " ++ 0 :: str "x")
      = { requestError := false, errMessage := none, command := some (str "-l"),
          filename := none } ∧
    tokensOf (str "-ltxt " ++ 0 :: str "x") = [str "-ltxt", 0 :: str "x"] ∧
    parseRequest (str "-ltxt " ++ 0 :: str "x")
      = { requestError := false, errMessage := none, command := some (str "-ltxt"),
          filename := none } := by
  decide

/-- C10 (amended): the command line is read as a C string (its bytes before
the first `'\0'`). For every command line the first token of whose C string
is `-l` or `-ltxt`, the request is a valid list request of that kind
(command `-l` for list-all, `-ltxt` for list-filtered, no file name)
exactly when no further token follows; with any further token the result is
the no-arguments error of that command. -/
theorem parseRequest_list (clientRequest command : List Nat) (args : List (List Nat))
    (h : tokens clientRequest = command :: args)
    (hcmd : command = str "-l" ∨ command = str "-ltxt") :
    (((parseRequest clientRequest).requestError = false ∧
        (parseRequest clientRequest).command = some command ∧
        (parseRequest clientRequest).filename = none) ↔ args = []) ∧
    (args ≠ [] → parseRequest clientRequest =
      { requestError := true,
        errMessage := some (if command = str "-l"
          then str "BAD REQUEST: no arguments should appear after -l command."
          else str "BAD REQUEST: no arguments should appear after -ltxt command."),
        command := none, filename := none }) := by
  rw [parseRequest_eq, h]
  have h2 : str "-l" = LIST_FILES := rfl
  have h5 : str "-ltxt" = LIST_TXT_FILES := rfl
  have n1 : ¬ (LIST_FILES = GET_FILE) := by decide
  have n2 : ¬ (LIST_TXT_FILES = GET_FILE) := by decide
  have n3 : ¬ (LIST_TXT_FILES = LIST_FILES) := by decide
  rcases hcmd with rfl | rfl
  · simp only [h2, n1, if_false, if_true]
    cases args with
    | nil => simp
    | cons a rest => simp
  · simp only [h5, n2, n3, if_false, if_true]
    cases args with
    | nil => simp
    | cons a rest =>
      have n4 : ¬ (LIST_TXT_FILES = str "-l") := n3
      simp [n4]

theorem parseRequest_list_witness :
    (((parseRequest (str "-ltxt x")).requestError = false ∧
        (parseRequest (str "-ltxt x")).command = some (str "-ltxt") ∧
        (parseRequest (str "-ltxt x")).filename = none) ↔ [str "x"] = []) ∧
    ([str "x"] ≠ [] → parseRequest (str "-ltxt x") =
      { requestError := true,
        errMessage := some (if str "-ltxt" = str "-l"
          then str "BAD REQUEST: no arguments should appear after -l command."
          else str "BAD REQUEST: no arguments should appear after -ltxt command."),
        command := none, filename := none }) :=
  parseRequest_list (str "-ltxt x") (str "-ltxt") [str "x"] (by decide) (by decide)

/-- C11 (as stated, refuted): the first token of the command line `-g`,
`'\0'`, `x` is none of `-g`, `-l`, `-ltxt`, yet the result is the error that
asks for a file name after `-g`, not `UNRECOGNIZED COMMAND`; the line made of
the byte `'\0'` has one token, yet the result is `NO COMMAND RECEIVED`; and the
line `-l`, `'\0'`, `x` is a valid list-all request. -/
theorem parseRequest_classification_nul_counterexample :
    tokensOf (str "-g" ++ 0 :: str "x") = [str "-g" ++ 0 :: str "x"] ∧
    (parseRequest (str "-g" ++ 0 :: str "x")).verdict
      = some (Verdict.error (str "BAD REQUEST: <filename> required after -g command.")) ∧
    tokensOf [0] = [[0]] ∧
    (parseRequest [0]).verdict = some (Verdict.error (str "NO COMMAND RECEIVED")) ∧
    tokensOf (str "-l" ++ 0 :: str "x") = [str "-l" ++ 0 :: str "x"] ∧
    (parseRequest (str "-l" ++ 0 :: str "x")).verdict = some Verdict.listAll := by
  decide

/-- C11 (amended): command classification is total and exclusive, on the
command line read as a C string (its bytes before the first `'\0'`). Every
command line is classified as exactly one `Verdict`: a valid get-file
request, a valid list-all request, a valid list-filtered request, or one
error message. A line with no token gives `NO COMMAND RECEIVED`, and a line
whose first token is none of `-g`, `-l`, `-ltxt` gives the
`UNRECOGNIZED COMMAND` error naming the accepted set. So `-g`,
`-g a.txt b.txt`, `-l x` and `-x` are errors, and `-g a.txt`, `-l` and
`-ltxt` are valid. -/
theorem parseRequest_classification (clientRequest : List Nat) :
    (∃ v, (parseRequest clientRequest).verdict = some v ∧
      (tokens clientRequest = [] → v = Verdict.error (str "NO COMMAND RECEIVED")) ∧
      (∀ t args, tokens clientRequest = t :: args →
        t ≠ str "-g" → t ≠ str "-l" → t ≠ str "-ltxt" →
        v = Verdict.error (str
          "UNRECOGNIZED COMMAND: Accepted commands are -l, -ltxt, and -g <filename>."))) ∧
    (parseRequest (str "-g")).verdict
      = some (Verdict.error (str "BAD REQUEST: <filename> required after -g command.")) ∧
    (parseRequest (str "-g a.txt b.txt")).verdict
      = some (Verdict.error
          (str "BAD REQUEST: only <filename> should come after -g command.")) ∧
    (parseRequest (str "-l x")).verdict
      = some (Verdict.error
          (str "BAD REQUEST: no arguments should appear after -l command.")) ∧
    (parseRequest (str "-x")).verdict
      = some (Verdict.error (str
          "UNRECOGNIZED COMMAND: Accepted commands are -l, -ltxt, and -g <filename>.")) ∧
    (parseRequest (str "-g a.txt")).verdict = some (Verdict.getFile (str "a.txt")) ∧
    (parseRequest (str "-l")).verdict = some Verdict.listAll ∧
    (parseRequest (str "-ltxt")).verdict = some Verdict.listFiltered := by
  refine ⟨?_, by decide, by decide, by decide, by decide, by decide, by decide, by decide⟩
  have n1 : ¬ (LIST_FILES = GET_FILE) := by decide
  have n2 : ¬ (LIST_TXT_FILES = GET_FILE) := by decide
  have n3 : ¬ (LIST_TXT_FILES = LIST_FILES) := by decide
  rw [parseRequest_eq]
  cases htok : tokens clientRequest with
  | nil => exact ⟨_, rfl, fun _ => rfl, fun t args h => by simp at h⟩
  | cons t1 args =>
    simp only
    by_cases hg : t1 = GET_FILE
    · subst hg
      simp only [if_true]
      cases args with
      | nil =>
        exact ⟨_, rfl, fun h => by simp at h,
          fun t a h hn => by simp at h; exact absurd h.1.symm hn⟩
      | cons a rest =>
        cases rest with
        | nil =>
          refine ⟨Verdict.getFile a, by simp [Request.verdict], fun h => by simp at h, ?_⟩
          intro t a' h hn
          simp at h
          exact absurd h.1.symm hn
        | cons b rest2 =>
          exact ⟨_, rfl, fun h => by simp at h,
            fun t a' h hn => by simp at h; exact absurd h.1.symm hn⟩
    · simp only [hg, if_false]
      by_cases hl : t1 = LIST_FILES
      · subst hl
        simp only [if_true]
        cases args with
        | nil =>
          refine ⟨Verdict.listAll, by simp [Request.verdict, n1], fun h => by simp at h, ?_⟩
          intro t a' h _ hn
          simp at h
          exact absurd h.1.symm hn
        | cons a rest =>
          refine ⟨Verdict.error
            (str "BAD REQUEST: no arguments should appear after -l command."),
            by simp [Request.verdict], fun h => by simp at h, ?_⟩
          intro t a' h _ hn
          simp at h
          exact absurd h.1.symm hn
      · simp only [hl, if_false]
        by_cases ht : t1 = LIST_TXT_FILES
        · subst ht
          simp only [if_true]
          cases args with
          | nil =>
            refine ⟨Verdict.listFiltered, by simp [Request.verdict, n2, n3],
              fun h => by simp at h, ?_⟩
            intro t a' h _ _ hn
            simp at h
            exact absurd h.1.symm hn
          | cons a rest =>
            refine ⟨Verdict.error
              (str "BAD REQUEST: no arguments should appear after -ltxt command."),
              by simp [Request.verdict], fun h => by simp at h, ?_⟩
            intro t a' h _ _ hn
            simp at h
            exact absurd h.1.symm hn
        · simp only [ht, if_false]
          exact ⟨_, rfl, fun h => by simp at h, fun _ _ _ _ _ _ => rfl⟩

/-- When the parsing part of `handleRequest` sets `requestError`, it has
chosen one of its five error texts and stored neither command nor file name. -/
theorem parseRequest_error (clientRequest : List Nat)
    (h : (parseRequest clientRequest).requestError = true) :
    ∃ message, (parseRequest clientRequest).errMessage = some message ∧
      (∀ b ∈ message, b ≠ 0) ∧ message.length < 2147483648 ∧
      (parseRequest clientRequest).command = none ∧
      (parseRequest clientRequest).filename = none := by
  rw [parseRequest_eq] at h ⊢
  have e1 : ∀ b ∈ str "NO COMMAND RECEIVED", b ≠ 0 := by decide
  have e2 : ∀ b ∈ str "BAD REQUEST: <filename> required after -g command.", b ≠ 0 := by
    decide
  have e3 : ∀ b ∈ str "BAD REQUEST: only <filename> should come after -g command.", b ≠ 0 := by
    decide
  have e4 : ∀ b ∈ str "BAD REQUEST: no arguments should appear after -l command.", b ≠ 0 := by
    decide
  have e5 : ∀ b ∈ str "BAD REQUEST: no arguments should appear after -ltxt command.",
      b ≠ 0 := by decide
  have e6 : ∀ b ∈ str
      "UNRECOGNIZED COMMAND: Accepted commands are -l, -ltxt, and -g <filename>.", b ≠ 0 := by
    decide
  split at h
  · exact ⟨_, rfl, e1, by decide, rfl, rfl⟩
  · split_ifs at h ⊢
    · split at h
      · exact ⟨_, rfl, e2, by decide, rfl, rfl⟩
      · simp at h
      · exact ⟨_, rfl, e3, by decide, rfl, rfl⟩
    all_goals first
      | exact ⟨_, rfl, e4, by decide, rfl, rfl⟩
      | exact ⟨_, rfl, e5, by decide, rfl, rfl⟩
      | exact ⟨_, rfl, e6, by decide, rfl, rfl⟩

/-- C12: for every invalid command line received on the control socket (the
parsing part sets `requestError`), with a transport that accepts the reply,
`handleRequest` sends exactly the frame of the error message chosen on the
control channel and returns: no event occurs outside the control socket (no
connect is made), the data socket, the command and the file name of the
session are left as they were (absent since `newFTInfo`), and only `send`
calls follow the receipt of the command line. -/
theorem handleRequest_invalid_command (w : World) (myFT : FTInfo)
    (clientRequest : List Nat) (s1 : Socket)
    (hrecv : recvMessage myFT.controlSocket = some (some clientRequest, s1))
    (hbad : (parseRequest clientRequest).requestError = true)
    (hsend : positive myFT.controlSocket.sendSched = true) :
    ∃ message w' myFT', (parseRequest clientRequest).errMessage = some message ∧
      handleRequest w myFT = some (w', myFT') ∧
      myFT'.controlSocket.outbound = myFT.controlSocket.outbound ++ frame message ∧
      w'.events = w.events ∧ myFT'.dataSocket = myFT.dataSocket ∧
      myFT'.command = myFT.command ∧ myFT'.filename = myFT.filename ∧
      myFT'.controlSocket.inbound = s1.inbound ∧
      ∃ new, myFT'.controlSocket.calls = s1.calls ++ new ∧
        ∀ x ∈ new, ∃ n ret, x = Call.send n ret := by
  obtain ⟨message, he, h0, hlen, hc, hf⟩ := parseRequest_error clientRequest hbad
  obtain ⟨ho1, hs1⟩ := recvMessage_frame _ _ _ hrecv
  have hp1 : positive s1.sendSched = true := by rw [hs1]; exact hsend
  obtain ⟨s2, e1, e2, e3, -⟩ := sendMessage_frame s1 message hp1 h0 hlen
  obtain ⟨new, c1, c2⟩ := sendMessage_calls _ _ _ _ e1
  have hres : handleRequest w myFT = some (w, { myFT with controlSocket := s2 }) := by
    unfold handleRequest
    simp only [hrecv, hbad, if_true, he, Option.getD_some, e1, hc, hf]
    simp
  refine ⟨message, w, { myFT with controlSocket := s2 }, he, hres, ?_, rfl, rfl, rfl, rfl, e3,
    new, c1, c2⟩
  simp only [e2, ho1]

theorem handleRequest_invalid_command_witness :
    ∃ message w' myFT', (parseRequest (str "-g a.txt b.txt")).errMessage = some message ∧
      handleRequest World.closed
          (newFTInfo (Socket.fresh (frame (str "-g a.txt b.txt"))) (str "10.0.0.1"))
        = some (w', myFT') ∧
      myFT'.controlSocket.outbound
        = (newFTInfo (Socket.fresh (frame (str "-g a.txt b.txt")))
            (str "10.0.0.1")).controlSocket.outbound ++ frame message ∧
      w'.events = World.closed.events ∧
      myFT'.dataSocket
        = (newFTInfo (Socket.fresh (frame (str "-g a.txt b.txt"))) (str "10.0.0.1")).dataSocket ∧
      myFT'.command
        = (newFTInfo (Socket.fresh (frame (str "-g a.txt b.txt"))) (str "10.0.0.1")).command ∧
      myFT'.filename
        = (newFTInfo (Socket.fresh (frame (str "-g a.txt b.txt"))) (str "10.0.0.1")).filename ∧
      myFT'.controlSocket.inbound
        = ({ inbound := [], recvSched := [], outbound := [], sendSched := [],
             calls := [Call.recv 1 1, Call.recv 1 1, Call.recv 1 1, Call.recv 14 14] }
             : Socket).inbound ∧
      ∃ new, myFT'.controlSocket.calls
          = ({ inbound := [], recvSched := [], outbound := [], sendSched := [],
               calls := [Call.recv 1 1, Call.recv 1 1, Call.recv 1 1, Call.recv 14 14] }
               : Socket).calls ++ new ∧
        ∀ x ∈ new, ∃ n ret, x = Call.send n ret :=
  handleRequest_invalid_command World.closed
    (newFTInfo (Socket.fresh (frame (str "-g a.txt b.txt"))) (str "10.0.0.1"))
    (str "-g a.txt b.txt")
    { inbound := [], recvSched := [], outbound := [], sendSched := [],
      calls := [Call.recv 1 1, Call.recv 1 1, Call.recv 1 1, Call.recv 14 14] }
    (by decide) (by decide) (by decide)

/-! ## Listing filter: claims -/

/-- C20: for every file name, `isTxtFile` is true exactly when the name (the C
string passed) ends with the four characters `.txt`, compared exactly.  So
`a.txt` and `.txt` itself are kept, and `a.TXT`, `a.txt.bak`, `txt` and names
shorter than four characters are not. -/
theorem isTxtFile_iff_suffix (filename : List Nat) :
    (isTxtFile filename = true ↔ str ".txt" <:+ cstr filename) ∧
    (str ".txt").length = 4 ∧
    isTxtFile (str "a.txt") = true ∧ isTxtFile (str ".txt") = true ∧
    isTxtFile (str "a.TXT") = false ∧ isTxtFile (str "a.txt.bak") = false ∧
    isTxtFile (str "txt") = false ∧ isTxtFile (str "a.t") = false ∧
    isTxtFile (str "") = false := by
  refine ⟨?_, by decide, by decide, by decide, by decide, by decide, by decide, by decide,
    by decide⟩
  have h4 : (str ".txt").length = 4 := by decide
  unfold isTxtFile strlen TXT_EXTENSION TXT_EXTENSION_LEN
  simp only
  by_cases hlt : (cstr filename).length < 4
  · simp only [hlt, if_true, Bool.false_eq_true, false_iff]
    intro hs
    have := hs.length_le
    omega
  · simp only [hlt, if_false]
    rw [List.suffix_iff_eq_drop, h4]
    constructor
    · intro h
      split at h
      · rename_i heq
        exact heq.symm
      · simp at h
    · intro h
      rw [← h]
      simp

/-! ## Data connection -/

/-- Whatever the schedule, the send loop writes a prefix of what it was given. -/
theorem sendCompleteStringLoop_prefix (fuel : Nat) (s : Socket) (pos : List Nat) (c : Int)
    (r : Int) (s' : Socket) (h : sendCompleteStringLoop fuel s pos c = some (r, s')) :
    ∃ k, k ≤ c.toNat ∧ s'.outbound = s.outbound ++ pos.take k := by
  induction fuel generalizing s pos c with
  | zero => simp [sendCompleteStringLoop] at h
  | succ fuel ih =>
    unfold sendCompleteStringLoop at h
    by_cases hc : c > 0
    · simp only [hc, if_true] at h
      obtain ⟨-, -, -, hcase⟩ := send_spec s pos c.toNat
      rcases hcase with ⟨hneg, hout⟩ | ⟨j, hj1, hj2, hret, hout, -⟩
      · simp only [hneg] at h
        simp at h
        obtain ⟨-, rfl⟩ := h
        exact ⟨0, by omega, by simp [hout]⟩
      · have hnn : ¬ ((send s pos c.toNat).1 < 0) := by rw [hret]; omega
        simp only [hnn, if_false] at h
        obtain ⟨k, hk, ho⟩ := ih _ _ _ h
        have e1 : ((j : Int)).toNat = j := by simp
        have e2 : (c - (j : Int)).toNat = c.toNat - j := by omega
        rw [hret, e1] at ho
        rw [hret, e2] at hk
        refine ⟨j + k, by omega, ?_⟩
        rw [ho, hout, List.append_assoc, List.take_add]
    · simp only [hc, if_false] at h
      simp at h
      obtain ⟨-, rfl⟩ := h
      exact ⟨0, by omega, by simp⟩

/-- Whatever the schedule and the result, `sendMessage` writes a prefix of the
length string followed by the string. -/
theorem sendMessage_prefix (s s' : Socket) (message : List Nat) (r : Int)
    (h : sendMessage s message = some (r, s')) :
    ∃ sent, s'.outbound = s.outbound ++ sent ∧
      sent <+: (sprintfInt (toInt (strlen message)) ++ [64]) ++
        message.take (toInt (strlen message)).toNat := by
  unfold sendMessage at h
  simp only at h
  cases h1 : sendCompleteString s (sprintfInt (toInt (strlen message)) ++ [64]) with
  | none => simp [h1] at h
  | some p1 =>
    obtain ⟨r1, s1⟩ := p1
    obtain ⟨k1, -, hk1⟩ := sendCompleteStringLoop_prefix _ _ _ _ _ _ h1
    obtain ⟨hr1, ho1, -, -⟩ := sendCompleteString_result _ _ _ _ h1
    simp only [h1] at h
    by_cases hneg : r1 = -1
    · simp only [hneg, if_true] at h
      simp at h
      obtain ⟨-, rfl⟩ := h
      exact ⟨_, hk1, (List.take_prefix _ _).trans (List.prefix_append _ _)⟩
    · simp only [hneg, if_false] at h
      have hr10 : r1 = 0 := by rcases hr1 with h0 | h0 <;> [exact h0; exact absurd h0 hneg]
      have ho1 := ho1 hr10
      rw [sendMessage_wire] at ho1
      cases h2 : sendCompleteString s1 message with
      | none => simp [h2] at h
      | some p2 =>
        obtain ⟨r2, s2⟩ := p2
        obtain ⟨k2, hk2le, hk2⟩ := sendCompleteStringLoop_prefix _ _ _ _ _ _ h2
        simp only [h2] at h
        have hs : s2 = s' := by
          by_cases hneg2 : r2 = -1
          · simp only [hneg2, if_true] at h
            simp at h
            exact h.2
          · simp only [hneg2, if_false] at h
            simp at h
            exact h.2
        subst hs
        refine ⟨(sprintfInt (toInt (strlen message)) ++ [64]) ++ message.take k2, ?_, ?_⟩
        · rw [hk2, ho1, List.append_assoc]
        · apply (List.prefix_append_right_inj _).2
          rw [List.prefix_iff_eq_take]
          simp only [List.length_take, List.take_take]
          congr 1
          have := toInt_toNat_le (strlen message)
          have := strlen_le_length message
          omega

theorem sendMessage_ret (s s' : Socket) (message : List Nat) (r : Int)
    (h : sendMessage s message = some (r, s')) : r = 0 ∨ r = -1 :=
  (sendMessage_result s s' message r h).1

theorem validationMessage_wire :
    (sprintfInt (toInt (strlen validationMessage)) ++ [64]) ++
        validationMessage.take (toInt (strlen validationMessage)).toNat
      = frame validationMessage := by
  decide

/-! ## Data connection: claims -/

/-- C14 (as stated, refuted): a reply that is not `FTSERVER DATA CONNECTION
ACCEPTED` byte for byte is accepted.  The reply payload of 38 bytes made of the
expected text, a `'\0'` and `junk` passes `strcmp`, and `validateDataConnection`
returns true. -/
theorem validateDataConnection_nul_counterexample :
    (validateDataConnection
        { World.closed with
            dataPeer := fun _ _ => some (Socket.fresh
              (frame (str "FTSERVER DATA CONNECTION ACCEPTED" ++ 0 :: str "junk"))) }
        { newFTInfo (Socket.fresh []) (str "10.0.0.1") with
            dataPort := some (str "8080") }).map (fun x => x.1) = some true ∧
    str "FTSERVER DATA CONNECTION ACCEPTED" ++ 0 :: str "junk"
      ≠ str "FTSERVER DATA CONNECTION ACCEPTED" := by
  decide

/-- C14 (amended): `validateDataConnection` returns true exactly when the
connection to the client is made, the send of `FTSERVER DATA CONNECTION
INITIALIZATION` succeeds, and the framed reply received on the data channel,
read as a C string (up to its first `'\0'`, if any), equals `FTSERVER DATA
CONNECTION ACCEPTED`; every received reply whose C string differs makes it
return false. -/
theorem validateDataConnection_succeeds_iff (w : World) (myFT : FTInfo) (port : List Nat)
    (hport : myFT.dataPort = some port) :
    ((validateDataConnection w myFT).map (fun x => x.1) = some true ↔
      ∃ d0 d1 d2 reply, w.dataPeer (cstr myFT.clientHost) (cstr port) = some d0 ∧
        sendMessage d0 (str "FTSERVER DATA CONNECTION INITIALIZATION") = some (0, d1) ∧
        recvMessage d1 = some (some reply, d2) ∧
        cstr reply = str "FTSERVER DATA CONNECTION ACCEPTED") ∧
    ∀ d0 d1 d2 reply, w.dataPeer (cstr myFT.clientHost) (cstr port) = some d0 →
      sendMessage d0 (str "FTSERVER DATA CONNECTION INITIALIZATION") = some (0, d1) →
      recvMessage d1 = some (some reply, d2) →
      cstr reply ≠ str "FTSERVER DATA CONNECTION ACCEPTED" →
      (validateDataConnection w myFT).map (fun x => x.1) = some false := by
  have hv : str "FTSERVER DATA CONNECTION INITIALIZATION" = validationMessage := rfl
  have he : str "FTSERVER DATA CONNECTION ACCEPTED" = responseExpected := rfl
  rw [hv, he]
  unfold validateDataConnection establishDataSocket
  simp only [hport]
  constructor
  · constructor
    · intro h
      cases hd : w.dataPeer (cstr myFT.clientHost) (cstr port) with
      | none => simp [hd] at h
      | some d0 =>
        simp only [hd] at h
        cases hs : sendMessage d0 validationMessage with
        | none => simp [hs] at h
        | some x =>
          obtain ⟨r, d1⟩ := x
          simp only [hs] at h
          rcases sendMessage_ret _ _ _ _ hs with rfl | rfl
          · simp only [show ¬ ((0 : Int) = -1) by decide, if_false] at h
            cases hr : recvMessage d1 with
            | none => simp [hr] at h
            | some y =>
              obtain ⟨o, d2⟩ := y
              cases o with
              | none => simp [hr] at h
              | some reply =>
                simp only [hr] at h
                by_cases hc : cstr reply = responseExpected
                · exact ⟨d0, d1, d2, reply, rfl, hs, hr, hc⟩
                · simp [hc] at h
          · simp at h
    · rintro ⟨d0, d1, d2, reply, h0, h1, h2, h3⟩
      simp [h0, h1, h2, h3]
  · intro d0 d1 d2 reply h0 h1 h2 h3
    simp [h0, h1, h2, h3]

theorem validateDataConnection_succeeds_iff_witness :
    ((validateDataConnection
        { World.closed with
            dataPeer := fun _ _ => some (Socket.fresh
              (frame (str "FTSERVER DATA CONNECTION ACCEPTED"))) }
        { newFTInfo (Socket.fresh []) (str "10.0.0.1") with
            dataPort := some (str "8080") }).map (fun x => x.1) = some true ↔
      ∃ d0 d1 d2 reply,
        (fun (_ _ : List Nat) => some (Socket.fresh
            (frame (str "FTSERVER DATA CONNECTION ACCEPTED"))))
          (cstr (str "10.0.0.1")) (cstr (str "8080")) = some d0 ∧
        sendMessage d0 (str "FTSERVER DATA CONNECTION INITIALIZATION") = some (0, d1) ∧
        recvMessage d1 = some (some reply, d2) ∧
        cstr reply = str "FTSERVER DATA CONNECTION ACCEPTED") ∧
    ∀ d0 d1 d2 reply,
      (fun (_ _ : List Nat) => some (Socket.fresh
          (frame (str "FTSERVER DATA CONNECTION ACCEPTED"))))
        (cstr (str "10.0.0.1")) (cstr (str "8080")) = some d0 →
      sendMessage d0 (str "FTSERVER DATA CONNECTION INITIALIZATION") = some (0, d1) →
      recvMessage d1 = some (some reply, d2) →
      cstr reply ≠ str "FTSERVER DATA CONNECTION ACCEPTED" →
      (validateDataConnection
        { World.closed with
            dataPeer := fun _ _ => some (Socket.fresh
              (frame (str "FTSERVER DATA CONNECTION ACCEPTED"))) }
        { newFTInfo (Socket.fresh []) (str "10.0.0.1") with
            dataPort := some (str "8080") }).map (fun x => x.1) = some false :=
  validateDataConnection_succeeds_iff
    { World.closed with
        dataPeer := fun _ _ => some (Socket.fresh
          (frame (str "FTSERVER DATA CONNECTION ACCEPTED"))) }
    { newFTInfo (Socket.fresh []) (str "10.0.0.1") with dataPort := some (str "8080") }
    (str "8080") rfl

/-- C15: when a valid command line was received and the validation of the
data connection fails (the connection cannot be made, the send of the
initialization message fails, the receive fails, or the reply differs from the
expected one), `handleRequest` returns having sent nothing further: the
control socket is as it was when the command line had been received (no
outcome message), the only event is the connection attempt (no file is opened,
no directory listed), and the data socket, when one was connected, has been
sent nothing but a prefix of the frame of the initialization message. -/
theorem handleRequest_validation_failure (w : World) (myFT : FTInfo)
    (clientRequest port : List Nat) (s1 : Socket)
    (hrecv : recvMessage myFT.controlSocket = some (some clientRequest, s1))
    (hreq : (parseRequest clientRequest).requestError = false)
    (hport : myFT.dataPort = some port)
    (hfail : w.dataPeer (cstr myFT.clientHost) (cstr port) = none ∨
      ∃ d0, w.dataPeer (cstr myFT.clientHost) (cstr port) = some d0 ∧
        ((∃ d1, sendMessage d0 (str "FTSERVER DATA CONNECTION INITIALIZATION")
            = some (-1, d1)) ∨
         ∃ d1, sendMessage d0 (str "FTSERVER DATA CONNECTION INITIALIZATION") = some (0, d1) ∧
          ((∃ d2, recvMessage d1 = some (none, d2)) ∨
           ∃ reply d2, recvMessage d1 = some (some reply, d2) ∧
            cstr reply ≠ str "FTSERVER DATA CONNECTION ACCEPTED"))) :
    ∃ w' myFT', handleRequest w myFT = some (w', myFT') ∧
      myFT'.controlSocket = s1 ∧
      myFT'.controlSocket.outbound = myFT.controlSocket.outbound ∧
      (∃ connected, w'.events
        = w.events ++ [Event.connect (cstr myFT.clientHost) (cstr port) connected]) ∧
      (myFT'.dataSocket = myFT.dataSocket ∨
        ∃ d0 d sent, w.dataPeer (cstr myFT.clientHost) (cstr port) = some d0 ∧
          myFT'.dataSocket = some d ∧ d.outbound = d0.outbound ++ sent ∧
          sent <+: frame (str "FTSERVER DATA CONNECTION INITIALIZATION")) := by
  have hv : str "FTSERVER DATA CONNECTION INITIALIZATION" = validationMessage := rfl
  have he : str "FTSERVER DATA CONNECTION ACCEPTED" = responseExpected := rfl
  rw [hv, he] at hfail
  rw [hv]
  obtain ⟨ho1, -⟩ := recvMessage_frame _ _ _ hrecv
  unfold handleRequest
  simp only [hrecv, hreq, Bool.false_eq_true, if_false]
  unfold validateDataConnection establishDataSocket
  simp only [hport]
  rcases hfail with h0 | ⟨d0, h0, hrest⟩
  · simp only [h0]
    refine ⟨_, _, rfl, rfl, ho1, ⟨_, rfl⟩, Or.inl rfl⟩
  · simp only [h0]
    rcases hrest with ⟨d1, h1⟩ | ⟨d1, h1, hrest⟩
    · obtain ⟨sent, e1, e2⟩ := sendMessage_prefix _ _ _ _ h1
      rw [validationMessage_wire] at e2
      simp only [h1, if_true]
      exact ⟨_, _, rfl, rfl, ho1, ⟨_, rfl⟩, Or.inr ⟨d0, d1, sent, rfl, rfl, e1, e2⟩⟩
    · obtain ⟨sent, e1, e2⟩ := sendMessage_prefix _ _ _ _ h1
      rw [validationMessage_wire] at e2
      simp only [h1, show ¬ ((0 : Int) = -1) by decide, if_false]
      rcases hrest with ⟨d2, h2⟩ | ⟨reply, d2, h2, h3⟩
      · obtain ⟨f1, -⟩ := recvMessage_frame _ _ _ h2
        simp only [h2]
        exact ⟨_, _, rfl, rfl, ho1, ⟨_, rfl⟩,
          Or.inr ⟨d0, d2, sent, rfl, rfl, by rw [f1, e1], e2⟩⟩
      · obtain ⟨f1, -⟩ := recvMessage_frame _ _ _ h2
        simp only [h2, ne_eq, h3, not_false_eq_true, if_true]
        exact ⟨_, _, rfl, rfl, ho1, ⟨_, rfl⟩,
          Or.inr ⟨d0, d2, sent, rfl, rfl, by rw [f1, e1], e2⟩⟩

theorem handleRequest_validation_failure_witness :
    ∃ w' myFT',
      handleRequest (World.sample (str "NO") (fun _ => OpenResult.error []) (DirResult.opened [] none))
        (FTInfo.sample (str "-l")) = some (w', myFT') ∧
      myFT'.controlSocket
        = { inbound := [], recvSched := [], outbound := [], sendSched := [],
            calls := [Call.recv 1 1, Call.recv 1 1, Call.recv 2 2] } ∧
      myFT'.controlSocket.outbound = (FTInfo.sample (str "-l")).controlSocket.outbound ∧
      (∃ connected,
        w'.events = (World.sample (str "NO") (fun _ => OpenResult.error [])
            (DirResult.opened [] none)).events ++
          [Event.connect (cstr (FTInfo.sample (str "-l")).clientHost) (cstr (str "8080"))
            connected]) ∧
      (myFT'.dataSocket = (FTInfo.sample (str "-l")).dataSocket ∨
        ∃ d0 d sent,
          (World.sample (str "NO") (fun _ => OpenResult.error [])
              (DirResult.opened [] none)).dataPeer
            (cstr (FTInfo.sample (str "-l")).clientHost) (cstr (str "8080")) = some d0 ∧
          myFT'.dataSocket = some d ∧ d.outbound = d0.outbound ++ sent ∧
          sent <+: frame (str "FTSERVER DATA CONNECTION INITIALIZATION")) :=
  handleRequest_validation_failure
    (World.sample (str "NO") (fun _ => OpenResult.error []) (DirResult.opened [] none))
    (FTInfo.sample (str "-l")) (str "-l") (str "8080")
    { inbound := [], recvSched := [], outbound := [], sendSched := [],
      calls := [Call.recv 1 1, Call.recv 1 1, Call.recv 2 2] }
    (by decide) (by decide) rfl
    (Or.inr ⟨Socket.fresh (frame (str "NO")), rfl, Or.inr
      ⟨{ inbound := frame (str "NO"), recvSched := [],
         outbound := frame (str "FTSERVER DATA CONNECTION INITIALIZATION"), sendSched := [],
         calls := [Call.send 3 3, Call.send 39 39] },
       by decide,
       Or.inr ⟨str "NO",
         { inbound := [], recvSched := [],
           outbound := frame (str "FTSERVER DATA CONNECTION INITIALIZATION"), sendSched := [],
           calls := [Call.send 3 3, Call.send 39 39, Call.recv 1 1, Call.recv 1 1,
             Call.recv 2 2] },
         by decide, by decide⟩⟩⟩)

/-! ## Sending a file -/

/-- The send loop returns `-1` exactly when one of its `send` calls failed. -/
theorem sendCompleteStringLoop_failed (fuel : Nat) (s : Socket) (pos : List Nat) (c : Int)
    (r : Int) (s' : Socket) (h : sendCompleteStringLoop fuel s pos c = some (r, s')) :
    ∃ new, s'.calls = s.calls ++ new ∧
      (r = -1 ↔ ∃ x ∈ new, Call.failedSend x = true) := by
  induction fuel generalizing s pos c with
  | zero => simp [sendCompleteStringLoop] at h
  | succ fuel ih =>
    unfold sendCompleteStringLoop at h
    by_cases hc : c > 0
    · simp only [hc, if_true] at h
      by_cases hneg : (send s pos c.toNat).1 < 0
      · simp only [hneg, if_true] at h
        simp at h
        obtain ⟨rfl, rfl⟩ := h
        refine ⟨[Call.send c.toNat (send s pos c.toNat).1], send_calls s pos c.toNat, ?_⟩
        simp [Call.failedSend, hneg]
      · simp only [hneg, if_false] at h
        obtain ⟨new, h1, h2⟩ := ih _ _ _ h
        refine ⟨Call.send c.toNat (send s pos c.toNat).1 :: new,
          by rw [h1, send_calls]; simp, ?_⟩
        rw [h2]
        simp [Call.failedSend, hneg]
    · simp only [hc, if_false] at h
      simp at h
      obtain ⟨rfl, rfl⟩ := h
      exact ⟨[], by simp, by simp⟩

/-- Function `sendMessage` returns `-1` exactly when one of its `send` calls
failed. -/
theorem sendMessage_failed (s s' : Socket) (message : List Nat) (r : Int)
    (h : sendMessage s message = some (r, s')) :
    ∃ new, s'.calls = s.calls ++ new ∧
      (r = -1 ↔ ∃ x ∈ new, Call.failedSend x = true) := by
  unfold sendMessage at h
  simp only at h
  cases h1 : sendCompleteString s (sprintfInt (toInt (strlen message)) ++ [64]) with
  | none => simp [h1] at h
  | some p1 =>
    obtain ⟨r1, s1⟩ := p1
    obtain ⟨new1, c1, a1⟩ := sendCompleteStringLoop_failed _ _ _ _ _ _ h1
    simp only [h1] at h
    by_cases hneg : r1 = -1
    · simp only [hneg, if_true] at h
      simp at h
      obtain ⟨rfl, rfl⟩ := h
      exact ⟨new1, c1, by rw [← a1]; simp [hneg]⟩
    · simp only [hneg, if_false] at h
      have hno1 : ¬ ∃ x ∈ new1, Call.failedSend x = true := fun hx => hneg (a1.2 hx)
      cases h2 : sendCompleteString s1 message with
      | none => simp [h2] at h
      | some p2 =>
        obtain ⟨r2, s2⟩ := p2
        obtain ⟨new2, c2, a2⟩ := sendCompleteStringLoop_failed _ _ _ _ _ _ h2
        simp only [h2] at h
        have hiff : (r = -1 ↔ r2 = -1) ∧ s2 = s' := by
          by_cases hneg2 : r2 = -1
          · simp only [hneg2, if_true] at h
            simp at h
            exact ⟨by simp [← h.1, hneg2], h.2⟩
          · simp only [hneg2, if_false] at h
            simp at h
            exact ⟨by simp [← h.1, hneg2], h.2⟩
        obtain ⟨hiff, rfl⟩ := hiff
        refine ⟨new1 ++ new2, by rw [c2, c1, List.append_assoc], ?_⟩
        rw [hiff, a2]
        constructor
        · rintro ⟨x, hx, hf⟩
          exact ⟨x, by simp [hx], hf⟩
        · rintro ⟨x, hx, hf⟩
          simp only [List.mem_append] at hx
          rcases hx with hx | hx
          · exact absurd ⟨x, hx, hf⟩ hno1
          · exact ⟨x, hx, hf⟩

/-- What one `read` call can do, whatever the schedule. -/
theorem read_spec (f : File) (n : Nat) :
    (read f n).2.2.reads = f.reads ++ [(read f n).1] ∧
    f.content = (read f n).2.1 ++ (read f n).2.2.content ∧
    (((read f n).1 = -1 ∧ (read f n).2.1 = []) ∨ (read f n).1 = ((read f n).2.1.length : Int)) ∧
    (read f n).2.1.length ≤ n := by
  unfold read
  split
  · exact ⟨rfl, by simp, Or.inl ⟨rfl, rfl⟩, by simp⟩
  · refine ⟨rfl, by simp, Or.inr rfl, ?_⟩
    simp only [List.length_take]
    omega
  · refine ⟨rfl, by simp, Or.inr rfl, ?_⟩
    simp only [List.length_take]
    omega

/-- Log invariant of the loop of `sendFileToClient`.  The loop ends in one of
three ways: a `send` on the data socket failed (no outcome), the last `read`
returned `0`, or the last `read` returned `-1`; every `read` before the last
returned a positive count. -/
theorem sendFileLoop_log (fuel : Nat) (f f' : File) (d d' : Socket) (total : Nat)
    (res : Option (Int × Nat)) (h : sendFileLoop fuel f d total = some (res, f', d')) :
    ∃ newReads newCalls, f'.reads = f.reads ++ newReads ∧ d'.calls = d.calls ++ newCalls ∧
      (∃ sent, d'.outbound = d.outbound ++ sent) ∧
      (res = none ↔ ∃ x ∈ newCalls, Call.failedSend x = true) ∧
      ((∃ t, res = some (0, t)) ↔
        (newReads.getLast? = some 0 ∧ ¬ ∃ x ∈ newCalls, Call.failedSend x = true)) ∧
      ((∃ t, res = some (-1, t)) ↔ (-1 : Int) ∈ newReads) ∧
      (res = none ∨ (∃ t, res = some (0, t)) ∨ ∃ t, res = some (-1, t)) ∧
      newReads ≠ [] := by
  induction fuel generalizing f d total with
  | zero => simp [sendFileLoop] at h
  | succ fuel ih =>
    unfold sendFileLoop at h
    simp only at h
    obtain ⟨hreads, -, hret, -⟩ := read_spec f MAX_SEND_SIZE
    by_cases hpos : (read f MAX_SEND_SIZE).1 > 0
    · simp only [hpos, if_true] at h
      cases hs : sendMessage d (read f MAX_SEND_SIZE).2.1 with
      | none => simp [hs] at h
      | some x =>
        obtain ⟨r, d1⟩ := x
        obtain ⟨callsMsg, hc1, hf1⟩ := sendMessage_failed _ _ _ _ hs
        obtain ⟨sent1, ho1, -⟩ := sendMessage_prefix _ _ _ _ hs
        simp only [hs] at h
        by_cases hneg : r = -1
        · simp only [hneg, if_true] at h
          simp at h
          obtain ⟨rfl, rfl, rfl⟩ := h
          have hfail : ∃ x ∈ callsMsg, Call.failedSend x = true := hf1.1 hneg
          refine ⟨[(read f MAX_SEND_SIZE).1], callsMsg, hreads, hc1, ⟨sent1, ho1⟩, ?_, ?_, ?_,
            Or.inl rfl, by simp⟩
          · simp [hfail]
          · simp [hfail]
          · simp only [List.mem_singleton]
            constructor
            · rintro ⟨t, ht⟩
              simp at ht
            · intro hm
              omega
        · simp only [hneg, if_false] at h
          have hnofail : ¬ ∃ x ∈ callsMsg, Call.failedSend x = true := fun hx => hneg (hf1.2 hx)
          obtain ⟨newReads, newCalls, a1, a2, ⟨sent2, a3⟩, a4, a5, a6, a7, a8⟩ := ih _ _ _ h
          have hfiff : (∃ x ∈ callsMsg ++ newCalls, Call.failedSend x = true) ↔
              ∃ x ∈ newCalls, Call.failedSend x = true := by
            constructor
            · rintro ⟨x, hx, hf⟩
              simp only [List.mem_append] at hx
              rcases hx with hx | hx
              · exact absurd ⟨x, hx, hf⟩ hnofail
              · exact ⟨x, hx, hf⟩
            · rintro ⟨x, hx, hf⟩
              exact ⟨x, by simp [hx], hf⟩
          refine ⟨(read f MAX_SEND_SIZE).1 :: newReads, callsMsg ++ newCalls, ?_, ?_,
            ⟨sent1 ++ sent2, ?_⟩, ?_, ?_, ?_, a7, by simp⟩
          · rw [a1, hreads]; simp
          · rw [a2, hc1]; simp
          · rw [a3, ho1]; simp
          · rw [a4, hfiff]
          · have hl : ((read f MAX_SEND_SIZE).1 :: newReads).getLast? = newReads.getLast? := by
              cases newReads with
              | nil => exact absurd rfl a8
              | cons b l => simp [List.getLast?_cons_cons]
            rw [a5, hfiff, hl]
          · rw [a6]
            simp only [List.mem_cons]
            constructor
            · exact Or.inr
            · rintro (hm | hm)
              · omega
              · exact hm
    · simp only [hpos, if_false] at h
      simp at h
      obtain ⟨rfl, rfl, rfl⟩ := h
      have hval : (read f MAX_SEND_SIZE).1 = 0 ∨ (read f MAX_SEND_SIZE).1 = -1 := by
        rcases hret with ⟨h1, -⟩ | h1
        · exact Or.inr h1
        · left; omega
      refine ⟨[(read f MAX_SEND_SIZE).1], [], hreads, by simp, ⟨[], by simp⟩, by simp, ?_, ?_,
        ?_, by simp⟩
      · simp only [List.getLast?_singleton, List.not_mem_nil, false_and, exists_false,
          not_false_eq_true, and_true, Option.some.injEq]
        constructor
        · rintro ⟨t, ht⟩
          simp at ht
          exact ht.1
        · intro h0
          exact ⟨total, by rw [h0]⟩
      · simp only [List.mem_singleton]
        constructor
        · rintro ⟨t, ht⟩
          simp at ht
          exact ht.1.symm
        · intro h0
          exact ⟨total, by rw [← h0]⟩
      · rcases hval with h0 | h0
        · exact Or.inr (Or.inl ⟨total, by rw [h0]⟩)
        · exact Or.inr (Or.inr ⟨total, by rw [h0]⟩)

/-- A `read` that returns a positive count consumes that many bytes. -/
theorem read_consumes (f : File) (n : Nat) (h : (read f n).1 > 0) :
    (read f n).2.2.content.length < f.content.length := by
  obtain ⟨-, hc, hret, -⟩ := read_spec f n
  have hlen : (read f n).1 = ((read f n).2.1.length : Int) := by
    rcases hret with ⟨h1, -⟩ | h1
    · omega
    · exact h1
  have := congrArg List.length hc
  rw [List.length_append] at this
  omega

/-- The loop of `sendFileToClient` returns within one iteration per byte of
the file plus one. -/
theorem sendFileLoop_isSome (fuel : Nat) (f : File) (d : Socket) (total : Nat)
    (h : f.content.length < fuel) : (sendFileLoop fuel f d total).isSome = true := by
  induction fuel generalizing f d total with
  | zero => omega
  | succ fuel ih =>
    unfold sendFileLoop
    simp only
    by_cases hpos : (read f MAX_SEND_SIZE).1 > 0
    · simp only [hpos, if_true]
      have hlt := read_consumes f MAX_SEND_SIZE hpos
      have hs := sendMessage_isSome d (read f MAX_SEND_SIZE).2.1
      cases e : sendMessage d (read f MAX_SEND_SIZE).2.1 with
      | none => simp [e] at hs
      | some x =>
        obtain ⟨r, d1⟩ := x
        simp only
        split
        · rfl
        · exact ih _ _ _ (lt_of_lt_of_le hlt (by omega))
    · simp [hpos]

theorem successText_facts (bytes : Nat) (h : bytes < 18446744073709551616) :
    (∀ b ∈ successText bytes, b ≠ 0) ∧ (successText bytes).length < 2147483648 := by
  have h1 : ∀ b ∈ str "SUCCESS! ", b ≠ 0 := by decide
  have h2 : ∀ b ∈ str " bytes sent over data connection.", b ≠ 0 := by decide
  have h3 : (str "SUCCESS! ").length = 9 := by decide
  have h4 : (str " bytes sent over data connection.").length = 33 := by decide
  have h5 : (decimal bytes).length ≤ 20 := decimalCore_length_le _ _ 19 (by norm_num; omega)
  unfold successText
  constructor
  · intro b hb
    simp only [List.mem_append] at hb
    rcases hb with (hb | hb) | hb
    · exact h1 b hb
    · exact (isdigit_ne (decimal_digits _ b hb)).1
    · exact h2 b hb
  · simp only [List.length_append, h3, h4]
    omega

/-- A `recv` call leaves the sending side of the socket alone. -/
theorem waitToCloseDataSocket_fields (myFT : FTInfo) :
    (waitToCloseDataSocket myFT).controlSocket.outbound = myFT.controlSocket.outbound ∧
    (waitToCloseDataSocket myFT).controlSocket.calls
      = myFT.controlSocket.calls ++ [Call.recv 1 (recv myFT.controlSocket 1).1] ∧
    (waitToCloseDataSocket myFT).dataSocket = myFT.dataSocket ∧
    (waitToCloseDataSocket myFT).command = myFT.command ∧
    (waitToCloseDataSocket myFT).filename = myFT.filename ∧
    (waitToCloseDataSocket myFT).dataPort = myFT.dataPort := by
  obtain ⟨hc, -, -, -, ho, -⟩ := recv_spec myFT.controlSocket 1
  exact ⟨ho, hc, rfl, rfl, rfl, rfl⟩

/-- Function `sendErrorMessage` only touches the control socket. -/
theorem sendErrorMessage_fields (myFT myFT' : FTInfo) (errMessage : List Nat) (r : Int)
    (h : sendErrorMessage myFT errMessage = some (r, myFT')) :
    myFT'.dataSocket = myFT.dataSocket ∧ myFT'.command = myFT.command ∧
    myFT'.filename = myFT.filename ∧ myFT'.dataPort = myFT.dataPort := by
  unfold sendErrorMessage at h
  cases hs : sendMessage myFT.controlSocket errMessage with
  | none => simp [hs] at h
  | some x =>
    obtain ⟨r1, s1⟩ := x
    simp only [hs] at h
    split at h
    · simp at h
      obtain ⟨-, rfl⟩ := h
      exact ⟨rfl, rfl, rfl, rfl⟩
    · simp at h
      obtain ⟨-, rfl⟩ := h
      exact ⟨rfl, rfl, rfl, rfl⟩

/-- Function `sendSuccessMessage` only touches the control socket. -/
theorem sendSuccessMessage_fields (myFT myFT' : FTInfo) (bytesSent : Nat) (r : Int)
    (h : sendSuccessMessage myFT bytesSent = some (r, myFT')) :
    myFT'.dataSocket = myFT.dataSocket ∧ myFT'.command = myFT.command ∧
    myFT'.filename = myFT.filename ∧ myFT'.dataPort = myFT.dataPort := by
  unfold sendSuccessMessage at h
  simp only at h
  split at h
  · simp at h
  · split at h
    · simp at h
      obtain ⟨-, rfl⟩ := h
      exact ⟨rfl, rfl, rfl, rfl⟩
    · simp at h
      obtain ⟨-, rfl⟩ := h
      exact ⟨rfl, rfl, rfl, rfl⟩

/-- With a transport that accepts the message, `sendErrorMessage` sends the
frame of the error text on the control socket, then waits for the client. -/
theorem sendErrorMessage_positive (myFT : FTInfo) (errMessage : List Nat)
    (hp : positive myFT.controlSocket.sendSched = true) (h0 : ∀ b ∈ errMessage, b ≠ 0)
    (hlen : errMessage.length < 2147483648) :
    ∃ myFT', sendErrorMessage myFT errMessage = some (0, myFT') ∧
      myFT'.controlSocket.outbound = myFT.controlSocket.outbound ++ frame errMessage ∧
      myFT'.dataSocket = myFT.dataSocket := by
  obtain ⟨s1, e1, e2, -⟩ := sendMessage_frame myFT.controlSocket errMessage hp h0 hlen
  refine ⟨waitToCloseDataSocket { myFT with controlSocket := s1 }, ?_, ?_, rfl⟩
  · unfold sendErrorMessage
    simp [e1]
  · rw [(waitToCloseDataSocket_fields _).1]
    exact e2

/-- With a transport that accepts the message, `sendSuccessMessage` sends the
frame of the success message for the byte count (an `unsigned long long`) on
the control socket, then waits for the client. -/
theorem sendSuccessMessage_positive (myFT : FTInfo) (bytesSent : Nat)
    (hp : positive myFT.controlSocket.sendSched = true) :
    ∃ myFT', sendSuccessMessage myFT bytesSent = some (0, myFT') ∧
      myFT'.controlSocket.outbound
        = myFT.controlSocket.outbound ++ frame (successText (bytesSent % ULLONG_MOD)) ∧
      myFT'.dataSocket = myFT.dataSocket := by
  obtain ⟨h0, hlen⟩ := successText_facts (bytesSent % ULLONG_MOD)
    (Nat.mod_lt _ (by decide))
  obtain ⟨s1, e1, e2, -⟩ := sendMessage_frame myFT.controlSocket _ hp h0 hlen
  refine ⟨waitToCloseDataSocket { myFT with controlSocket := s1 }, ?_, ?_, rfl⟩
  · unfold sendSuccessMessage
    simp only
    unfold successText at e1
    simp only [e1]
    simp
  · rw [(waitToCloseDataSocket_fields _).1]
    exact e2

/-- Two lists cut at their first `'@'` are equal only piece by piece. -/
theorem append_at_inj (a b x y : List Nat) (ha : ∀ c ∈ a, c ≠ 64) (hb : ∀ c ∈ b, c ≠ 64)
    (h : a ++ 64 :: x = b ++ 64 :: y) : a = b ∧ x = y := by
  induction a generalizing b with
  | nil =>
    cases b with
    | nil => simpa using h
    | cons c b =>
      simp only [List.nil_append, List.cons_append, List.cons.injEq] at h
      exact absurd h.1.symm (hb c (by simp))
  | cons c a ih =>
    cases b with
    | nil =>
      simp only [List.nil_append, List.cons_append, List.cons.injEq] at h
      exact absurd h.1 (ha c (by simp))
    | cons e b =>
      simp only [List.cons_append, List.cons.injEq] at h
      obtain ⟨h1, h2⟩ := ih b (fun c hc => ha c (by simp [hc])) (fun c hc => hb c (by simp [hc]))
        h.2
      exact ⟨by rw [h.1, h1], h2⟩

/-- A frame determines its payload. -/
theorem frame_inj (p q : List Nat) (h : frame p = frame q) : p = q :=
  (append_at_inj _ _ _ _ (fun c hc => (isdigit_ne (decimal_digits _ c hc)).2.1)
    (fun c hc => (isdigit_ne (decimal_digits _ c hc)).2.1) h).2

theorem frame_ne_nil (p : List Nat) : frame p ≠ [] := by
  unfold frame
  simp

/-! ## Sending a file: claims -/

/-- C18: for every file name that cannot be opened for reading, with a
transport that accepts the message on the control channel, `sendFileToClient`
leaves the data socket exactly as it was (zero frames sent on the data
channel) and sends on the control channel the frame of the description of the
error of `open`, and nothing else (no `SUCCESS` message). -/
theorem sendFileToClient_open_failure (w : World) (myFT : FTInfo)
    (filename errnoText : List Nat) (d : Socket)
    (hf : myFT.filename = some filename) (hd : myFT.dataSocket = some d)
    (hopen : w.files (cstr filename) = OpenResult.error errnoText)
    (hctl : positive myFT.controlSocket.sendSched = true)
    (h0 : ∀ b ∈ errnoText, b ≠ 0) (hlen : errnoText.length < 2147483648) :
    ∃ w' myFT', sendFileToClient w myFT = some (w', myFT') ∧
      myFT'.dataSocket = some d ∧
      myFT'.controlSocket.outbound = myFT.controlSocket.outbound ++ frame errnoText ∧
      w'.events = w.events ++ [Event.openFile (cstr filename)] ∧
      (¬ (str "SUCCESS! " <+: errnoText) →
        ¬ ∃ N, myFT'.controlSocket.outbound
          = myFT.controlSocket.outbound ++ frame (successText N)) := by
  obtain ⟨myFT', e1, e2, e3⟩ := sendErrorMessage_positive myFT errnoText hctl h0 hlen
  refine ⟨{ w with events := w.events ++ [Event.openFile (cstr filename)] }, myFT', ?_,
    by rw [e3, hd], e2, rfl, ?_⟩
  · unfold sendFileToClient
    simp only [hf, hd, hopen, e1]
  · rintro hne ⟨N, hN⟩
    rw [e2] at hN
    have := frame_inj _ _ (List.append_cancel_left hN)
    apply hne
    rw [this]
    unfold successText
    rw [List.append_assoc]
    exact List.prefix_append _ _

theorem sendFileToClient_open_failure_witness :
    ∃ w' myFT',
      sendFileToClient
        (World.sample (str "") (fun _ => OpenResult.error (str "No such file or directory"))
          (DirResult.error []))
        { FTInfo.sample (str "") with
            filename := some (str "nofile"), dataSocket := some (Socket.fresh []) }
        = some (w', myFT') ∧
      myFT'.dataSocket = some (Socket.fresh []) ∧
      myFT'.controlSocket.outbound
        = ({ FTInfo.sample (str "") with
              filename := some (str "nofile"),
              dataSocket := some (Socket.fresh []) } : FTInfo).controlSocket.outbound ++
          frame (str "No such file or directory") ∧
      w'.events
        = (World.sample (str "") (fun _ => OpenResult.error (str "No such file or directory"))
            (DirResult.error [])).events ++ [Event.openFile (cstr (str "nofile"))] ∧
      (¬ (str "SUCCESS! " <+: str "No such file or directory") →
        ¬ ∃ N, myFT'.controlSocket.outbound
          = ({ FTInfo.sample (str "") with
                filename := some (str "nofile"),
                dataSocket := some (Socket.fresh []) } : FTInfo).controlSocket.outbound ++
            frame (successText N)) :=
  sendFileToClient_open_failure
    (World.sample (str "") (fun _ => OpenResult.error (str "No such file or directory"))
      (DirResult.error []))
    { FTInfo.sample (str "") with
        filename := some (str "nofile"), dataSocket := some (Socket.fresh []) }
    (str "nofile") (str "No such file or directory") (Socket.fresh []) rfl rfl rfl
    (by decide) (by decide) (by decide)

/-- C19: when the file opens, with a transport that accepts the outcome
message on the control channel, `sendFileToClient` sends a `SUCCESS` message
exactly when the last `read` of its loop returned `0` (end of file) and no
`send` on the data socket failed; when a `read` returned `-1` it sends the
description of the read error on the control channel instead, and when a
`send` on the data socket failed it sends nothing on the control channel.  In
every case what was written on the data socket stays written. -/
theorem sendFileToClient_success_iff (w : World) (myFT : FTInfo)
    (filename readErrnoText : List Nat) (d : Socket) (file : File)
    (hf : myFT.filename = some filename) (hd : myFT.dataSocket = some d)
    (hopen : w.files (cstr filename) = OpenResult.opened file readErrnoText)
    (hctl : positive myFT.controlSocket.sendSched = true)
    (h0 : ∀ b ∈ readErrnoText, b ≠ 0) (hlen : readErrnoText.length < 2147483648)
    (hne : ¬ (str "SUCCESS! " <+: readErrnoText)) :
    ∃ res f' d' w' myFT' newReads newCalls,
      sendFileLoop (file.content.length + 1) file d 0 = some (res, f', d') ∧
      f'.reads = file.reads ++ newReads ∧ d'.calls = d.calls ++ newCalls ∧
      sendFileToClient w myFT = some (w', myFT') ∧
      myFT'.dataSocket = some d' ∧ (∃ sent, d'.outbound = d.outbound ++ sent) ∧
      ((∃ N, myFT'.controlSocket.outbound
          = myFT.controlSocket.outbound ++ frame (successText N)) ↔
        (newReads.getLast? = some 0 ∧ ¬ ∃ x ∈ newCalls, Call.failedSend x = true)) ∧
      ((-1 : Int) ∈ newReads →
        myFT'.controlSocket.outbound = myFT.controlSocket.outbound ++ frame readErrnoText) ∧
      ((∃ x ∈ newCalls, Call.failedSend x = true) →
        myFT'.controlSocket = myFT.controlSocket) := by
  have hsome := sendFileLoop_isSome (file.content.length + 1) file d 0 (by omega)
  cases hloop : sendFileLoop (file.content.length + 1) file d 0 with
  | none => simp [hloop] at hsome
  | some x =>
    obtain ⟨res, f', d'⟩ := x
    obtain ⟨newReads, newCalls, a1, a2, a3, a4, a5, a6, a7, -⟩ := sendFileLoop_log _ _ _ _ _ _ _ hloop
    have hnotsucc : ¬ ∃ N, frame readErrnoText = frame (successText N) := by
      rintro ⟨N, hN⟩
      apply hne
      rw [frame_inj _ _ hN]
      unfold successText
      rw [List.append_assoc]
      exact List.prefix_append _ _
    rcases a7 with hres | ⟨t, hres⟩ | ⟨t, hres⟩
    · -- a send on the data socket failed
      subst hres
      have hfail : ∃ x ∈ newCalls, Call.failedSend x = true := a4.1 rfl
      refine ⟨none, f', d', { w with events := w.events ++ [Event.openFile (cstr filename)] },
        { myFT with dataSocket := some d' }, newReads, newCalls, rfl, a1, a2, ?_, rfl, a3,
        ?_, ?_, fun _ => rfl⟩
      · unfold sendFileToClient
        simp only [hf, hd, hopen, hloop]
      · constructor
        · rintro ⟨N, hN⟩
          have : frame (successText N) = [] := by
            have h1 : myFT.controlSocket.outbound ++ [] =
                myFT.controlSocket.outbound ++ frame (successText N) := by
              simpa using hN
            exact (List.append_cancel_left h1).symm
          exact absurd this (frame_ne_nil _)
        · rintro ⟨-, hx⟩
          exact absurd hfail hx
      · intro hm
        obtain ⟨t, ht⟩ := a6.2 hm
        simp at ht
    · -- end of file
      subst hres
      have hcond := a5.1 ⟨t, rfl⟩
      obtain ⟨myFT', e1, e2, e3⟩ := sendSuccessMessage_positive
        { myFT with dataSocket := some d' } t hctl
      refine ⟨_, f', d', { w with events := w.events ++ [Event.openFile (cstr filename)] },
        myFT', newReads, newCalls, rfl, a1, a2, ?_, e3, a3, ?_, ?_, ?_⟩
      · unfold sendFileToClient
        simp only [hf] at e1
        simp only [hf, hd, hopen, hloop, if_true, e1]
      · exact ⟨fun _ => hcond, fun _ => ⟨_, e2⟩⟩
      · intro hm
        obtain ⟨t', ht⟩ := a6.2 hm
        simp at ht
      · intro hx
        exact absurd hx hcond.2
    · -- a read failed
      subst hres
      have hm : (-1 : Int) ∈ newReads := a6.1 ⟨t, rfl⟩
      have hnot0 : ¬ ∃ t', (some ((-1 : Int), t) : Option (Int × Nat)) = some (0, t') := by
        rintro ⟨t', ht⟩
        simp at ht
      obtain ⟨myFT', e1, e2, e3⟩ := sendErrorMessage_positive
        { myFT with dataSocket := some d' } readErrnoText hctl h0 hlen
      refine ⟨_, f', d', { w with events := w.events ++ [Event.openFile (cstr filename)] },
        myFT', newReads, newCalls, rfl, a1, a2, ?_, e3, a3, ?_, fun _ => e2, ?_⟩
      · unfold sendFileToClient
        simp only [hf] at e1
        simp only [hf, hd, hopen, hloop, show ¬ ((-1 : Int) = 0) by decide, if_false, e1]
      · constructor
        · rintro ⟨N, hN⟩
          rw [e2] at hN
          exact absurd ⟨N, List.append_cancel_left hN⟩ hnotsucc
        · intro hc
          exact absurd (a5.2 hc) hnot0
      · intro hx
        have := a4.2 hx
        simp at this

theorem sendFileToClient_success_iff_witness :
    ∃ res f' d' w' myFT' newReads newCalls,
      sendFileLoop (({ content := [65, 66, 67], readSched := [Step.give 2, Step.fail], reads := [] } : File).content.length + 1) ({ content := [65, 66, 67], readSched := [Step.give 2, Step.fail], reads := [] } : File) (Socket.fresh []) 0 = some (res, f', d') ∧
      f'.reads = ({ content := [65, 66, 67], readSched := [Step.give 2, Step.fail], reads := [] } : File).reads ++ newReads ∧ d'.calls = (Socket.fresh []).calls ++ newCalls ∧
      sendFileToClient
        (World.sample (str "")
          (fun _ => OpenResult.opened
            { content := [65, 66, 67], readSched := [Step.give 2, Step.fail], reads := [] }
            (str "Input/output error"))
          (DirResult.error []))
        ({ FTInfo.sample (str "") with
            filename := some (str "f.bin"), dataSocket := some (Socket.fresh []) } : FTInfo) = some (w', myFT') ∧
      myFT'.dataSocket = some d' ∧ (∃ sent, d'.outbound = (Socket.fresh []).outbound ++ sent) ∧
      ((∃ N, myFT'.controlSocket.outbound
          = ({ FTInfo.sample (str "") with
            filename := some (str "f.bin"), dataSocket := some (Socket.fresh []) } : FTInfo).controlSocket.outbound ++ frame (successText N)) ↔
        (newReads.getLast? = some 0 ∧ ¬ ∃ x ∈ newCalls, Call.failedSend x = true)) ∧
      ((-1 : Int) ∈ newReads →
        myFT'.controlSocket.outbound
          = ({ FTInfo.sample (str "") with
            filename := some (str "f.bin"), dataSocket := some (Socket.fresh []) } : FTInfo).controlSocket.outbound ++ frame (str "Input/output error")) ∧
      ((∃ x ∈ newCalls, Call.failedSend x = true) →
        myFT'.controlSocket = ({ FTInfo.sample (str "") with
            filename := some (str "f.bin"), dataSocket := some (Socket.fresh []) } : FTInfo).controlSocket) :=
  sendFileToClient_success_iff
    (World.sample (str "")
          (fun _ => OpenResult.opened
            { content := [65, 66, 67], readSched := [Step.give 2, Step.fail], reads := [] }
            (str "Input/output error"))
          (DirResult.error []))
    ({ FTInfo.sample (str "") with
            filename := some (str "f.bin"), dataSocket := some (Socket.fresh []) } : FTInfo)
    (str "f.bin") (str "Input/output error") (Socket.fresh []) ({ content := [65, 66, 67], readSched := [Step.give 2, Step.fail], reads := [] } : File) rfl rfl rfl
    (by decide) (by decide) (by decide) (by decide)

/-! ## Sending a file: bytes sent and bytes reported -/

/-- C16: evaluation of `sendFileToClient` on a file of the three bytes
`'A'`, `0`, `'B'` that opens and reads without error (one `read` returns `3`,
the next `0`): the only frame written on the data socket is `1@A`, whose
payload is not the content of the file, and the control socket gets
`SUCCESS! 3 bytes sent over data connection.`. -/
theorem sendFileToClient_nul_truncates :
    (sendFileLoop 4 (File.fresh [65, 0, 66]) (Socket.fresh []) 0).map
        (fun x => (x.1, x.2.1.reads, x.2.2.outbound))
      = some (some (0, 3), [3, 0], frame [65]) ∧
    (sendFileToClient
        (World.sample (str "")
          (fun _ => OpenResult.opened (File.fresh [65, 0, 66]) (str "Input/output error"))
          (DirResult.error []))
        { FTInfo.sample (str "") with
            filename := some (str "f.bin"), dataSocket := some (Socket.fresh []) }).map
        (fun x => (x.2.dataSocket.map (fun d => d.outbound), x.2.controlSocket.outbound))
      = some (some (frame [65]),
          frame (str "SUCCESS! 3 bytes sent over data connection.")) ∧
    frame [65] = str "1@A" ∧ [65] ≠ [65, 0, 66] := by
  decide

set_option maxRecDepth 100000 in
/-- C17: evaluation of a whole session in which the client asks for a file of
the three bytes `0`, `'H'`, `'I'`: after the handshake the data socket gets the
single frame `0@`, which carries no payload byte, and the control socket gets
`SUCCESS! 3 bytes sent over data connection.`. -/
theorem acceptConnection_reports_bytes_not_sent :
    (acceptConnection
        (World.sample (str "FTSERVER DATA CONNECTION ACCEPTED")
          (fun _ => OpenResult.opened (File.fresh [0, 72, 73]) (str "Input/output error"))
          (DirResult.error []))
        (Socket.fresh (frame (str "DATA_PORT: 8080") ++ frame (str "-g f.bin")))
        (str "10.0.0.1")).map
        (fun x => (x.1.events, x.2.dataSocket.map (fun d => d.outbound),
          x.2.controlSocket.outbound))
      = some ([Event.connect (str "10.0.0.1") (str "8080") true, Event.openFile (str "f.bin"),
            Event.closeDataSocket],
          some (frame (str "FTSERVER DATA CONNECTION INITIALIZATION") ++ frame []),
          frame (str "FTSERVER CONNECTION ESTABLISHED") ++
            frame (str "SUCCESS! 3 bytes sent over data connection.")) ∧
    frame [] = str "0@" ∧ ([] : List Nat).length ≠ 3 := by
  decide

/-! ## Order of the steps of a session -/

/-- Function `validateControlConnection` only touches the control socket and
the data port. -/
theorem validateControlConnection_fields (myFT myFT1 : FTInfo) (valid : Bool)
    (h : validateControlConnection myFT = some (valid, myFT1)) :
    myFT1.clientHost = myFT.clientHost ∧ myFT1.dataSocket = myFT.dataSocket ∧
    myFT1.command = myFT.command ∧ myFT1.filename = myFT.filename := by
  unfold validateControlConnection at h
  cases hr : recvMessage myFT.controlSocket with
  | none => simp [hr] at h
  | some x =>
    obtain ⟨m, s1⟩ := x
    cases m with
    | none =>
      simp only [hr] at h
      simp at h
      obtain ⟨-, rfl⟩ := h
      exact ⟨rfl, rfl, rfl, rfl⟩
    | some message =>
      simp only [hr] at h
      split_ifs at h
      · split at h
        · simp at h
        · simp at h
          obtain ⟨-, rfl⟩ := h
          exact ⟨rfl, rfl, rfl, rfl⟩
      · split at h
        · simp at h
        · split_ifs at h
          · simp at h
            obtain ⟨-, rfl⟩ := h
            exact ⟨rfl, rfl, rfl, rfl⟩
          · simp at h
            obtain ⟨-, rfl⟩ := h
            exact ⟨rfl, rfl, rfl, rfl⟩

/-- What `validateDataConnection` does: one connection attempt; when it
returns false the data socket was sent at most a prefix of the frame of the
initialization message, and when it returns true the initialization message
was sent and a reply equal (as a C string) to the expected one was received. -/
theorem validateDataConnection_spec (w w1 : World) (myFT myFT2 : FTInfo) (valid : Bool)
    (h : validateDataConnection w myFT = some (valid, w1, myFT2)) :
    ∃ port, myFT.dataPort = some port ∧
      w1 = { w with events := w.events ++
        [Event.connect (cstr myFT.clientHost) (cstr port)
          (w.dataPeer (cstr myFT.clientHost) (cstr port)).isSome] } ∧
      myFT2.controlSocket = myFT.controlSocket ∧ myFT2.command = myFT.command ∧
      myFT2.filename = myFT.filename ∧ myFT2.dataPort = myFT.dataPort ∧
      myFT2.clientHost = myFT.clientHost ∧
      (valid = false →
        (w.dataPeer (cstr myFT.clientHost) (cstr port) = none ∧
          myFT2.dataSocket = myFT.dataSocket) ∨
        ∃ d0 d sent, w.dataPeer (cstr myFT.clientHost) (cstr port) = some d0 ∧
          myFT2.dataSocket = some d ∧ d.outbound = d0.outbound ++ sent ∧
          sent <+: frame validationMessage) ∧
      (valid = true →
        ∃ d0 d1 reply d2, w.dataPeer (cstr myFT.clientHost) (cstr port) = some d0 ∧
          sendMessage d0 validationMessage = some (0, d1) ∧
          recvMessage d1 = some (some reply, d2) ∧ cstr reply = responseExpected ∧
          myFT2.dataSocket = some d2) := by
  unfold validateDataConnection establishDataSocket at h
  cases hp : myFT.dataPort with
  | none => simp [hp] at h
  | some port =>
    refine ⟨port, rfl, ?_⟩
    simp only [hp] at h
    cases hd : w.dataPeer (cstr myFT.clientHost) (cstr port) with
    | none =>
      simp only [hd] at h
      simp at h
      obtain ⟨rfl, rfl, rfl⟩ := h
      exact ⟨rfl, rfl, rfl, rfl, hp, rfl, fun _ => Or.inl ⟨rfl, rfl⟩, fun hv => by simp at hv⟩
    | some d0 =>
      simp only [hd] at h
      cases hs : sendMessage d0 validationMessage with
      | none => simp [hs] at h
      | some x =>
        obtain ⟨r, d1⟩ := x
        obtain ⟨sent, e1, e2⟩ := sendMessage_prefix _ _ _ _ hs
        rw [validationMessage_wire] at e2
        simp only [hs] at h
        split_ifs at h with hr
        · simp at h
          obtain ⟨rfl, rfl, rfl⟩ := h
          exact ⟨rfl, rfl, rfl, rfl, rfl, rfl,
            fun _ => Or.inr ⟨d0, d1, sent, rfl, rfl, e1, e2⟩, fun hv => by simp at hv⟩
        · have hr0 : r = 0 := by
            rcases sendMessage_ret _ _ _ _ hs with h0 | h0
            · exact h0
            · exact absurd h0 hr
          subst hr0
          cases hm : recvMessage d1 with
          | none => simp [hm] at h
          | some y =>
            obtain ⟨reply, d2⟩ := y
            obtain ⟨f1, -⟩ := recvMessage_frame _ _ _ hm
            cases reply with
            | none =>
              simp only [hm] at h
              simp at h
              obtain ⟨rfl, rfl, rfl⟩ := h
              exact ⟨rfl, rfl, rfl, rfl, rfl, rfl,
                fun _ => Or.inr ⟨d0, d2, sent, rfl, rfl, by rw [f1, e1], e2⟩,
                fun hv => by simp at hv⟩
            | some reply =>
              simp only [hm] at h
              split_ifs at h with hc
              · simp at h
                obtain ⟨rfl, rfl, rfl⟩ := h
                exact ⟨rfl, rfl, rfl, rfl, rfl, rfl,
                  fun _ => Or.inr ⟨d0, d2, sent, rfl, rfl, by rw [f1, e1], e2⟩,
                  fun hv => by simp at hv⟩
              · simp at h
                obtain ⟨rfl, rfl, rfl⟩ := h
                exact ⟨rfl, rfl, rfl, rfl, rfl, rfl, fun hv => by simp at hv,
                  fun _ => ⟨d0, d1, reply, d2, rfl, hs, hm, not_not.mp hc, rfl⟩⟩

/-- The loop of `sendListingToClient` only adds to what the data socket was
sent and to its log. -/
theorem sendListingLoop_log (b : Bool) (entries : List (List Nat)) :
    ∀ (d d' : Socket) (buf : List Nat) (c t : Nat) (res : Option (List Nat × Nat × Nat)),
      sendListingLoop b entries d buf c t = some (res, d') →
      ∃ more data, d'.calls = d.calls ++ more ∧ d'.outbound = d.outbound ++ data := by
  induction entries with
  | nil =>
    intro d d' buf c t res h
    simp [sendListingLoop] at h
    obtain ⟨-, rfl⟩ := h
    exact ⟨[], [], by simp, by simp⟩
  | cons name entries ih =>
    intro d d' buf c t res h
    unfold sendListingLoop at h
    simp only at h
    by_cases h1 : (b || isTxtFile name) = true
    · simp only [h1, if_true] at h
      by_cases h2 : c + (strlen name + 1) > MAX_SEND_SIZE
      · simp only [h2, if_true] at h
        cases hs : sendMessage d buf with
        | none => simp [hs] at h
        | some x =>
          obtain ⟨r, d1⟩ := x
          obtain ⟨new, c1, -⟩ := sendMessage_calls _ _ _ _ hs
          obtain ⟨sent, o1, -⟩ := sendMessage_prefix _ _ _ _ hs
          simp only [hs] at h
          by_cases h3 : r = -1
          · simp only [h3, if_true] at h
            simp at h
            obtain ⟨-, rfl⟩ := h
            exact ⟨new, sent, c1, o1⟩
          · simp only [h3, if_false] at h
            by_cases h4 : strlen name + 1 > MAX_SEND_SIZE
            · simp [h4] at h
            · simp only [h4, if_false] at h
              obtain ⟨more, data, c2, o2⟩ := ih _ _ _ _ _ _ h
              exact ⟨new ++ more, sent ++ data, by rw [c2, c1, List.append_assoc],
                by rw [o2, o1, List.append_assoc]⟩
      · simp only [h2, if_false] at h
        exact ih _ _ _ _ _ _ h
    · simp only [h1, if_false] at h
      exact ih _ _ _ _ _ _ h

/-- Function `sendFileToClient` opens the file first, and only adds to what
the data socket of the session was sent and to its log. -/
theorem sendFileToClient_data (w w' : World) (myFT myFT' : FTInfo)
    (h : sendFileToClient w myFT = some (w', myFT')) :
    ∃ filename d d' more data, myFT.filename = some filename ∧ myFT.dataSocket = some d ∧
      w'.events = w.events ++ [Event.openFile (cstr filename)] ∧
      myFT'.dataSocket = some d' ∧ d'.calls = d.calls ++ more ∧
      d'.outbound = d.outbound ++ data := by
  unfold sendFileToClient at h
  split at h
  · rename_i filename d hf hd
    refine ⟨filename, d, ?_⟩
    simp only at h
    split at h
    · split at h
      · simp at h
      · rename_i r m1 he
        simp at h
        obtain ⟨rfl, rfl⟩ := h
        obtain ⟨e1, -⟩ := sendErrorMessage_fields _ _ _ _ he
        exact ⟨d, [], [], hf, hd, rfl, by rw [e1, hd], by simp, by simp⟩
    · split at h
      · simp at h
      · rename_i f' d' hl
        obtain ⟨newReads, newCalls, -, a2, ⟨sent, a3⟩, -⟩ := sendFileLoop_log _ _ _ _ _ _ _ hl
        simp at h
        obtain ⟨rfl, rfl⟩ := h
        exact ⟨d', newCalls, sent, hf, hd, rfl, rfl, a2, a3⟩
      · rename_i charsRead total f' d' hl
        obtain ⟨newReads, newCalls, -, a2, ⟨sent, a3⟩, -⟩ := sendFileLoop_log _ _ _ _ _ _ _ hl
        split_ifs at h
        · split at h
          · simp at h
          · rename_i r m2 hs
            simp at h
            obtain ⟨rfl, rfl⟩ := h
            obtain ⟨e1, -⟩ := sendSuccessMessage_fields _ _ _ _ hs
            exact ⟨d', newCalls, sent, hf, hd, rfl, e1, a2, a3⟩
        · split at h
          · simp at h
          · rename_i r m2 hs
            simp at h
            obtain ⟨rfl, rfl⟩ := h
            obtain ⟨e1, -⟩ := sendErrorMessage_fields _ _ _ _ hs
            exact ⟨d', newCalls, sent, hf, hd, rfl, e1, a2, a3⟩
  · simp at h

/-- Function `sendListingToClient` opens the directory first, and only adds
to what the data socket of the session was sent and to its log. -/
theorem sendListingToClient_data (w w' : World) (myFT myFT' : FTInfo)
    (h : sendListingToClient w myFT = some (w', myFT')) :
    ∃ d d' more data, myFT.dataSocket = some d ∧
      w'.events = w.events ++ [Event.openDir] ∧
      myFT'.dataSocket = some d' ∧ d'.calls = d.calls ++ more ∧
      d'.outbound = d.outbound ++ data := by
  unfold sendListingToClient at h
  split at h
  · rename_i command d hc hd
    refine ⟨d, ?_⟩
    simp only at h
    generalize (if command = LIST_TXT_FILES then false else true) = includeAllFiles at h
    split at h
    · split at h
      · simp at h
      · rename_i r m1 he
        simp at h
        obtain ⟨rfl, rfl⟩ := h
        obtain ⟨e1, -⟩ := sendErrorMessage_fields _ _ _ _ he
        exact ⟨d, [], [], hd, rfl, by rw [e1, hd], by simp, by simp⟩
    · split at h
      · simp at h
      · rename_i d1 hl
        obtain ⟨more, data, a2, a3⟩ := sendListingLoop_log _ _ _ _ _ _ _ _ hl
        simp at h
        obtain ⟨rfl, rfl⟩ := h
        exact ⟨d1, more, data, hd, rfl, rfl, a2, a3⟩
      · rename_i sendBuffer charsInSendBuffer totalCharsSent d1 hl
        obtain ⟨more, data, a2, a3⟩ := sendListingLoop_log _ _ _ _ _ _ _ _ hl
        split at h
        · split at h
          · simp at h
          · rename_i r m2 hs
            simp at h
            obtain ⟨rfl, rfl⟩ := h
            obtain ⟨e1, -⟩ := sendErrorMessage_fields _ _ _ _ hs
            exact ⟨d1, more, data, hd, rfl, e1, a2, a3⟩
        · split_ifs at h
          · split at h
            · simp at h
            · rename_i r s1 hs
              split_ifs at h
              · simp at h
                obtain ⟨rfl, rfl⟩ := h
                exact ⟨d1, more, data, hd, rfl, rfl, a2, a3⟩
              · simp at h
                obtain ⟨rfl, rfl⟩ := h
                exact ⟨d1, more, data, hd, rfl, rfl, a2, a3⟩
          · split at h
            · simp at h
            · rename_i r d2 hs
              obtain ⟨new, c1, -⟩ := sendMessage_calls _ _ _ _ hs
              obtain ⟨sent, o1, -⟩ := sendMessage_prefix _ _ _ _ hs
              split_ifs at h
              · simp at h
                obtain ⟨rfl, rfl⟩ := h
                exact ⟨d2, more ++ new, data ++ sent, hd, rfl, rfl,
                  by rw [c1, a2, List.append_assoc], by rw [o1, a3, List.append_assoc]⟩
              · split at h
                · simp at h
                · rename_i r2 m2 hs2
                  simp at h
                  obtain ⟨rfl, rfl⟩ := h
                  obtain ⟨e1, -⟩ := sendSuccessMessage_fields _ _ _ _ hs2
                  exact ⟨d2, more ++ new, data ++ sent, hd, rfl, e1,
                    by rw [c1, a2, List.append_assoc], by rw [o1, a3, List.append_assoc]⟩
          · split at h
            · simp at h
            · rename_i r m2 hs
              simp at h
              obtain ⟨rfl, rfl⟩ := h
              obtain ⟨e1, -⟩ := sendSuccessMessage_fields _ _ _ _ hs
              exact ⟨d1, more, data, hd, rfl, e1, a2, a3⟩
  · simp at h

/-- The order of the steps of `handleRequest`: either nothing is done outside
the control socket, or the connection attempt fails, or the handshake on the
data socket fails having sent at most a prefix of the initialization frame, or
the command was valid, the handshake completed, and only then a file or the
directory was opened and more was sent on the data socket. -/
theorem handleRequest_order (w w' : World) (myFT myFT' : FTInfo)
    (h : handleRequest w myFT = some (w', myFT')) :
    (w'.events = w.events ∧ myFT'.dataSocket = myFT.dataSocket) ∨
    (∃ port, myFT.dataPort = some port ∧
      w.dataPeer (cstr myFT.clientHost) (cstr port) = none ∧
      w'.events = w.events ++ [Event.connect (cstr myFT.clientHost) (cstr port) false] ∧
      myFT'.dataSocket = myFT.dataSocket) ∨
    (∃ port d0 d sent, myFT.dataPort = some port ∧
      w.dataPeer (cstr myFT.clientHost) (cstr port) = some d0 ∧
      w'.events = w.events ++ [Event.connect (cstr myFT.clientHost) (cstr port) true] ∧
      myFT'.dataSocket = some d ∧ d.outbound = d0.outbound ++ sent ∧
      sent <+: frame validationMessage) ∨
    (∃ commandLine s1 port d0 d1 reply d2 e d more data,
      recvMessage myFT.controlSocket = some (some commandLine, s1) ∧
      (parseRequest commandLine).requestError = false ∧
      myFT.dataPort = some port ∧
      w.dataPeer (cstr myFT.clientHost) (cstr port) = some d0 ∧
      sendMessage d0 validationMessage = some (0, d1) ∧
      recvMessage d1 = some (some reply, d2) ∧ cstr reply = responseExpected ∧
      w'.events = w.events ++ [Event.connect (cstr myFT.clientHost) (cstr port) true, e] ∧
      Event.isProducer e = true ∧
      myFT'.dataSocket = some d ∧ d.calls = d2.calls ++ more ∧
      d.outbound = d2.outbound ++ data) := by
  unfold handleRequest at h
  cases hrecv : recvMessage myFT.controlSocket with
  | none => simp [hrecv] at h
  | some x =>
    obtain ⟨m, s1⟩ := x
    cases m with
    | none =>
      simp only [hrecv] at h
      simp at h
      obtain ⟨rfl, rfl⟩ := h
      exact Or.inl ⟨rfl, rfl⟩
    | some commandLine =>
      simp only [hrecv] at h
      generalize hm1 : ({ myFT with
          controlSocket := s1,
          command := if (parseRequest commandLine).command.isSome
            then (parseRequest commandLine).command else myFT.command,
          filename := if (parseRequest commandLine).filename.isSome
            then (parseRequest commandLine).filename else myFT.filename } : FTInfo)
        = myFT1 at h
      have hport1 : myFT1.dataPort = myFT.dataPort := by rw [← hm1]
      have hhost1 : myFT1.clientHost = myFT.clientHost := by rw [← hm1]
      have hdata1 : myFT1.dataSocket = myFT.dataSocket := by rw [← hm1]
      by_cases hreq : (parseRequest commandLine).requestError = true
      · rw [if_pos hreq] at h
        split at h
        · simp at h
        · simp at h
          obtain ⟨rfl, rfl⟩ := h
          exact Or.inl ⟨rfl, rfl⟩
      · rw [if_neg hreq] at h
        cases hv : validateDataConnection w myFT1 with
        | none => simp [hv] at h
        | some y =>
          obtain ⟨valid, w1, myFT2⟩ := y
          obtain ⟨port, p1, p2, -, -, -, -, -, p3, p4⟩ := validateDataConnection_spec _ _ _ _ _ hv
          rw [hport1] at p1
          rw [hhost1] at p2 p3 p4
          simp only [hv] at h
          cases valid with
          | false =>
            simp at h
            obtain ⟨rfl, rfl⟩ := h
            rcases p3 rfl with ⟨q1, q2⟩ | ⟨d0, d, sent, q1, q2, q3, q4⟩
            · refine Or.inr (Or.inl ⟨port, p1, q1, ?_, by rw [q2, hdata1]⟩)
              rw [p2, q1]
              rfl
            · refine Or.inr (Or.inr (Or.inl ⟨port, d0, d, sent, p1, q1, ?_, q2, q3, q4⟩))
              rw [p2, q1]
              rfl
          | true =>
            obtain ⟨d0, d1, reply, d2, q1, q2, q3, q4, q5⟩ := p4 rfl
            have hev : w1.events
                = w.events ++ [Event.connect (cstr myFT.clientHost) (cstr port) true] := by
              rw [p2, q1]
              rfl
            simp only [Bool.not_true, Bool.false_eq_true, if_false] at h
            split_ifs at h with hg
            · obtain ⟨filename, d, d', more, data, r1, r2, r3, r4, r5, r6⟩ :=
                sendFileToClient_data _ _ _ _ h
              rw [q5] at r2
              cases r2
              refine Or.inr (Or.inr (Or.inr ⟨commandLine, s1, port, d0, d1, reply, d2,
                Event.openFile (cstr filename), d', more, data, rfl,
                by simpa using hreq, p1, q1, q2, q3, q4, ?_, rfl, r4, r5, r6⟩))
              rw [r3, hev]
              simp
            · obtain ⟨d, d', more, data, r2, r3, r4, r5, r6⟩ :=
                sendListingToClient_data _ _ _ _ h
              rw [q5] at r2
              cases r2
              refine Or.inr (Or.inr (Or.inr ⟨commandLine, s1, port, d0, d1, reply, d2,
                Event.openDir, d', more, data, rfl,
                by simpa using hreq, p1, q1, q2, q3, q4, ?_, rfl, r4, r5, r6⟩))
              rw [r3, hev]
              simp

/-- C13: in every session that `acceptConnection` carries out, one of four
things happened.  (1) No connection to the client was attempted and the
session has no data socket.  (2) The connection attempt failed: it is the only
event, and there is no data socket.  (3) The connection was made but its
handshake failed: the only events are the connection and the closing of the
data socket, which was sent at most a prefix of the frame of the initialization
message.  (4) The control handshake succeeded, a command line was received and
found valid, the connection was made, the initialization message was sent and
the expected reply received on it, and only then did a response producer run:
its event (a file or the directory being opened) comes after the connection
event, and everything it did on the data socket comes after the handshake, in
the log of calls and in the bytes sent.  So a file or the directory is opened,
and anything beyond the initialization frame is sent on the data socket, only
in case (4). -/
theorem producer_only_after_handshake (w : World) (controlSocket : Socket)
    (clientHost : List Nat) (r : World × FTInfo)
    (h : acceptConnection w controlSocket clientHost = some r) :
    (r.1.events = w.events ∧ r.2.dataSocket = none) ∨
    (∃ port, w.dataPeer (cstr clientHost) (cstr port) = none ∧
      r.1.events = w.events ++ [Event.connect (cstr clientHost) (cstr port) false] ∧
      r.2.dataSocket = none) ∨
    (∃ port d0 d sent, w.dataPeer (cstr clientHost) (cstr port) = some d0 ∧
      r.1.events = w.events ++
        [Event.connect (cstr clientHost) (cstr port) true, Event.closeDataSocket] ∧
      r.2.dataSocket = some d ∧ d.outbound = d0.outbound ++ sent ∧
      sent <+: frame validationMessage) ∨
    (∃ myFT1 commandLine s1 port d0 d1 reply d2 e d more data,
      validateControlConnection (newFTInfo controlSocket clientHost) = some (true, myFT1) ∧
      recvMessage myFT1.controlSocket = some (some commandLine, s1) ∧
      (parseRequest commandLine).requestError = false ∧
      myFT1.dataPort = some port ∧
      w.dataPeer (cstr clientHost) (cstr port) = some d0 ∧
      sendMessage d0 validationMessage = some (0, d1) ∧
      recvMessage d1 = some (some reply, d2) ∧ cstr reply = responseExpected ∧
      r.1.events = w.events ++
        [Event.connect (cstr clientHost) (cstr port) true, e, Event.closeDataSocket] ∧
      Event.isProducer e = true ∧
      r.2.dataSocket = some d ∧ d.calls = d2.calls ++ more ∧
      d.outbound = d2.outbound ++ data) := by
  unfold acceptConnection at h
  cases hv : validateControlConnection (newFTInfo controlSocket clientHost) with
  | none => simp [hv] at h
  | some x =>
    obtain ⟨valid, myFT1⟩ := x
    obtain ⟨f1, f2, -, -⟩ := validateControlConnection_fields _ _ _ hv
    have f1 : myFT1.clientHost = clientHost := f1
    have f2 : myFT1.dataSocket = none := f2
    simp only [hv] at h
    cases valid with
    | false =>
      simp at h
      subst h
      exact Or.inl ⟨by simp [deleteFTInfo, f2], f2⟩
    | true =>
      simp only [Bool.not_true, Bool.false_eq_true, if_false] at h
      cases hh : handleRequest w myFT1 with
      | none => simp [hh] at h
      | some y =>
        obtain ⟨w1, myFT2⟩ := y
        simp only [hh] at h
        simp at h
        subst h
        have ho := handleRequest_order _ _ _ _ hh
        rw [f1, f2] at ho
        rcases ho with ⟨a1, a2⟩ | ⟨port, -, a1, a2, a3⟩ | ⟨port, d0, d, sent, -, a1, a2, a3, a4, a5⟩ |
          ⟨commandLine, s1, port, d0, d1, reply, d2, e, d, more, data, a1, a2, a3, a4, a5, a6, a7,
            a8, a9, a10, a11, a12⟩
        · exact Or.inl ⟨by simp [deleteFTInfo, a2, a1], a2⟩
        · exact Or.inr (Or.inl ⟨port, a1, by simp [deleteFTInfo, a3, a2], a3⟩)
        · exact Or.inr (Or.inr (Or.inl ⟨port, d0, d, sent, a1,
            by simp [deleteFTInfo, a3, a2], a3, a4, a5⟩))
        · exact Or.inr (Or.inr (Or.inr ⟨myFT1, commandLine, s1, port, d0, d1, reply, d2, e, d,
            more, data, rfl, a1, a2, a3, a4, a5, a6, a7,
            by simp [deleteFTInfo, a10, a8], a9, a10, a11, a12⟩))

set_option maxRecDepth 100000 in
theorem producer_only_after_handshake_witness :
    ∃ r, acceptConnection
        (World.sample (str "FTSERVER DATA CONNECTION ACCEPTED")
          (fun _ => OpenResult.opened (File.fresh (str "hello")) (str "Input/output error"))
          (DirResult.error []))
        (Socket.fresh (frame (str "DATA_PORT: 8080") ++ frame (str "-g f.txt"))) (str "10.0.0.1") = some r ∧
    ((r.1.events = 
        (World.sample (str "FTSERVER DATA CONNECTION ACCEPTED")
          (fun _ => OpenResult.opened (File.fresh (str "hello")) (str "Input/output error"))
          (DirResult.error [])).events ∧ r.2.dataSocket = none) ∨
    (∃ port, 
        (World.sample (str "FTSERVER DATA CONNECTION ACCEPTED")
          (fun _ => OpenResult.opened (File.fresh (str "hello")) (str "Input/output error"))
          (DirResult.error [])).dataPeer (cstr (str "10.0.0.1")) (cstr port) = none ∧
      r.1.events = 
        (World.sample (str "FTSERVER DATA CONNECTION ACCEPTED")
          (fun _ => OpenResult.opened (File.fresh (str "hello")) (str "Input/output error"))
          (DirResult.error [])).events ++ [Event.connect (cstr (str "10.0.0.1")) (cstr port) false] ∧
      r.2.dataSocket = none) ∨
    (∃ port d0 d sent, 
        (World.sample (str "FTSERVER DATA CONNECTION ACCEPTED")
          (fun _ => OpenResult.opened (File.fresh (str "hello")) (str "Input/output error"))
          (DirResult.error [])).dataPeer (cstr (str "10.0.0.1")) (cstr port) = some d0 ∧
      r.1.events = 
        (World.sample (str "FTSERVER DATA CONNECTION ACCEPTED")
          (fun _ => OpenResult.opened (File.fresh (str "hello")) (str "Input/output error"))
          (DirResult.error [])).events ++
        [Event.connect (cstr (str "10.0.0.1")) (cstr port) true, Event.closeDataSocket] ∧
      r.2.dataSocket = some d ∧ d.outbound = d0.outbound ++ sent ∧
      sent <+: frame validationMessage) ∨
    (∃ myFT1 commandLine s1 port d0 d1 reply d2 e d more data,
      validateControlConnection (newFTInfo (Socket.fresh (frame (str "DATA_PORT: 8080") ++ frame (str "-g f.txt"))) (str "10.0.0.1")) = some (true, myFT1) ∧
      recvMessage myFT1.controlSocket = some (some commandLine, s1) ∧
      (parseRequest commandLine).requestError = false ∧
      myFT1.dataPort = some port ∧
      
        (World.sample (str "FTSERVER DATA CONNECTION ACCEPTED")
          (fun _ => OpenResult.opened (File.fresh (str "hello")) (str "Input/output error"))
          (DirResult.error [])).dataPeer (cstr (str "10.0.0.1")) (cstr port) = some d0 ∧
      sendMessage d0 validationMessage = some (0, d1) ∧
      recvMessage d1 = some (some reply, d2) ∧ cstr reply = responseExpected ∧
      r.1.events = 
        (World.sample (str "FTSERVER DATA CONNECTION ACCEPTED")
          (fun _ => OpenResult.opened (File.fresh (str "hello")) (str "Input/output error"))
          (DirResult.error [])).events ++
        [Event.connect (cstr (str "10.0.0.1")) (cstr port) true, e, Event.closeDataSocket] ∧
      Event.isProducer e = true ∧
      r.2.dataSocket = some d ∧ d.calls = d2.calls ++ more ∧
      d.outbound = d2.outbound ++ data)) :=
  ⟨(acceptConnection
        (World.sample (str "FTSERVER DATA CONNECTION ACCEPTED")
          (fun _ => OpenResult.opened (File.fresh (str "hello")) (str "Input/output error"))
          (DirResult.error []))
        (Socket.fresh (frame (str "DATA_PORT: 8080") ++ frame (str "-g f.txt"))) (str "10.0.0.1")).get (by decide),
    (Option.some_get _).symm,
    producer_only_after_handshake
        (World.sample (str "FTSERVER DATA CONNECTION ACCEPTED")
          (fun _ => OpenResult.opened (File.fresh (str "hello")) (str "Input/output error"))
          (DirResult.error []))
        (Socket.fresh (frame (str "DATA_PORT: 8080") ++ frame (str "-g f.txt"))) (str "10.0.0.1") _ (Option.some_get _).symm⟩

/-! ## Reporting the outcome -/

/-- C24: for every byte count `N` below `2^64`, with a transport that accepts
the message, `sendSuccessMessage` sends on the control socket exactly the frame
of `SUCCESS! ` followed by the decimal digits of `N` followed by
` bytes sent over data connection.`; the digits are at most 20, so the text
and its terminator fit the buffer of 63 bytes the function declares (at most
62 characters), and the largest count fills it exactly. -/
theorem sendSuccessMessage_text (myFT : FTInfo) (N : Nat) (hN : N < 18446744073709551616)
    (hp : positive myFT.controlSocket.sendSched = true) :
    (∃ myFT', sendSuccessMessage myFT N = some (0, myFT') ∧
      myFT'.controlSocket.outbound = myFT.controlSocket.outbound ++
        frame (str "SUCCESS! " ++ decimal N ++ str " bytes sent over data connection.")) ∧
    (decimal N).length ≤ MAX_ULLINT_DIGITS ∧
    (str "SUCCESS! " ++ decimal N ++ str " bytes sent over data connection.").length + 1
      ≤ successMessageBufferLen ∧
    successMessageBufferLen = 63 ∧
    (str "SUCCESS! " ++ decimal 18446744073709551615 ++
      str " bytes sent over data connection.").length = 62 := by
  have h5 : (decimal N).length ≤ 20 := decimalCore_length_le _ _ 19 (by norm_num; omega)
  have hb : successMessageBufferLen = 63 := by decide
  refine ⟨?_, h5, ?_, hb, ?_⟩
  · obtain ⟨myFT', e1, e2, -⟩ := sendSuccessMessage_positive myFT N hp
    have hmod : N % ULLONG_MOD = N := Nat.mod_eq_of_lt hN
    rw [hmod] at e2
    exact ⟨myFT', e1, e2⟩
  · have h3 : (str "SUCCESS! ").length = 9 := by decide
    have h4 : (str " bytes sent over data connection.").length = 33 := by decide
    simp only [List.length_append, h3, h4, hb]
    omega
  · decide

theorem sendSuccessMessage_text_witness :
    (∃ myFT', sendSuccessMessage (FTInfo.sample (str "")) 12345 = some (0, myFT') ∧
      myFT'.controlSocket.outbound = (FTInfo.sample (str "")).controlSocket.outbound ++
        frame (str "SUCCESS! " ++ decimal 12345 ++ str " bytes sent over data connection.")) ∧
    (decimal 12345).length ≤ MAX_ULLINT_DIGITS ∧
    (str "SUCCESS! " ++ decimal 12345 ++ str " bytes sent over data connection.").length + 1
      ≤ successMessageBufferLen ∧
    successMessageBufferLen = 63 ∧
    (str "SUCCESS! " ++ decimal 18446744073709551615 ++
      str " bytes sent over data connection.").length = 62 :=
  sendSuccessMessage_text (FTInfo.sample (str "")) 12345 (by decide) (by decide)

/-- What a `recv` of one byte returns: `0` or `-1` when the peer has nothing
more to deliver, and `1` when a byte is pending and the transport delivers;
a call that returns `0` takes no byte from the stream. -/
theorem recv_one (s : Socket) :
    (s.inbound = [] → (recv s 1).1 = 0 ∨ (recv s 1).1 = -1) ∧
    ((recv s 1).1 = 0 → (recv s 1).2.2.inbound = s.inbound) ∧
    (s.inbound ≠ [] → positive s.recvSched = true →
      (recv s 1).1 = 1 ∧ (recv s 1).2.2.inbound = s.inbound.drop 1) := by
  unfold recv
  cases hs : s.recvSched with
  | nil =>
    cases hi : s.inbound with
    | nil => simp
    | cons b rest => simp
  | cons st sched =>
    cases st with
    | fail => simp [positive]
    | give k =>
      cases hi : s.inbound with
      | nil => simp
      | cons b rest =>
        cases k with
        | zero => simp [positive]
        | succ k =>
          have hm : min (k + 1) 1 = 1 := by omega
          simp [hm]

/-- Function `sendErrorMessage` is `sendMessage` on the control socket,
followed by `waitToCloseDataSocket` exactly when `sendMessage` returned `0`. -/
theorem sendErrorMessage_log (myFT myFT' : FTInfo) (errMessage : List Nat) (r : Int)
    (h : sendErrorMessage myFT errMessage = some (r, myFT')) :
    ∃ s1, (sendMessage myFT.controlSocket errMessage = some (0, s1) ∧ r = 0 ∧
        myFT' = waitToCloseDataSocket { myFT with controlSocket := s1 }) ∨
      (sendMessage myFT.controlSocket errMessage = some (-1, s1) ∧ r = -1 ∧
        myFT' = { myFT with controlSocket := s1 }) := by
  unfold sendErrorMessage at h
  cases hs : sendMessage myFT.controlSocket errMessage with
  | none => simp [hs] at h
  | some x =>
    obtain ⟨r1, s1⟩ := x
    simp only [hs] at h
    rcases sendMessage_ret _ _ _ _ hs with h0 | h0
    · subst h0
      simp at h
      exact ⟨s1, Or.inl ⟨rfl, h.1.symm, h.2.symm⟩⟩
    · subst h0
      simp at h
      exact ⟨s1, Or.inr ⟨rfl, h.1.symm, h.2.symm⟩⟩

/-- Function `sendSuccessMessage` is `sendMessage` of the success text on the
control socket, followed by `waitToCloseDataSocket` exactly when `sendMessage`
did not return `-1`. -/
theorem sendSuccessMessage_log (myFT myFT' : FTInfo) (bytesSent : Nat) (r : Int)
    (h : sendSuccessMessage myFT bytesSent = some (r, myFT')) :
    ∃ s1, (sendMessage myFT.controlSocket (successText (bytesSent % ULLONG_MOD)) = some (0, s1) ∧
        r = 0 ∧ myFT' = waitToCloseDataSocket { myFT with controlSocket := s1 }) ∨
      (sendMessage myFT.controlSocket (successText (bytesSent % ULLONG_MOD)) = some (-1, s1) ∧
        r = -1 ∧ myFT' = { myFT with controlSocket := s1 }) := by
  unfold sendSuccessMessage at h
  simp only at h
  unfold successText
  cases hs : sendMessage myFT.controlSocket
      (str "SUCCESS! " ++ decimal (bytesSent % ULLONG_MOD) ++
        str " bytes sent over data connection.") with
  | none =>
    simp only [hs] at h
    simp at h
  | some x =>
    obtain ⟨r1, s1⟩ := x
    simp only [hs] at h
    rcases sendMessage_ret _ _ _ _ hs with h0 | h0
    · subst h0
      simp at h
      exact ⟨s1, Or.inl ⟨rfl, h.1.symm, h.2.symm⟩⟩
    · subst h0
      simp at h
      exact ⟨s1, Or.inr ⟨rfl, h.1.symm, h.2.symm⟩⟩

/-- After a `sendMessage` on the control socket that returned `0`,
`waitToCloseDataSocket` adds one `recv` of one byte to the log of the socket;
after one that returned `-1` the log holds the `send` calls only. -/
theorem outcome_log (myFT myFT' : FTInfo) (message : List Nat) (r : Int)
    (hlen : strlen message < 2147483648)
    (h : ∃ s1, (sendMessage myFT.controlSocket message = some (0, s1) ∧ r = 0 ∧
        myFT' = waitToCloseDataSocket { myFT with controlSocket := s1 }) ∨
      (sendMessage myFT.controlSocket message = some (-1, s1) ∧ r = -1 ∧
        myFT' = { myFT with controlSocket := s1 })) :
    ∃ sends, (∀ x ∈ sends, ∃ n ret, x = Call.send n ret) ∧
      (r = 0 ∨ r = -1) ∧
      (r = -1 → myFT'.controlSocket.calls = myFT.controlSocket.calls ++ sends) ∧
      (r = 0 →
        myFT'.controlSocket.outbound
          = myFT.controlSocket.outbound ++ (decimal (strlen message) ++ 64 :: cstr message) ∧
        ∃ ret, myFT'.controlSocket.calls
            = myFT.controlSocket.calls ++ sends ++ [Call.recv 1 ret] ∧
          (myFT.controlSocket.inbound = [] → ret = 0 ∨ ret = -1) ∧
          (ret = 0 → myFT'.controlSocket.inbound = myFT.controlSocket.inbound) ∧
          (myFT.controlSocket.inbound ≠ [] → positive myFT.controlSocket.recvSched = true →
            ret = 1 ∧
            myFT'.controlSocket.inbound = myFT.controlSocket.inbound.drop 1)) := by
  obtain ⟨s1, ⟨hs, rfl, rfl⟩ | ⟨hs, rfl, rfl⟩⟩ := h
  · obtain ⟨sends, c1, c2⟩ := sendMessage_calls _ _ _ _ hs
    obtain ⟨-, o1, i1, i2⟩ := sendMessage_result _ _ _ _ hs
    have o2 := o1 rfl
    rw [wire_of_lt message hlen] at o2
    obtain ⟨k1, k2, k3⟩ := recv_one s1
    obtain ⟨w1, w2, -⟩ := waitToCloseDataSocket_fields { myFT with controlSocket := s1 }
    refine ⟨sends, c2, Or.inl rfl, fun hr => by simp at hr, fun _ => ⟨?_, (recv s1 1).1, ?_, ?_, ?_, ?_⟩⟩
    · rw [w1]
      exact o2
    · rw [w2]
      show s1.calls ++ _ = _
      rw [c1]
    · intro hin
      exact k1 (by rw [i1]; exact hin)
    · intro hret
      have := k2 hret
      show (recv s1 1).2.2.inbound = _
      rw [this, i1]
    · intro hne hpos
      have := k3 (by rw [i1]; exact hne) (by rw [i2]; exact hpos)
      refine ⟨this.1, ?_⟩
      show (recv s1 1).2.2.inbound = _
      rw [this.2, i1]
  · obtain ⟨sends, c1, c2⟩ := sendMessage_calls _ _ _ _ hs
    exact ⟨sends, c2, Or.inr rfl, fun _ => c1, fun hr => by simp at hr⟩

/-- C25 (counterexample): a client that still has two bytes to deliver on
the control channel.  `sendSuccessMessage` and `sendErrorMessage` send their
message, return `0`, and their one drain-wait `recv` returned `1` (a byte, not
the end of the stream): they have returned while the peer has not closed its
end, a byte of it being still pending. -/
theorem drain_wait_pending_byte_counterexample :
    (sendSuccessMessage (newFTInfo (Socket.fresh [88, 89]) (str "10.0.0.1")) 6).map
        (fun x => (x.1, x.2.controlSocket.calls.getLast?, x.2.controlSocket.inbound))
      = some (0, some (Call.recv 1 1), [89]) ∧
    (sendErrorMessage (newFTInfo (Socket.fresh [88, 89]) (str "10.0.0.1"))
        (str "No such file or directory")).map
        (fun x => (x.1, x.2.controlSocket.calls.getLast?, x.2.controlSocket.inbound))
      = some (0, some (Call.recv 1 1), [89]) := by
  decide

/-- C25 (amended): `sendSuccessMessage` and `sendErrorMessage` return `0` or
`-1`.  When they return `0` the frame of the outcome message has been sent on
the control socket and, after the `send` calls, exactly one `recv` of one byte
was made on it: that call returns `0` or `-1` when the peer has nothing more to
deliver (so, short of a read error, the function returns at the close of the
peer), a call that returned `0` took no byte, and when a byte of the peer is
pending and the transport delivers, the call returns `1` having taken that
byte.  When they return `-1` only `send` calls were made: no drain-wait read
is attempted. -/
theorem outcome_then_one_drain_read (myFT m1 m2 : FTInfo) (bytesSent : Nat)
    (errMessage : List Nat) (r1 r2 : Int)
    (h0 : ∀ b ∈ errMessage, b ≠ 0) (hlen : errMessage.length < 2147483648)
    (hs : sendSuccessMessage myFT bytesSent = some (r1, m1))
    (he : sendErrorMessage myFT errMessage = some (r2, m2)) :
    (∃ sends, (∀ x ∈ sends, ∃ n ret, x = Call.send n ret) ∧
      (r1 = 0 ∨ r1 = -1) ∧
      (r1 = -1 → m1.controlSocket.calls = myFT.controlSocket.calls ++ sends) ∧
      (r1 = 0 →
        m1.controlSocket.outbound
          = myFT.controlSocket.outbound ++ frame (successText (bytesSent % ULLONG_MOD)) ∧
        ∃ ret, m1.controlSocket.calls
            = myFT.controlSocket.calls ++ sends ++ [Call.recv 1 ret] ∧
          (myFT.controlSocket.inbound = [] → ret = 0 ∨ ret = -1) ∧
          (ret = 0 → m1.controlSocket.inbound = myFT.controlSocket.inbound) ∧
          (myFT.controlSocket.inbound ≠ [] → positive myFT.controlSocket.recvSched = true →
            ret = 1 ∧ m1.controlSocket.inbound = myFT.controlSocket.inbound.drop 1))) ∧
    (∃ sends, (∀ x ∈ sends, ∃ n ret, x = Call.send n ret) ∧
      (r2 = 0 ∨ r2 = -1) ∧
      (r2 = -1 → m2.controlSocket.calls = myFT.controlSocket.calls ++ sends) ∧
      (r2 = 0 →
        m2.controlSocket.outbound = myFT.controlSocket.outbound ++ frame errMessage ∧
        ∃ ret, m2.controlSocket.calls
            = myFT.controlSocket.calls ++ sends ++ [Call.recv 1 ret] ∧
          (myFT.controlSocket.inbound = [] → ret = 0 ∨ ret = -1) ∧
          (ret = 0 → m2.controlSocket.inbound = myFT.controlSocket.inbound) ∧
          (myFT.controlSocket.inbound ≠ [] → positive myFT.controlSocket.recvSched = true →
            ret = 1 ∧ m2.controlSocket.inbound = myFT.controlSocket.inbound.drop 1))) := by
  obtain ⟨g0, glen⟩ := successText_facts (bytesSent % ULLONG_MOD) (Nat.mod_lt _ (by decide))
  have gc : cstr (successText (bytesSent % ULLONG_MOD)) = successText (bytesSent % ULLONG_MOD) :=
    cstr_eq_self g0
  have gl : strlen (successText (bytesSent % ULLONG_MOD))
      = (successText (bytesSent % ULLONG_MOD)).length := by unfold strlen; rw [gc]
  have ec : cstr errMessage = errMessage := cstr_eq_self h0
  have el : strlen errMessage = errMessage.length := by unfold strlen; rw [ec]
  constructor
  · obtain ⟨sends, a1, a2, a3, a4⟩ := outcome_log myFT m1 _ r1 (by rw [gl]; exact glen)
      (sendSuccessMessage_log _ _ _ _ hs)
    rw [gl, gc] at a4
    exact ⟨sends, a1, a2, a3, a4⟩
  · obtain ⟨sends, a1, a2, a3, a4⟩ := outcome_log myFT m2 _ r2 (by rw [el]; exact hlen)
      (sendErrorMessage_log _ _ _ _ he)
    rw [el, ec] at a4
    exact ⟨sends, a1, a2, a3, a4⟩

theorem outcome_then_one_drain_read_witness :
    ∃ r1 m1 r2 m2,
      sendSuccessMessage (newFTInfo (Socket.fresh []) (str "10.0.0.1")) 6 = some (r1, m1) ∧
      sendErrorMessage (newFTInfo (Socket.fresh []) (str "10.0.0.1")) (str "No such file or directory") = some (r2, m2) ∧
    ((∃ sends, (∀ x ∈ sends, ∃ n ret, x = Call.send n ret) ∧
      (r1 = 0 ∨ r1 = -1) ∧
      (r1 = -1 → m1.controlSocket.calls = (newFTInfo (Socket.fresh []) (str "10.0.0.1")).controlSocket.calls ++ sends) ∧
      (r1 = 0 →
        m1.controlSocket.outbound
          = (newFTInfo (Socket.fresh []) (str "10.0.0.1")).controlSocket.outbound ++ frame (successText (6 % ULLONG_MOD)) ∧
        ∃ ret, m1.controlSocket.calls
            = (newFTInfo (Socket.fresh []) (str "10.0.0.1")).controlSocket.calls ++ sends ++ [Call.recv 1 ret] ∧
          ((newFTInfo (Socket.fresh []) (str "10.0.0.1")).controlSocket.inbound = [] → ret = 0 ∨ ret = -1) ∧
          (ret = 0 → m1.controlSocket.inbound = (newFTInfo (Socket.fresh []) (str "10.0.0.1")).controlSocket.inbound) ∧
          ((newFTInfo (Socket.fresh []) (str "10.0.0.1")).controlSocket.inbound ≠ [] → positive (newFTInfo (Socket.fresh []) (str "10.0.0.1")).controlSocket.recvSched = true →
            ret = 1 ∧ m1.controlSocket.inbound = (newFTInfo (Socket.fresh []) (str "10.0.0.1")).controlSocket.inbound.drop 1))) ∧
    (∃ sends, (∀ x ∈ sends, ∃ n ret, x = Call.send n ret) ∧
      (r2 = 0 ∨ r2 = -1) ∧
      (r2 = -1 → m2.controlSocket.calls = (newFTInfo (Socket.fresh []) (str "10.0.0.1")).controlSocket.calls ++ sends) ∧
      (r2 = 0 →
        m2.controlSocket.outbound = (newFTInfo (Socket.fresh []) (str "10.0.0.1")).controlSocket.outbound ++ frame (str "No such file or directory") ∧
        ∃ ret, m2.controlSocket.calls
            = (newFTInfo (Socket.fresh []) (str "10.0.0.1")).controlSocket.calls ++ sends ++ [Call.recv 1 ret] ∧
          ((newFTInfo (Socket.fresh []) (str "10.0.0.1")).controlSocket.inbound = [] → ret = 0 ∨ ret = -1) ∧
          (ret = 0 → m2.controlSocket.inbound = (newFTInfo (Socket.fresh []) (str "10.0.0.1")).controlSocket.inbound) ∧
          ((newFTInfo (Socket.fresh []) (str "10.0.0.1")).controlSocket.inbound ≠ [] → positive (newFTInfo (Socket.fresh []) (str "10.0.0.1")).controlSocket.recvSched = true →
            ret = 1 ∧ m2.controlSocket.inbound = (newFTInfo (Socket.fresh []) (str "10.0.0.1")).controlSocket.inbound.drop 1)))) :=
  ⟨_, _, _, _, rfl, rfl,
    outcome_then_one_drain_read (newFTInfo (Socket.fresh []) (str "10.0.0.1")) _ _ 6
      (str "No such file or directory") _ _ (by decide) (by decide) rfl rfl⟩

/-! ## Termination of `sendCompleteString` -/

/-- One `send` call under a progressing schedule: an error, or at least one
byte accepted. -/
theorem send_progress (s : Socket) (buf : List Nat) (n : Nat)
    (hp : progressing s.sendSched = true) (hn : 0 < n) (hb : n ≤ buf.length) :
    progressing (send s buf n).2.sendSched = true ∧
    (((send s buf n).1 = -1 ∧ (send s buf n).2.outbound = s.outbound ∧
        (send s buf n).2.calls = s.calls ++ [Call.send n (-1)]) ∨
      ∃ j : Nat, 1 ≤ j ∧ j ≤ n ∧ (send s buf n).1 = (j : Int) ∧
        (send s buf n).2.outbound = s.outbound ++ buf.take j ∧
        (send s buf n).2.calls = s.calls ++ [Call.send n (j : Int)]) := by
  unfold send
  split
  · rename_i sched hs
    rw [hs] at hp
    refine ⟨?_, Or.inl ⟨rfl, rfl, rfl⟩⟩
    simpa [progressing] using hp
  · rename_i k sched hs
    rw [hs] at hp
    have hk : 0 < k ∧ progressing sched = true := by simpa [progressing] using hp
    refine ⟨hk.2, Or.inr ⟨min k n, by omega, by omega, ?_, ?_, ?_⟩⟩
    · simp [List.length_take]; omega
    · simp [List.take_take]
    · simp [List.length_take]
      omega
  · rename_i hs
    refine ⟨by simpa using hp, Or.inr ⟨n, hn, le_refl _, ?_, rfl, ?_⟩⟩
    · simp [List.length_take]; omega
    · simp [List.length_take]
      omega

/-- Under a progressing schedule the send loop ends within `charsRemaining`
iterations: it makes at most that many `send` calls, each asking for exactly
what remains, and returns `0` exactly when everything was accepted. -/
theorem sendCompleteStringLoop_progress (fuel : Nat) (s : Socket) (pos : List Nat) (c : Int)
    (hp : progressing s.sendSched = true) (hc0 : 0 ≤ c) (hlen : c.toNat ≤ pos.length)
    (hf : c.toNat < fuel) :
    ∃ r s' new, sendCompleteStringLoop fuel s pos c = some (r, s') ∧
      s'.calls = s.calls ++ new ∧ new.length ≤ c.toNat ∧
      asksRemaining c.toNat new = true ∧ accepted new ≤ c.toNat ∧
      (r = 0 ↔ accepted new = c.toNat) ∧ (r = 0 ∨ r = -1) ∧
      s'.outbound = s.outbound ++ pos.take (accepted new) := by
  induction fuel generalizing s pos c with
  | zero => omega
  | succ fuel ih =>
    unfold sendCompleteStringLoop
    by_cases hc : c > 0
    · simp only [hc, if_true]
      obtain ⟨hp1, hcase⟩ := send_progress s pos c.toNat hp (by omega) hlen
      rcases hcase with ⟨hneg, ho, hcalls⟩ | ⟨j, hj1, hj2, hret, ho, hcalls⟩
      · refine ⟨-1, (send s pos c.toNat).2, [Call.send c.toNat (-1)], by simp [hneg], hcalls,
          by simp; omega, ?_, by simp [accepted], ?_, Or.inr rfl, by simp [accepted, ho]⟩
        · simp [asksRemaining]
          omega
        · simp [accepted]
          omega
      · have hnn : ¬ ((send s pos c.toNat).1 < 0) := by rw [hret]; omega
        simp only [hnn, if_false]
        have e1 : ((j : Int)).toNat = j := by simp
        have e2 : (c - (j : Int)).toNat = c.toNat - j := by omega
        rw [hret, e1]
        obtain ⟨r, s', new, h1, h2, h3, h4, h5, h6, h7, h8⟩ :=
          ih (send s pos c.toNat).2 (pos.drop j) (c - (j : Int)) hp1 (by omega)
            (by rw [e2, List.length_drop]; omega) (by rw [e2]; omega)
        rw [e2] at h3 h4 h5 h6
        refine ⟨r, s', Call.send c.toNat (j : Int) :: new, h1, ?_, ?_, ?_, ?_, ?_, h7, ?_⟩
        · rw [h2, hcalls]
          simp
        · simp only [List.length_cons]
          omega
        · simp only [asksRemaining, e1, h4]
          simp
          omega
        · simp only [accepted, e1]
          omega
        · simp only [accepted, e1]
          rw [h6]
          omega
        · rw [h8, ho]
          simp only [accepted, e1, List.append_assoc]
          congr 1
          rw [List.take_add]
    · have hc' : c = 0 := by omega
      subst hc'
      exact ⟨0, s, [], by simp, by simp, by simp, by simp [asksRemaining], by simp [accepted],
        by simp [accepted], Or.inl rfl, by simp [accepted]⟩

/-- A result of the send loop does not depend on the budget left over. -/
theorem sendCompleteStringLoop_fuel_mono (fuel k : Nat) (s : Socket) (pos : List Nat) (c : Int)
    (x : Int × Socket) (h : sendCompleteStringLoop fuel s pos c = some x) :
    sendCompleteStringLoop (fuel + k) s pos c = some x := by
  induction fuel generalizing s pos c with
  | zero => simp [sendCompleteStringLoop] at h
  | succ fuel ih =>
    have e : fuel + 1 + k = (fuel + k) + 1 := by omega
    rw [e]
    unfold sendCompleteStringLoop at h ⊢
    by_cases hc : c > 0
    · simp only [hc, if_true] at h ⊢
      by_cases hneg : (send s pos c.toNat).1 < 0
      · simp only [hneg, if_true] at h ⊢
        exact h
      · simp only [hneg, if_false] at h ⊢
        exact ih _ _ _ h
    · simp only [hc, if_false] at h ⊢
      exact h

/-- C30: when every `send` call of the transport either reports an error or
accepts at least one byte, `sendCompleteString` on a message of `n` bytes
(`n` within the range of `int`) returns, and with any iteration budget above
`n` the loop gives the same result; it makes at most `n` calls, all of them
`send` calls asking for exactly the bytes not accepted yet; it returns `0` or
`-1`, and `0` exactly when the byte counts accepted sum to `n`; the bytes
written are the first bytes of the message, as many as were accepted. -/
theorem sendCompleteString_terminates (s : Socket) (message : List Nat)
    (hp : progressing s.sendSched = true) (hn : strlen message < 2147483648) :
    ∃ r s' new, sendCompleteString s message = some (r, s') ∧
      (∀ fuel, strlen message < fuel →
        sendCompleteStringLoop fuel s message (toInt (strlen message)) = some (r, s')) ∧
      s'.calls = s.calls ++ new ∧ new.length ≤ strlen message ∧
      asksRemaining (strlen message) new = true ∧
      (r = 0 ∨ r = -1) ∧ (r = 0 ↔ accepted new = strlen message) ∧
      accepted new ≤ strlen message ∧
      s'.outbound = s.outbound ++ message.take (accepted new) := by
  have ht : toInt (strlen message) = (strlen message : Int) := toInt_of_lt hn
  have htn : (toInt (strlen message)).toNat = strlen message := by rw [ht]; simp
  obtain ⟨r, s', new, h1, h2, h3, h4, h5, h6, h7, h8⟩ :=
    sendCompleteStringLoop_progress (strlen message + 1) s message (toInt (strlen message)) hp
      (by rw [ht]; omega) (by rw [htn]; exact strlen_le_length message) (by rw [htn]; omega)
  rw [htn] at h3 h4 h5 h6
  have hfuel : ∀ fuel, strlen message < fuel →
      sendCompleteStringLoop fuel s message (toInt (strlen message)) = some (r, s') := by
    intro fuel hlt
    have e : fuel = strlen message + 1 + (fuel - (strlen message + 1)) := by omega
    rw [e]
    exact sendCompleteStringLoop_fuel_mono _ _ _ _ _ _ h1
  refine ⟨r, s', new, ?_, hfuel, h2, h3, h4, h7, h6, h5, h8⟩
  unfold sendCompleteString
  exact hfuel _ (by omega)

theorem sendCompleteString_terminates_witness :
    ∃ r s' new, sendCompleteString ({ Socket.fresh [] with sendSched := [Step.give 2, Step.give 1, Step.fail] } : Socket) (str "hello") = some (r, s') ∧
      (∀ fuel, strlen (str "hello") < fuel →
        sendCompleteStringLoop fuel ({ Socket.fresh [] with sendSched := [Step.give 2, Step.give 1, Step.fail] } : Socket) (str "hello") (toInt (strlen (str "hello"))) = some (r, s')) ∧
      s'.calls = ({ Socket.fresh [] with sendSched := [Step.give 2, Step.give 1, Step.fail] } : Socket).calls ++ new ∧ new.length ≤ strlen (str "hello") ∧
      asksRemaining (strlen (str "hello")) new = true ∧
      (r = 0 ∨ r = -1) ∧ (r = 0 ↔ accepted new = strlen (str "hello")) ∧
      accepted new ≤ strlen (str "hello") ∧
      s'.outbound = ({ Socket.fresh [] with sendSched := [Step.give 2, Step.give 1, Step.fail] } : Socket).outbound ++ (str "hello").take (accepted new) :=
  sendCompleteString_terminates ({ Socket.fresh [] with sendSched := [Step.give 2, Step.give 1, Step.fail] } : Socket) (str "hello") (by decide) (by decide)

/-! ## One frame per `recvMessage` -/

/-- The length loop stops at the first `'@'` of the stream: what it stored is
what was there before, the bytes before that `'@'`, and the `'@'`. -/
theorem recvLengthLoop_first_at (fuel : Nat) (s s' : Socket) (written w : List Nat)
    (h : recvLengthLoop fuel s written = some (some w, s')) :
    ∃ g, w = written ++ g ++ [64] ∧ s.inbound = g ++ 64 :: s'.inbound ∧ ∀ b ∈ g, b ≠ 64 := by
  induction fuel generalizing s written with
  | zero => simp [recvLengthLoop] at h
  | succ fuel ih =>
    unfold recvLengthLoop at h
    obtain ⟨-, hinb, hret, hle, -, -⟩ := recv_spec s 1
    simp only at h
    by_cases herr : recvError (recv s 1).1 = true
    · simp only [herr, if_true] at h
      simp at h
    · have herr' : recvError (recv s 1).1 = false := by simpa using herr
      simp only [herr', Bool.false_eq_true, if_false] at h
      have hpos : ¬ ((recv s 1).1 ≤ 0) := fun hh => herr ((recvError_iff _).2 hh)
      have hlen1 : (recv s 1).2.1.length = 1 := by
        rcases hret with ⟨h1, -⟩ | h1
        · omega
        · omega
      obtain ⟨b, hb⟩ : ∃ b, (recv s 1).2.1 = [b] := List.length_eq_one.mp hlen1
      rw [hb] at h hinb
      split at h
      · simp at h
      · split at h
        · rename_i hend
          simp at h
          obtain ⟨rfl, rfl⟩ := h
          have hb64 : b = 64 := by simpa using hend
          subst hb64
          exact ⟨[], by simp, by simpa using hinb, by simp⟩
        · rename_i hend
          have hb64 : b ≠ 64 := by
            intro hb64
            apply hend
            simp [hb64]
          obtain ⟨g, e1, e2, e3⟩ := ih _ _ h
          refine ⟨b :: g, ?_, ?_, ?_⟩
          · rw [e1]; simp
          · rw [hinb, e2]; simp
          · intro c hc
            simp only [List.mem_cons] at hc
            rcases hc with rfl | hc
            · exact hb64
            · exact e3 c hc

/-- Under a positive schedule, on a stream that starts with the frame of a
payload shorter than `INT_MAX`, `recvMessage` returns the payload and leaves
the bytes after the frame pending. -/
theorem recvMessage_of_frame (s : Socket) (P rest : List Nat)
    (hp : positive s.recvSched = true) (hi : s.inbound = frame P ++ rest)
    (hL : P.length < 2147483647) :
    ∃ s', recvMessage s = some (some P, s') ∧ s'.inbound = rest ∧
      positive s'.recvSched = true ∧ s'.outbound = s.outbound ∧
      s'.sendSched = s.sendSched := by
  have hi' : s.inbound = decimal P.length ++ 64 :: (P ++ rest) := by
    rw [hi]; unfold frame; simp
  have hv : atoiDigits 0 (decimal P.length) = P.length := atoiDigits_decimal _
  obtain ⟨s', h1, h2, h3, h4, h5⟩ := recvMessage_digits s (decimal P.length) (P ++ rest) hp hi'
    (decimal_digits _) (decimal_length_le _ (by omega)) (by rw [hv]; exact hL)
  rw [hv] at h1 h2
  have hle : P.length ≤ (P ++ rest).length := by simp
  simp only [hle, if_true, List.take_left, List.drop_left] at h1 h2
  exact ⟨s', h1, h2, h3, h4, h5⟩

/-- C28: on a stream that starts with the frame of a payload `P` (of a length
`L` below `INT_MAX`) followed by `rest`, every call of `recvMessage` that
returns a message returns `P` and leaves exactly `rest` pending, having taken
the digits of `L`, the `'@'` and the `L` payload bytes from the stream and
nothing more, whatever the sizes of the reads; under a transport that delivers
at least one byte per call the call does return it.  So when two strings are
sent back to back with `sendMessage`, two successive calls of `recvMessage`
on what was sent return the first, then the second, and leave what follows. -/
theorem recvMessage_consumes_one_frame (s : Socket) (P rest : List Nat)
    (hi : s.inbound = frame P ++ rest) (hL : P.length < 2147483647) :
    (∀ r s', recvMessage s = some (some r, s') →
      r = P ∧ s'.inbound = rest ∧
      s.inbound.length = s'.inbound.length + ((decimal P.length).length + 1 + P.length)) ∧
    (positive s.recvSched = true →
      ∃ s', recvMessage s = some (some P, s') ∧ s'.inbound = rest) ∧
    (∀ (sender receiver : Socket) (P1 P2 tail : List Nat),
      (∀ b ∈ P1, b ≠ 0) → (∀ b ∈ P2, b ≠ 0) →
      P1.length < 2147483647 → P2.length < 2147483647 →
      positive sender.sendSched = true → positive receiver.recvSched = true →
      ∃ sender1 sender2, sendMessage sender P1 = some (0, sender1) ∧
        sendMessage sender1 P2 = some (0, sender2) ∧
        (receiver.inbound = sender2.outbound.drop sender.outbound.length ++ tail →
          ∃ receiver1 receiver2, recvMessage receiver = some (some P1, receiver1) ∧
            recvMessage receiver1 = some (some P2, receiver2) ∧
            receiver2.inbound = tail)) := by
  refine ⟨?_, ?_, ?_⟩
  · intro r s' h
    have hi' : s.inbound = decimal P.length ++ 64 :: (P ++ rest) := by
      rw [hi]; unfold frame; simp
    unfold recvMessage at h
    cases h1 : recvLengthLoop (s.inbound.length + 1) s [] with
    | none => simp [h1] at h
    | some x =>
      obtain ⟨r1, s1⟩ := x
      simp only [h1] at h
      cases r1 with
      | none => simp at h
      | some written =>
        simp only at h
        obtain ⟨g, e1, e2, e3⟩ := recvLengthLoop_first_at _ _ _ _ _ h1
        rw [hi'] at e2
        obtain ⟨hg, hs1⟩ := append_at_inj _ _ _ _
          (fun c hc => (isdigit_ne (decimal_digits _ c hc)).2.1) e3 e2
        subst hg
        have hparse : parseMessageLen written = some (P.length : Int) := by
          rw [e1, List.nil_append]
          have := parseMessageLen_digits (decimal P.length) (decimal_digits _)
            (decimal_length_le _ (by omega)) (by rw [atoiDigits_decimal]; omega)
          rw [atoiDigits_decimal] at this
          exact this
        simp only [hparse] at h
        have hguard : ¬ ((P.length : Int) < 0 ∨ (P.length : Int) + 1 > INT_MAX) := by
          unfold INT_MAX
          omega
        simp only [hguard, if_false] at h
        obtain ⟨-, -, -, h3, -, -⟩ := recvPayloadLoop_log _ _ _ _ _ _ h
        obtain ⟨got, p1, p2, p3⟩ := h3 r rfl
        rw [← hs1] at p2
        have p3' : P.length = got.length := by rw [p3]; simp
        obtain ⟨q1, q2⟩ := List.append_inj p2 p3'
        refine ⟨by rw [p1, ← q1]; simp, q2.symm, ?_⟩
        rw [hi, ← q2]
        unfold frame
        simp
        omega
  · intro hp
    obtain ⟨s', h1, h2, -⟩ := recvMessage_of_frame s P rest hp hi hL
    exact ⟨s', h1, h2⟩
  · intro sender receiver P1 P2 tail h1 h2 l1 l2 hps hpr
    obtain ⟨sender1, a1, a2, -, -, a5⟩ := sendMessage_frame sender P1 hps h1 (by omega)
    obtain ⟨sender2, b1, b2, -, -, -⟩ := sendMessage_frame sender1 P2 a5 h2 (by omega)
    refine ⟨sender1, sender2, a1, b1, ?_⟩
    intro hin
    rw [b2, a2, List.append_assoc, List.drop_left, List.append_assoc] at hin
    obtain ⟨receiver1, c1, c2, c3, -⟩ := recvMessage_of_frame receiver P1 _ hpr hin l1
    obtain ⟨receiver2, d1, d2, -⟩ := recvMessage_of_frame receiver1 P2 _ c3 c2 l2
    exact ⟨receiver1, receiver2, c1, d1, d2⟩

theorem recvMessage_consumes_one_frame_witness :
    (∀ r s', recvMessage ({ Socket.fresh (frame (str "a@b") ++ frame (str "-l")) with
        recvSched := [Step.give 1, Step.give 3] } : Socket) = some (some r, s') →
      r = (str "a@b") ∧ s'.inbound = (frame (str "-l")) ∧
      ({ Socket.fresh (frame (str "a@b") ++ frame (str "-l")) with
        recvSched := [Step.give 1, Step.give 3] } : Socket).inbound.length = s'.inbound.length + ((decimal (str "a@b").length).length + 1 + (str "a@b").length)) ∧
    (positive ({ Socket.fresh (frame (str "a@b") ++ frame (str "-l")) with
        recvSched := [Step.give 1, Step.give 3] } : Socket).recvSched = true →
      ∃ s', recvMessage ({ Socket.fresh (frame (str "a@b") ++ frame (str "-l")) with
        recvSched := [Step.give 1, Step.give 3] } : Socket) = some (some (str "a@b"), s') ∧ s'.inbound = (frame (str "-l"))) ∧
    (∀ (sender receiver : Socket) (P1 P2 tail : List Nat),
      (∀ b ∈ P1, b ≠ 0) → (∀ b ∈ P2, b ≠ 0) →
      P1.length < 2147483647 → P2.length < 2147483647 →
      positive sender.sendSched = true → positive receiver.recvSched = true →
      ∃ sender1 sender2, sendMessage sender P1 = some (0, sender1) ∧
        sendMessage sender1 P2 = some (0, sender2) ∧
        (receiver.inbound = sender2.outbound.drop sender.outbound.length ++ tail →
          ∃ receiver1 receiver2, recvMessage receiver = some (some P1, receiver1) ∧
            recvMessage receiver1 = some (some P2, receiver2) ∧
            receiver2.inbound = tail)) :=
  recvMessage_consumes_one_frame ({ Socket.fresh (frame (str "a@b") ++ frame (str "-l")) with
        recvSched := [Step.give 1, Step.give 3] } : Socket) (str "a@b") (frame (str "-l")) (by decide) (by decide)

/-! ## Spacing of a message -/

/-- A string is cut at its first space into the part before it, free of
spaces, and the rest. -/
theorem split_at_space (a : List Nat) :
    (∀ x ∈ a, x ≠ 32) ∨
    ∃ a1 a2, a = a1 ++ 32 :: a2 ∧ (∀ x ∈ a1, x ≠ 32) := by
  have hsplit : a.takeWhile (fun c => c != 32) ++ a.dropWhile (fun c => c != 32) = a :=
    List.takeWhile_append_dropWhile _ _
  have h32 : ∀ x ∈ a.takeWhile (fun c => c != 32), x ≠ 32 := by
    intro x hx
    simpa using List.mem_takeWhile_imp hx
  cases hd : a.dropWhile (fun c => c != 32) with
  | nil =>
    rw [hd, List.append_nil] at hsplit
    left
    rw [← hsplit]
    exact h32
  | cons sep rest =>
    have hsep : sep = 32 := by
      have hhead := List.head_dropWhile_not (fun c => c != 32) a (by rw [hd]; simp)
      simpa [hd] using hhead
    subst hsep
    right
    exact ⟨_, rest, by rw [← hd, hsplit], h32⟩

theorem tokensOf_append_bounded (n : Nat) :
    ∀ (a b : List Nat), a.length ≤ n →
      tokensOf (a ++ 32 :: b) = tokensOf a ++ tokensOf b := by
  induction n with
  | zero =>
    intro a b ha
    have : a = [] := List.length_eq_zero.mp (by omega)
    subst this
    simp [tokensOf_cons_space, tokensOf_nil]
  | succ n ih =>
    intro a b ha
    rcases split_at_space a with h32 | ⟨a1, a2, rfl, h32⟩
    · by_cases hne : a = []
      · subst hne
        simp [tokensOf_cons_space, tokensOf_nil]
      · rw [tokensOf_append_space a b hne h32, tokensOf_single a hne h32]
        rfl
    · have hlen : a2.length ≤ n := by
        simp only [List.length_append, List.length_cons] at ha
        omega
      by_cases hne : a1 = []
      · subst hne
        simp only [List.nil_append, List.cons_append, tokensOf_cons_space]
        exact ih a2 b hlen
      · rw [List.append_assoc, List.cons_append, tokensOf_append_space a1 _ hne h32,
          tokensOf_append_space a1 a2 hne h32, ih a2 b hlen]
        rfl

/-- A space splits the token list of a string in two. -/
theorem tokensOf_append (a b : List Nat) :
    tokensOf (a ++ 32 :: b) = tokensOf a ++ tokensOf b :=
  tokensOf_append_bounded a.length a b (le_refl _)

theorem tokensOf_no_space_bounded (n : Nat) :
    ∀ (s : List Nat), s.length ≤ n → ∀ t ∈ tokensOf s, t ≠ [] ∧ ∀ x ∈ t, x ≠ 32 := by
  induction n with
  | zero =>
    intro s hs t ht
    have : s = [] := List.length_eq_zero.mp (by omega)
    subst this
    simp [tokensOf_nil] at ht
  | succ n ih =>
    intro s hs t ht
    rcases split_at_space s with h32 | ⟨a1, a2, rfl, h32⟩
    · by_cases hne : s = []
      · subst hne
        simp [tokensOf_nil] at ht
      · rw [tokensOf_single s hne h32] at ht
        simp only [List.mem_singleton] at ht
        subst ht
        exact ⟨hne, h32⟩
    · have hlen : a2.length ≤ n := by
        simp only [List.length_append, List.length_cons] at hs
        omega
      rw [tokensOf_append] at ht
      rcases List.mem_append.mp ht with h1 | h2
      · by_cases hne : a1 = []
        · subst hne
          simp [tokensOf_nil] at h1
        · rw [tokensOf_single a1 hne h32] at h1
          simp only [List.mem_singleton] at h1
          subst h1
          exact ⟨hne, h32⟩
      · exact ih a2 hlen t h2

/-- A token is not empty and holds no space. -/
theorem tokensOf_no_space (s : List Nat) : ∀ t ∈ tokensOf s, t ≠ [] ∧ ∀ x ∈ t, x ≠ 32 :=
  tokensOf_no_space_bounded s.length s (le_refl _)

/-- The C string of a concatenation. -/
theorem cstr_append (x y : List Nat) :
    cstr (x ++ y) = if (cstr x).length = x.length then x ++ cstr y else cstr x := by
  unfold cstr
  exact List.takeWhile_append

theorem cstr_replicate_space (k : Nat) (y : List Nat) :
    cstr (List.replicate k 32 ++ y) = List.replicate k 32 ++ cstr y := by
  unfold cstr
  apply List.takeWhile_append_of_pos
  intro a ha
  have := List.eq_of_mem_replicate ha
  subst this
  decide

theorem tokensOf_spaces (k : Nat) : tokensOf (List.replicate k 32) = [] := by
  have := tokensOf_replicate_space k []
  simpa [tokensOf_nil] using this

/-- Spaces in front of a message do not change its tokens. -/
theorem tokens_leading (k : Nat) (m : List Nat) :
    tokens (List.replicate k 32 ++ m) = tokens m := by
  unfold tokens
  rw [cstr_replicate_space, tokensOf_replicate_space]

/-- Spaces behind a message do not change its tokens. -/
theorem tokens_trailing (k : Nat) (m : List Nat) :
    tokens (m ++ List.replicate k 32) = tokens m := by
  unfold tokens
  rw [cstr_append]
  split_ifs with h
  · have hc : cstr (List.replicate k 32) = List.replicate k 32 := by
      simp [cstr]
    have hm : cstr m = m := by
      unfold cstr at h ⊢
      exact List.IsPrefix.eq_of_length (List.takeWhile_prefix _) h
    rw [hc, hm]
    cases k with
    | zero => simp
    | succ k =>
      rw [List.replicate_succ, tokensOf_append, tokensOf_spaces]
      simp
  · rfl

/-- More spaces where there is a space do not change the tokens of a message. -/
theorem tokens_repeated (k : Nat) (a b : List Nat) :
    tokens (a ++ List.replicate (k + 1) 32 ++ b) = tokens (a ++ 32 :: b) := by
  unfold tokens
  rw [List.append_assoc, cstr_append, cstr_append a (32 :: b)]
  split_ifs with h
  · rw [cstr_replicate_space, List.replicate_succ, List.cons_append, tokensOf_append,
      tokensOf_replicate_space]
    have : cstr (32 :: b) = 32 :: cstr b := by
      have := cstr_replicate_space 1 b
      simpa using this
    rw [this, tokensOf_append]
  · rfl

/-- C29: the outcome of parsing the handshake message (error flag and data
port stored) and of parsing the command line (error flag, error message,
command and file name) is the same for two messages with the same list of
tokens; spaces added in front of a message, behind it, or where there already
is a space leave its list of tokens as it is; and a file name or a data port
that is stored is a token, so it is not empty and holds no space. -/
theorem parsing_depends_on_tokens (m m' a b : List Nat) (k : Nat)
    (dataPort : Option (List Nat)) :
    (tokens m = tokens m' →
      parseDataPort m dataPort = parseDataPort m' dataPort ∧
      parseRequest m = parseRequest m') ∧
    tokens (List.replicate k 32 ++ m) = tokens m ∧
    tokens (m ++ List.replicate k 32) = tokens m ∧
    tokens (a ++ List.replicate (k + 1) 32 ++ b) = tokens (a ++ 32 :: b) ∧
    parseRequest (List.replicate k 32 ++ m) = parseRequest m ∧
    parseRequest (m ++ List.replicate k 32) = parseRequest m ∧
    parseRequest (a ++ List.replicate (k + 1) 32 ++ b) = parseRequest (a ++ 32 :: b) ∧
    parseDataPort (List.replicate k 32 ++ m) dataPort = parseDataPort m dataPort ∧
    parseDataPort (m ++ List.replicate k 32) dataPort = parseDataPort m dataPort ∧
    parseDataPort (a ++ List.replicate (k + 1) 32 ++ b) dataPort
      = parseDataPort (a ++ 32 :: b) dataPort ∧
    (∀ filename, (parseRequest m).filename = some filename →
      filename ≠ [] ∧ ∀ x ∈ filename, x ≠ 32) ∧
    (∀ port, (parseDataPort m dataPort).1 = false →
      (parseDataPort m dataPort).2 = some port → port ≠ [] ∧ ∀ x ∈ port, x ≠ 32) ∧
    parseRequest (str "  -g   a.txt  ") = parseRequest (str "-g a.txt") ∧
    parseDataPort (str " DATA_PORT:    8080 ") none = parseDataPort (str "DATA_PORT: 8080") none ∧
    (parseRequest (str "-g my file.txt")).filename = none := by
  have hreq : ∀ x y : List Nat, tokens x = tokens y → parseRequest x = parseRequest y := by
    intro x y h
    rw [parseRequest_eq x, parseRequest_eq y, h]
  have hdp : ∀ x y : List Nat, tokens x = tokens y →
      parseDataPort x dataPort = parseDataPort y dataPort := by
    intro x y h
    rw [parseDataPort_eq x, parseDataPort_eq y, h]
  refine ⟨fun h => ⟨hdp _ _ h, hreq _ _ h⟩, tokens_leading k m, tokens_trailing k m,
    tokens_repeated k a b, hreq _ _ (tokens_leading k m), hreq _ _ (tokens_trailing k m),
    hreq _ _ (tokens_repeated k a b), hdp _ _ (tokens_leading k m),
    hdp _ _ (tokens_trailing k m), hdp _ _ (tokens_repeated k a b), ?_, ?_,
    by decide, by decide, by decide⟩
  · intro filename hf
    rw [parseRequest_eq] at hf
    have hmem : filename ∈ tokens m := by
      split at hf
      · simp at hf
      · rename_i t1 args heq
        rw [heq]
        split_ifs at hf
        · split at hf
          · simp at hf
          · simp at hf
            subst hf
            simp
          · simp at hf
    exact tokensOf_no_space _ _ hmem
  · intro port herr hport
    rw [parseDataPort_eq] at herr hport
    have hmem : port ∈ tokens m := by
      split at hport
      · rename_i t1 t2 heq
        rw [heq]
        split_ifs at hport with hcond
        · simp at hport
          subst hport
          simp
        · rw [heq] at herr
          simp only at herr
          rw [if_neg hcond] at herr
          simp at herr
      · rename_i hne
        split at herr
        · rename_i t1 t2 heq
          exact absurd heq (hne t1 t2)
        · simp at herr
    exact tokensOf_no_space _ _ hmem

/-! ## Command and file name of a session -/

/-- What the parsing part of `handleRequest` stores: no command, or one of the
three commands, and a file name exactly with `-g`. -/
theorem parseRequest_invariant (clientRequest : List Nat) :
    ((parseRequest clientRequest).command = none ∨
      (parseRequest clientRequest).command = some GET_FILE ∨
      (parseRequest clientRequest).command = some LIST_FILES ∨
      (parseRequest clientRequest).command = some LIST_TXT_FILES) ∧
    ((parseRequest clientRequest).filename.isSome = true ↔
      (parseRequest clientRequest).command = some GET_FILE) ∧
    ((parseRequest clientRequest).requestError = false →
      (parseRequest clientRequest).command ≠ none) := by
  have d1 : LIST_FILES ≠ GET_FILE := by decide
  have d2 : LIST_TXT_FILES ≠ GET_FILE := by decide
  rw [parseRequest_eq]
  split
  · simp
  · rename_i t1 args heq
    by_cases h1 : t1 = GET_FILE
    · subst h1
      simp only [if_true]
      split <;> simp
    · by_cases h2 : t1 = LIST_FILES
      · subst h2
        simp only [h1, if_false, if_true]
        split_ifs <;> simp [d1]
      · by_cases h3 : t1 = LIST_TXT_FILES
        · subst h3
          simp only [h1, h2, if_false, if_true]
          split_ifs <;> simp [d2]
        · simp [h1, h2, h3]

/-- Function `sendFileToClient` leaves command and file name as they are. -/
theorem sendFileToClient_keeps (w w' : World) (myFT myFT' : FTInfo)
    (h : sendFileToClient w myFT = some (w', myFT')) :
    myFT'.command = myFT.command ∧ myFT'.filename = myFT.filename := by
  unfold sendFileToClient at h
  split at h
  · simp only at h
    split at h
    · split at h
      · simp at h
      · rename_i r m1 he
        simp at h
        obtain ⟨-, rfl⟩ := h
        obtain ⟨-, e2, e3, -⟩ := sendErrorMessage_fields _ _ _ _ he
        exact ⟨e2, e3⟩
    · split at h
      · simp at h
      · simp at h
        obtain ⟨-, rfl⟩ := h
        exact ⟨rfl, rfl⟩
      · split_ifs at h
        · split at h
          · simp at h
          · rename_i r m2 hs
            simp at h
            obtain ⟨-, rfl⟩ := h
            obtain ⟨-, e2, e3, -⟩ := sendSuccessMessage_fields _ _ _ _ hs
            exact ⟨e2, e3⟩
        · split at h
          · simp at h
          · rename_i r m2 hs
            simp at h
            obtain ⟨-, rfl⟩ := h
            obtain ⟨-, e2, e3, -⟩ := sendErrorMessage_fields _ _ _ _ hs
            exact ⟨e2, e3⟩
  · simp at h

/-- Function `sendListingToClient` leaves command and file name as they are. -/
theorem sendListingToClient_keeps (w w' : World) (myFT myFT' : FTInfo)
    (h : sendListingToClient w myFT = some (w', myFT')) :
    myFT'.command = myFT.command ∧ myFT'.filename = myFT.filename := by
  unfold sendListingToClient at h
  split at h
  · rename_i command d hc hd
    simp only at h
    generalize (if command = LIST_TXT_FILES then false else true) = includeAllFiles at h
    split at h
    · split at h
      · simp at h
      · rename_i r m1 he
        simp at h
        obtain ⟨-, rfl⟩ := h
        obtain ⟨-, e2, e3, -⟩ := sendErrorMessage_fields _ _ _ _ he
        exact ⟨e2, e3⟩
    · split at h
      · simp at h
      · simp at h
        obtain ⟨-, rfl⟩ := h
        exact ⟨rfl, rfl⟩
      · split at h
        · split at h
          · simp at h
          · rename_i r m2 hs
            simp at h
            obtain ⟨-, rfl⟩ := h
            obtain ⟨-, e2, e3, -⟩ := sendErrorMessage_fields _ _ _ _ hs
            exact ⟨e2, e3⟩
        · split_ifs at h
          · split at h
            · simp at h
            · split_ifs at h
              · simp at h
                obtain ⟨-, rfl⟩ := h
                exact ⟨rfl, rfl⟩
              · simp at h
                obtain ⟨-, rfl⟩ := h
                exact ⟨rfl, rfl⟩
          · split at h
            · simp at h
            · split_ifs at h
              · simp at h
                obtain ⟨-, rfl⟩ := h
                exact ⟨rfl, rfl⟩
              · split at h
                · simp at h
                · rename_i r2 m2 hs2
                  simp at h
                  obtain ⟨-, rfl⟩ := h
                  obtain ⟨-, e2, e3, -⟩ := sendSuccessMessage_fields _ _ _ _ hs2
                  exact ⟨e2, e3⟩
          · split at h
            · simp at h
            · rename_i r m2 hs
              simp at h
              obtain ⟨-, rfl⟩ := h
              obtain ⟨-, e2, e3, -⟩ := sendSuccessMessage_fields _ _ _ _ hs
              exact ⟨e2, e3⟩
  · simp at h

/-- Function `handleRequest` ends with the command and file name it started
with, or with those its parsing part stored. -/
theorem handleRequest_keeps (w w' : World) (myFT myFT' : FTInfo)
    (h : handleRequest w myFT = some (w', myFT')) :
    (myFT'.command = myFT.command ∧ myFT'.filename = myFT.filename) ∨
    ∃ clientRequest s1, recvMessage myFT.controlSocket = some (some clientRequest, s1) ∧
      myFT'.command = (if (parseRequest clientRequest).command.isSome
        then (parseRequest clientRequest).command else myFT.command) ∧
      myFT'.filename = (if (parseRequest clientRequest).filename.isSome
        then (parseRequest clientRequest).filename else myFT.filename) := by
  unfold handleRequest at h
  cases hrecv : recvMessage myFT.controlSocket with
  | none => simp [hrecv] at h
  | some x =>
    obtain ⟨m, s1⟩ := x
    cases m with
    | none =>
      simp only [hrecv] at h
      simp at h
      obtain ⟨-, rfl⟩ := h
      exact Or.inl ⟨rfl, rfl⟩
    | some commandLine =>
      right
      refine ⟨commandLine, s1, rfl, ?_⟩
      simp only [hrecv] at h
      generalize hm1 : ({ myFT with
          controlSocket := s1,
          command := if (parseRequest commandLine).command.isSome
            then (parseRequest commandLine).command else myFT.command,
          filename := if (parseRequest commandLine).filename.isSome
            then (parseRequest commandLine).filename else myFT.filename } : FTInfo)
        = myFT1 at h
      have hc1 : myFT1.command = (if (parseRequest commandLine).command.isSome
          then (parseRequest commandLine).command else myFT.command) := by rw [← hm1]
      have hf1 : myFT1.filename = (if (parseRequest commandLine).filename.isSome
          then (parseRequest commandLine).filename else myFT.filename) := by rw [← hm1]
      by_cases hreq : (parseRequest commandLine).requestError = true
      · rw [if_pos hreq] at h
        split at h
        · simp at h
        · simp at h
          obtain ⟨-, rfl⟩ := h
          exact ⟨rfl, rfl⟩
      · rw [if_neg hreq] at h
        cases hv : validateDataConnection w myFT1 with
        | none => simp [hv] at h
        | some y =>
          obtain ⟨valid, w1, myFT2⟩ := y
          obtain ⟨port, -, -, -, p1, p2, -⟩ := validateDataConnection_spec _ _ _ _ _ hv
          simp only [hv] at h
          cases valid with
          | false =>
            simp at h
            obtain ⟨-, rfl⟩ := h
            exact ⟨p1.trans hc1, p2.trans hf1⟩
          | true =>
            simp only [Bool.not_true, Bool.false_eq_true, if_false] at h
            split_ifs at h with hg
            · obtain ⟨r1, r2⟩ := sendFileToClient_keeps _ _ _ _ h
              exact ⟨(r1.trans p1).trans hc1, (r2.trans p2).trans hf1⟩
            · obtain ⟨r1, r2⟩ := sendListingToClient_keeps _ _ _ _ h
              exact ⟨(r1.trans p1).trans hc1, (r2.trans p2).trans hf1⟩

/-- The session state after the parsing part of `handleRequest`, in a session
that had no command and no file name yet, satisfies the invariant. -/
theorem parsed_state_invariant (myFT : FTInfo) (clientRequest : List Nat)
    (hc : myFT.command = none) (hf : myFT.filename = none) (command filename : Option (List Nat))
    (h1 : command = (if (parseRequest clientRequest).command.isSome
      then (parseRequest clientRequest).command else myFT.command))
    (h2 : filename = (if (parseRequest clientRequest).filename.isSome
      then (parseRequest clientRequest).filename else myFT.filename)) :
    (command = none ∨ command = some GET_FILE ∨ command = some LIST_FILES ∨
      command = some LIST_TXT_FILES) ∧
    (filename.isSome = true ↔ command = some GET_FILE) := by
  obtain ⟨i1, i2, -⟩ := parseRequest_invariant clientRequest
  have e1 : command = (parseRequest clientRequest).command := by
    rw [h1, hc]
    cases (parseRequest clientRequest).command <;> simp
  have e2 : filename = (parseRequest clientRequest).filename := by
    rw [h2, hf]
    cases (parseRequest clientRequest).filename <;> simp
  rw [e1, e2]
  exact ⟨i1, i2⟩

theorem commandInvariant_iff (myFT : FTInfo) :
    myFT.commandInvariant = true ↔
      (myFT.command = none ∨ myFT.command = some GET_FILE ∨
        myFT.command = some LIST_FILES ∨ myFT.command = some LIST_TXT_FILES) ∧
      (myFT.filename.isSome = true ↔ myFT.command = some GET_FILE) := by
  simp only [FTInfo.commandInvariant, Bool.and_eq_true, decide_eq_true_eq]

set_option maxRecDepth 100000 in
/-- C27: the invariant on the command of a session (the command is absent or
one of `-g`, `-l`, `-ltxt`, and a file name is stored exactly when the command
is `-g`) holds at every step of a session.  `newFTInfo` creates the session
with command, file name, data port and data socket absent;
`validateControlConnection` leaves command and file name absent; the state in
which `handleRequest` goes on after parsing the command line satisfies the
invariant; `validateDataConnection`, `sendFileToClient` and
`sendListingToClient` leave command and file name as they are; so the state
`handleRequest` ends with, and the state every session ends with, satisfy it.
In a session that asks for `f.bin` the command ends as `-g` and the file name
as `f.bin`; in one that sends `-g` alone both stay absent. -/
theorem session_command_invariant (w : World) (controlSocket : Socket)
    (clientHost : List Nat) :
    ((newFTInfo controlSocket clientHost).command = none ∧
      (newFTInfo controlSocket clientHost).filename = none ∧
      (newFTInfo controlSocket clientHost).dataPort = none ∧
      (newFTInfo controlSocket clientHost).dataSocket = none ∧
      (newFTInfo controlSocket clientHost).commandInvariant = true) ∧
    (∀ valid myFT1,
      validateControlConnection (newFTInfo controlSocket clientHost) = some (valid, myFT1) →
      myFT1.command = none ∧ myFT1.filename = none ∧ myFT1.commandInvariant = true) ∧
    (∀ (myFT : FTInfo) (clientRequest : List Nat) (s1 : Socket),
      myFT.command = none → myFT.filename = none →
      ({ myFT with
          controlSocket := s1,
          command := if (parseRequest clientRequest).command.isSome
            then (parseRequest clientRequest).command else myFT.command,
          filename := if (parseRequest clientRequest).filename.isSome
            then (parseRequest clientRequest).filename else myFT.filename } :
        FTInfo).commandInvariant = true) ∧
    (∀ w0 myFT valid w1 myFT2, validateDataConnection w0 myFT = some (valid, w1, myFT2) →
      myFT2.command = myFT.command ∧ myFT2.filename = myFT.filename) ∧
    (∀ w0 myFT w1 myFT2, sendFileToClient w0 myFT = some (w1, myFT2) →
      myFT2.command = myFT.command ∧ myFT2.filename = myFT.filename) ∧
    (∀ w0 myFT w1 myFT2, sendListingToClient w0 myFT = some (w1, myFT2) →
      myFT2.command = myFT.command ∧ myFT2.filename = myFT.filename) ∧
    (∀ w0 myFT w1 myFT2, myFT.command = none → myFT.filename = none →
      handleRequest w0 myFT = some (w1, myFT2) → myFT2.commandInvariant = true) ∧
    (∀ r, acceptConnection w controlSocket clientHost = some r →
      r.2.commandInvariant = true) ∧
    (acceptConnection
        (World.sample (str "FTSERVER DATA CONNECTION ACCEPTED")
          (fun _ => OpenResult.opened (File.fresh (str "hello")) (str "Input/output error"))
          (DirResult.error []))
        (Socket.fresh (frame (str "DATA_PORT: 8080") ++ frame (str "-g f.bin")))
        (str "10.0.0.1")).map (fun x => (x.2.command, x.2.filename))
      = some (some (str "-g"), some (str "f.bin")) ∧
    (acceptConnection World.closed
        (Socket.fresh (frame (str "DATA_PORT: 8080") ++ frame (str "-g")))
        (str "10.0.0.1")).map (fun x => (x.2.command, x.2.filename))
      = some (none, none) := by
  have hhandle : ∀ (w0 : World) (myFT : FTInfo) (w1 : World) (myFT2 : FTInfo),
      myFT.command = none → myFT.filename = none →
      handleRequest w0 myFT = some (w1, myFT2) → myFT2.commandInvariant = true := by
    intro w0 myFT w1 myFT2 hc hf h
    rw [commandInvariant_iff]
    rcases handleRequest_keeps _ _ _ _ h with ⟨e1, e2⟩ | ⟨clientRequest, s1, -, e1, e2⟩
    · rw [e1, e2, hc, hf]
      simp
    · exact parsed_state_invariant myFT clientRequest hc hf _ _ e1 e2
  refine ⟨⟨rfl, rfl, rfl, rfl, by simp [FTInfo.commandInvariant, newFTInfo]⟩, ?_, ?_, ?_,
    fun w0 myFT w1 myFT2 h => sendFileToClient_keeps _ _ _ _ h,
    fun w0 myFT w1 myFT2 h => sendListingToClient_keeps _ _ _ _ h, hhandle, ?_,
    by decide, by decide⟩
  · intro valid myFT1 h
    obtain ⟨-, -, f3, f4⟩ := validateControlConnection_fields _ _ _ h
    have f3 : myFT1.command = none := f3
    have f4 : myFT1.filename = none := f4
    refine ⟨f3, f4, ?_⟩
    rw [commandInvariant_iff, f3, f4]
    simp
  · intro myFT clientRequest s1 hc hf
    rw [commandInvariant_iff]
    exact parsed_state_invariant myFT clientRequest hc hf _ _ rfl rfl
  · intro w0 myFT valid w1 myFT2 h
    obtain ⟨port, -, -, -, p1, p2, -⟩ := validateDataConnection_spec _ _ _ _ _ h
    exact ⟨p1, p2⟩
  · intro r h
    unfold acceptConnection at h
    cases hv : validateControlConnection (newFTInfo controlSocket clientHost) with
    | none => simp [hv] at h
    | some x =>
      obtain ⟨valid, myFT1⟩ := x
      obtain ⟨-, -, f3, f4⟩ := validateControlConnection_fields _ _ _ hv
      have f3 : myFT1.command = none := f3
      have f4 : myFT1.filename = none := f4
      simp only [hv] at h
      cases valid with
      | false =>
        simp at h
        subst h
        rw [commandInvariant_iff, f3, f4]
        simp
      | true =>
        simp only [Bool.not_true, Bool.false_eq_true, if_false] at h
        cases hh : handleRequest w myFT1 with
        | none => simp [hh] at h
        | some y =>
          obtain ⟨w1, myFT2⟩ := y
          simp only [hh] at h
          simp at h
          subst h
          exact hhandle _ _ _ _ f3 f4 hh

/-! ## Every session returns -/

/-- When every entry and its newline fit `sendBuffer`, the listing loop
returns. -/
theorem sendListingLoop_isSome (b : Bool) (entries : List (List Nat))
    (hfit : ∀ e ∈ entries, strlen e + 1 ≤ MAX_SEND_SIZE) :
    ∀ (d : Socket) (buf : List Nat) (c t : Nat),
      (sendListingLoop b entries d buf c t).isSome = true := by
  induction entries with
  | nil =>
    intro d buf c t
    simp [sendListingLoop]
  | cons name entries ih =>
    intro d buf c t
    have ih' := ih (fun e he => hfit e (by simp [he]))
    have hname : ¬ (strlen name + 1 > MAX_SEND_SIZE) := by
      have := hfit name (by simp)
      omega
    unfold sendListingLoop
    simp only
    by_cases h1 : (b || isTxtFile name) = true
    · simp only [h1, if_true]
      by_cases h2 : c + (strlen name + 1) > MAX_SEND_SIZE
      · simp only [h2, if_true]
        have hs := sendMessage_isSome d buf
        cases e : sendMessage d buf with
        | none => simp [e] at hs
        | some x =>
          obtain ⟨r, d1⟩ := x
          simp only
          by_cases h3 : r = -1
          · simp [h3]
          · simp only [h3, if_false, hname]
            exact ih' _ _ _ _
      · simp only [h2, if_false]
        exact ih' _ _ _ _
    · simp only [h1, if_false]
      exact ih' _ _ _ _

/-- Under a transport that accepts what is sent, with every entry fitting the
buffer, the loop of `sendListingToClient` sends the frames the accumulation
rule of the specification flushes, and leaves in `sendBuffer` what the rule
leaves; `totalCharsSent` is the number of bytes flushed. -/
theorem sendListingLoop_positive (b : Bool) (entries : List (List Nat))
    (hfit : ∀ e ∈ entries, strlen e + 1 ≤ MAX_SEND_SIZE) :
    ∀ (d : Socket) (buf : List Nat) (t : Nat), positive d.sendSched = true →
      (∀ x ∈ buf, x ≠ 0) → buf.length ≤ MAX_SEND_SIZE → t < ULLONG_MOD →
      ∃ d', sendListingLoop b entries d buf buf.length t
          = some (some ((packEntries MAX_SEND_SIZE (keptEntries b entries) buf).2,
              (packEntries MAX_SEND_SIZE (keptEntries b entries) buf).2.length,
              (t + ((packEntries MAX_SEND_SIZE (keptEntries b entries) buf).1.map
                List.length).sum) % ULLONG_MOD), d') ∧
        d'.outbound = d.outbound ++
          ((packEntries MAX_SEND_SIZE (keptEntries b entries) buf).1.map frame).flatten ∧
        positive d'.sendSched = true ∧
        (∀ x ∈ (packEntries MAX_SEND_SIZE (keptEntries b entries) buf).2, x ≠ 0) ∧
        (packEntries MAX_SEND_SIZE (keptEntries b entries) buf).2.length ≤ MAX_SEND_SIZE := by
  induction entries with
  | nil =>
    intro d buf t hp h0 hlen ht
    refine ⟨d, ?_, by simp [keptEntries, packEntries], hp,
      by simpa [keptEntries, packEntries] using h0, by simpa [keptEntries, packEntries] using hlen⟩
    simp [sendListingLoop, keptEntries, packEntries, Nat.mod_eq_of_lt ht]
  | cons name entries ih =>
    intro d buf t hp h0 hlen ht
    have ih' := ih (fun e he => hfit e (by simp [he]))
    have hname : strlen name + 1 ≤ MAX_SEND_SIZE := hfit name (by simp)
    have he0 : ∀ x ∈ cstr name ++ [10], x ≠ 0 := by
      intro x hx
      rcases List.mem_append.mp hx with h | h
      · exact cstr_no_nul name x h
      · simp at h
        omega
    have helen : (cstr name ++ [10]).length = strlen name + 1 := by simp [strlen]
    unfold sendListingLoop
    simp only
    by_cases h1 : (b || isTxtFile name) = true
    · have hk : keptEntries b (name :: entries)
          = (cstr name ++ [10]) :: keptEntries b entries := by
        simp [keptEntries, List.filter_cons, h1]
      simp only [h1, if_true, hk]
      by_cases h2 : buf.length + (strlen name + 1) > MAX_SEND_SIZE
      · have hp2 : packEntries MAX_SEND_SIZE ((cstr name ++ [10]) :: keptEntries b entries) buf
            = (buf :: (packEntries MAX_SEND_SIZE (keptEntries b entries) (cstr name ++ [10])).1,
                (packEntries MAX_SEND_SIZE (keptEntries b entries) (cstr name ++ [10])).2) := by
          rw [packEntries, helen, if_pos h2]
        obtain ⟨d1, e1, e2, -, -, e5⟩ := sendMessage_frame d buf hp h0
          (by unfold MAX_SEND_SIZE at hlen; omega)
        have hnot : ¬ (strlen name + 1 > MAX_SEND_SIZE) := by omega
        simp only [h2, if_true, e1, show ¬ ((0 : Int) = -1) by decide, if_false, hnot, hp2]
        obtain ⟨d', g1, g2, g3, g4, g5⟩ := ih' d1 (cstr name ++ [10])
          ((t + buf.length) % ULLONG_MOD) e5 he0 (by rw [helen]; exact hname)
          (Nat.mod_lt _ (by decide))
        rw [helen] at g1
        refine ⟨d', ?_, ?_, g3, g4, g5⟩
        · rw [g1]
          simp only [List.map_cons, List.sum_cons, Option.some.injEq, Prod.mk.injEq, true_and,
            and_true]
          rw [Nat.mod_add_mod, Nat.add_assoc]
        · rw [g2, e2]
          simp
      · have hp2 : packEntries MAX_SEND_SIZE ((cstr name ++ [10]) :: keptEntries b entries) buf
            = packEntries MAX_SEND_SIZE (keptEntries b entries) (buf ++ (cstr name ++ [10])) := by
          rw [packEntries, helen, if_neg h2]
        simp only [h2, if_false, hp2]
        obtain ⟨d', g1, g2, g3, g4, g5⟩ := ih' d (buf ++ (cstr name ++ [10])) t hp
          (by
            intro x hx
            rcases List.mem_append.mp hx with h | h
            · exact h0 x h
            · exact he0 x h)
          (by rw [List.length_append, helen]; omega) ht
        rw [List.length_append, helen] at g1
        refine ⟨d', ?_, g2, g3, g4, g5⟩
        rw [← g1, List.append_assoc]
    · have hk : keptEntries b (name :: entries) = keptEntries b entries := by
        simp [keptEntries, List.filter_cons, h1]
      simp only [h1, if_false, hk]
      exact ih' d buf t hp h0 hlen ht

/-- The accumulation rule cuts the entries into groups of whole entries: the
frames flushed and the buffer left are the groups, each group put end to end;
no group is empty or longer than `max`. -/
theorem packEntries_groups (max : Nat) (kept : List (List Nat))
    (hk : ∀ e ∈ kept, e ≠ [] ∧ e.length ≤ max) :
    ∀ (g0 : List (List Nat)), (∀ e ∈ g0, e ≠ []) → g0.flatten.length ≤ max →
      ∃ (groups : List (List (List Nat))) (lastg : List (List Nat)),
        (packEntries max kept g0.flatten).1 = groups.map List.flatten ∧
        (packEntries max kept g0.flatten).2 = lastg.flatten ∧
        groups.flatten ++ lastg = g0 ++ kept ∧
        (∀ g ∈ groups, g ≠ [] ∧ g.flatten.length ≤ max) ∧
        lastg.flatten.length ≤ max ∧ (lastg = [] → g0 = [] ∧ kept = []) ∧
        (∀ e ∈ lastg, e ≠ []) ∧
        (∀ x, g0.head? = some x →
          ∃ g rest, groups ++ [lastg] = g :: rest ∧ g.head? = some x) ∧
        (∀ pre g g' post, groups ++ [lastg] = pre ++ g :: g' :: post →
          ∃ e, g'.head? = some e ∧ max < g.flatten.length + e.length) := by
  induction kept with
  | nil =>
    intro g0 hg0 hlen
    refine ⟨[], g0, by simp [packEntries], by simp [packEntries], by simp, by simp, hlen,
      fun h => ⟨h, rfl⟩, hg0, fun x hx => ⟨g0, [], rfl, hx⟩, ?_⟩
    intro pre g g' post h
    have := congrArg List.length h
    simp at this
    omega
  | cons e kept ih =>
    intro g0 hg0 hlen
    have ih' := ih (fun x hx => hk x (by simp [hx]))
    obtain ⟨hene, helen⟩ := hk e (by simp)
    by_cases h : g0.flatten.length + e.length > max
    · obtain ⟨groups, lastg, a1, a2, a3, a4, a5, a6, a7, a8, a9⟩ := ih' [e]
        (by simpa using hene) (by simpa using helen)
      have he : [e].flatten = e := by simp
      rw [he] at a1 a2
      have hg0ne : g0 ≠ [] := by
        intro hnil
        subst hnil
        simp at h
        omega
      obtain ⟨gfirst, grest, hfirst, hhead⟩ := a8 e rfl
      refine ⟨g0 :: groups, lastg, ?_, ?_, ?_, ?_, a5, ?_, a7, ?_, ?_⟩
      · rw [packEntries, if_pos h]
        simp [a1]
      · rw [packEntries, if_pos h]
        exact a2
      · simp only [List.flatten_cons, List.append_assoc, a3]
        simp
      · intro g hg
        simp only [List.mem_cons] at hg
        rcases hg with rfl | hg
        · exact ⟨hg0ne, hlen⟩
        · exact a4 g hg
      · intro hl
        have := (a6 hl).1
        simp at this
      · intro x hx
        exact ⟨g0, groups ++ [lastg], rfl, hx⟩
      · intro pre g g' post hsplit
        rw [List.cons_append, hfirst] at hsplit
        cases pre with
        | nil =>
          simp only [List.nil_append, List.cons.injEq] at hsplit
          obtain ⟨rfl, rfl, -⟩ := hsplit
          exact ⟨e, hhead, h⟩
        | cons p pre =>
          simp only [List.cons_append, List.cons.injEq] at hsplit
          exact a9 pre g g' post (by rw [hfirst]; exact hsplit.2)
    · obtain ⟨groups, lastg, a1, a2, a3, a4, a5, a6, a7, a8, a9⟩ := ih' (g0 ++ [e])
        (by
          intro x hx
          rcases List.mem_append.mp hx with hx | hx
          · exact hg0 x hx
          · simp at hx
            subst hx
            exact hene)
        (by
          have he : (g0 ++ [e]).flatten = g0.flatten ++ e := by simp
          rw [he, List.length_append]
          omega)
      have he : (g0 ++ [e]).flatten = g0.flatten ++ e := by simp
      rw [he] at a1 a2
      refine ⟨groups, lastg, ?_, ?_, ?_, a4, a5, ?_, a7, ?_, a9⟩
      · rw [packEntries, if_neg h]
        exact a1
      · rw [packEntries, if_neg h]
        exact a2
      · rw [a3]
        simp
      · intro hl
        have := (a6 hl).1
        simp at this
      · intro x hx
        apply a8 x
        rw [List.head?_append, hx]
        rfl

/-- The frames of a listing according to the specification are groups of whole
entries, in order and without gap: put end to end they are the entries put end
to end; no frame is empty or longer than `max`; there is no frame exactly when
there is no entry. -/
theorem listingFrames_spec (max : Nat) (kept : List (List Nat))
    (hk : ∀ e ∈ kept, e ≠ [] ∧ e.length ≤ max) :
    (∃ groups : List (List (List Nat)), groups.flatten = kept ∧
      listingFrames max kept = groups.map List.flatten ∧ (∀ g ∈ groups, g ≠ []) ∧
      ∀ pre g g' post, groups = pre ++ g :: g' :: post →
        ∃ e, g'.head? = some e ∧ max < g.flatten.length + e.length) ∧
    (listingFrames max kept).flatten = kept.flatten ∧
    (∀ f ∈ listingFrames max kept, f ≠ [] ∧ f.length ≤ max) ∧
    (listingFrames max kept = [] ↔ kept = []) ∧
    ((packEntries max kept []).2 = [] ↔ kept = []) ∧
    ((packEntries max kept []).1.map List.length).sum + (packEntries max kept []).2.length
      = kept.flatten.length := by
  obtain ⟨groups, lastg, a1, a2, a3, a4, a5, a6, a7, -, a9⟩ :=
    packEntries_groups max kept hk [] (by simp) (by simp)
  simp only [List.flatten_nil, List.nil_append] at a1 a2 a3
  have hflat : ∀ g : List (List Nat), (∀ e ∈ g, e ≠ []) → g ≠ [] → g.flatten ≠ [] := by
    intro g hg hne
    cases g with
    | nil => exact absurd rfl hne
    | cons x xs =>
      have := hg x (by simp)
      simp [this]
  have hlast : (packEntries max kept []).2 = [] ↔ lastg = [] := by
    rw [a2]
    constructor
    · intro h
      by_contra hne
      exact hflat lastg a7 hne h
    · intro h
      rw [h]
      rfl
  have hlastk : (packEntries max kept []).2 = [] ↔ kept = [] := by
    rw [hlast]
    constructor
    · intro h
      exact (a6 h).2
    · intro h
      subst h
      have : groups.flatten ++ lastg = [] := a3
      exact (List.append_eq_nil.mp this).2
  have hframes : listingFrames max kept
      = (groups ++ (if lastg = [] then [] else [lastg])).map List.flatten := by
    unfold listingFrames
    by_cases hl : lastg = []
    · have : (packEntries max kept []).2.isEmpty = true := by
        rw [List.isEmpty_iff]
        exact hlast.2 hl
      rw [if_pos this, a1]
      simp [hl]
    · have : ¬ ((packEntries max kept []).2.isEmpty = true) := by
        rw [List.isEmpty_iff]
        exact fun h => hl (hlast.1 h)
      rw [if_neg this, a1, a2]
      simp [hl]
  have hgroups : (groups ++ (if lastg = [] then [] else [lastg])).flatten = kept := by
    rw [← a3]
    by_cases hl : lastg = []
    · simp [hl]
    · simp [hl]
  have hne : ∀ g ∈ groups ++ (if lastg = [] then [] else [lastg]),
      g ≠ [] ∧ g.flatten.length ≤ max := by
    intro g hg
    rcases List.mem_append.mp hg with hg | hg
    · exact a4 g hg
    · by_cases hl : lastg = []
      · simp [hl] at hg
      · simp [hl] at hg
        subst hg
        exact ⟨hl, a5⟩
  have hall : ∀ g ∈ groups ++ (if lastg = [] then [] else [lastg]), ∀ e ∈ g, e ≠ [] := by
    intro g hg e he
    have : e ∈ kept := by
      rw [← hgroups]
      exact List.mem_flatten.mpr ⟨g, hg, he⟩
    exact (hk e this).1
  have hadj : ∀ pre g g' post,
      groups ++ (if lastg = [] then [] else [lastg]) = pre ++ g :: g' :: post →
      ∃ e, g'.head? = some e ∧ max < g.flatten.length + e.length := by
    intro pre g g' post hsplit
    by_cases hl : lastg = []
    · have hk0 : kept = [] := (a6 hl).2
      have hg0 : groups = [] := by
        cases hgs : groups with
        | nil => rfl
        | cons x xs =>
          have h3 := a3
          rw [hk0, hgs] at h3
          have := (a4 x (by rw [hgs]; simp)).1
          simp at h3
          exact absurd h3.1 this
      rw [hl, hg0] at hsplit
      have := congrArg List.length hsplit
      simp at this
      omega
    · rw [if_neg hl] at hsplit
      exact a9 pre g g' post hsplit
  refine ⟨⟨_, hgroups, hframes, fun g hg => (hne g hg).1, hadj⟩, ?_, ?_, ?_, hlastk, ?_⟩
  · rw [hframes, ← hgroups]
    generalize groups ++ (if lastg = [] then [] else [lastg]) = gs
    induction gs with
    | nil => rfl
    | cons g gs ih => simp [ih]
  · intro f hf
    rw [hframes] at hf
    obtain ⟨g, hg, rfl⟩ := List.mem_map.mp hf
    exact ⟨hflat g (hall g hg) (hne g hg).1, (hne g hg).2⟩
  · rw [hframes]
    constructor
    · intro h
      rw [← hgroups]
      have := List.map_eq_nil_iff.mp h
      rw [this]
      rfl
    · intro h
      subst h
      have h3 : groups.flatten ++ lastg = [] := a3
      have hl : lastg = [] := (List.append_eq_nil.mp h3).2
      have hg : groups = [] := by
        cases groups with
        | nil => rfl
        | cons g gs =>
          have := (a4 g (by simp)).1
          have hgf : (g :: gs).flatten = [] := (List.append_eq_nil.mp h3).1
          simp at hgf
          exact absurd hgf.1 this
      simp [hl, hg]
  · rw [a1, a2]
    have : kept.flatten = (groups.flatten ++ lastg).flatten := by rw [a3]
    rw [this]
    simp only [List.flatten_append, List.length_append, List.map_map]
    congr 1
    clear a1 a3 a4 a9 hadj this hframes hgroups hne hall
    induction groups with
    | nil => rfl
    | cons g gs ih => simp [ih]

/-- Every kept entry is a name and its newline: it is not empty, holds no
`'\0'`, and fits the buffer when the name does. -/
theorem keptEntries_facts (b : Bool) (entries : List (List Nat))
    (hfit : ∀ e ∈ entries, strlen e + 1 ≤ MAX_SEND_SIZE) :
    ∀ e ∈ keptEntries b entries, e ≠ [] ∧ e.length ≤ MAX_SEND_SIZE := by
  intro e he
  unfold keptEntries at he
  obtain ⟨name, hname, rfl⟩ := List.mem_map.mp he
  have hmem : name ∈ entries := (List.mem_filter.mp hname).1
  refine ⟨by simp, ?_⟩
  have := hfit name hmem
  simpa [strlen] using this

/-- What `sendListingToClient` does when the directory is read without error,
every entry fits the buffer and the transport accepts what is sent.  The loop
sends the frames the accumulation rule flushes.  For a filtered listing without
entry, the message about `.txt` files is sent on the control socket, followed
by the drain-wait read, and the data socket is left alone.  In every other
case the bytes left in the buffer, if any, are sent as one more frame, and then
the success message is sent from the session whose data socket holds that
frame, with the number of bytes of all the entries. -/
theorem sendListingToClient_positive (w : World) (myFT : FTInfo) (command : List Nat)
    (d : Socket) (entries : List (List Nat)) (b : Bool)
    (hc : myFT.command = some command) (hd : myFT.dataSocket = some d)
    (hb : b = (if command = LIST_TXT_FILES then false else true))
    (hdir : w.directory = DirResult.opened entries none)
    (hfit : ∀ e ∈ entries, strlen e + 1 ≤ MAX_SEND_SIZE)
    (hpd : positive d.sendSched = true)
    (hpc : positive myFT.controlSocket.sendSched = true) :
    ∃ w' myFT' d1, sendListingToClient w myFT = some (w', myFT') ∧
      w'.events = w.events ++ [Event.openDir] ∧
      d1.outbound = d.outbound ++
        ((packEntries MAX_SEND_SIZE (keptEntries b entries) []).1.map frame).flatten ∧
      ((b = false ∧ keptEntries b entries = []) →
        d1 = d ∧ myFT'.dataSocket = some d ∧
        myFT'.controlSocket.outbound
          = myFT.controlSocket.outbound ++ frame noTxtFilesMessage ∧
        ∃ sends ret, (∀ x ∈ sends, ∃ n r, x = Call.send n r) ∧
          myFT'.controlSocket.calls
            = myFT.controlSocket.calls ++ sends ++ [Call.recv 1 ret]) ∧
      (¬ (b = false ∧ keptEntries b entries = []) →
        ∃ d2 count, myFT'.dataSocket = some d2 ∧
          ((packEntries MAX_SEND_SIZE (keptEntries b entries) []).2 ≠ [] →
            sendMessage d1 (packEntries MAX_SEND_SIZE (keptEntries b entries) []).2
              = some (0, d2) ∧
            d2.outbound = d1.outbound ++
              frame (packEntries MAX_SEND_SIZE (keptEntries b entries) []).2) ∧
          ((packEntries MAX_SEND_SIZE (keptEntries b entries) []).2 = [] → d2 = d1) ∧
          d2.outbound = d.outbound ++
            ((listingFrames MAX_SEND_SIZE (keptEntries b entries)).map frame).flatten ∧
          sendSuccessMessage { myFT with dataSocket := some d2 } count = some (0, myFT') ∧
          count % ULLONG_MOD = (keptEntries b entries).flatten.length % ULLONG_MOD ∧
          myFT'.controlSocket.outbound = myFT.controlSocket.outbound ++
            frame (successText ((keptEntries b entries).flatten.length % ULLONG_MOD))) := by
  obtain ⟨cs, host, nick, dp, cmd, fn, ds⟩ := myFT
  simp only at hc hd hpc
  subst hc hd
  obtain ⟨-, -, -, -, hlastk, hsum⟩ := listingFrames_spec MAX_SEND_SIZE (keptEntries b entries)
    (keptEntries_facts b entries hfit)
  obtain ⟨d1, g1, g2, g3, g4, g5⟩ := sendListingLoop_positive b entries hfit d [] 0 hpd
    (by simp) (by simp) (by decide)
  simp only [List.length_nil, Nat.zero_add] at g1
  unfold sendListingToClient
  simp only [hdir]
  rw [← hb, g1]
  simp only []
  by_cases hA : b = false ∧ keptEntries b entries = []
  · obtain ⟨hb0, hK⟩ := hA
    have hl : (packEntries MAX_SEND_SIZE (keptEntries b entries) []).2 = [] := hlastk.2 hK
    have hf : (packEntries MAX_SEND_SIZE (keptEntries b entries) []).1 = [] := by
      rw [hK]
      rfl
    have hd1 : d1 = d := by
      have h2 : sendListingLoop b entries d [] 0 0 = some (some ([], 0, 0), d1) := by
        rw [g1, hl, hf]
        rfl
      clear g1 g2 g3 g4 g5 hsum hlastk hl hf hdir hb
      induction entries generalizing d with
      | nil =>
        simp [sendListingLoop] at h2
        exact h2.symm
      | cons name entries ih =>
        have hkeep : (b || isTxtFile name) = false := by
          cases hbt : (b || isTxtFile name) with
          | false => rfl
          | true => simp [keptEntries, List.filter_cons, hbt] at hK
        have hk3 : keptEntries b entries = [] := by
          simpa [keptEntries, List.filter_cons, hkeep] using hK
        unfold sendListingLoop at h2
        simp only [hkeep, Bool.false_eq_true, if_false] at h2
        exact ih d (fun e he => hfit e (by simp [he])) hpd hk3 h2
    subst hd1
    obtain ⟨s1, e1, e2, -, -, -⟩ := sendMessage_frame cs noTxtFilesMessage hpc (by decide)
      (by decide)
    obtain ⟨sends, c1, c2⟩ := sendMessage_calls _ _ _ _ e1
    obtain ⟨w1, w2, -⟩ := waitToCloseDataSocket_fields
      { controlSocket := s1, clientHost := host, clientNickname := nick, dataPort := dp,
        command := some command, filename := fn, dataSocket := some d1 }
    have hcond : (!b && (packEntries MAX_SEND_SIZE (keptEntries b entries) []).2.length == 0 &&
        ((packEntries MAX_SEND_SIZE (keptEntries b entries) []).1.map List.length).sum
          % ULLONG_MOD == 0) = true := by
      rw [hl, hf, hb0]
      rfl
    rw [if_pos hcond, e1]
    simp only [show ¬ ((0 : Int) = -1) by decide, if_false]
    refine ⟨_, _, d1, rfl, rfl, g2, ?_, ?_⟩
    · intro _
      refine ⟨rfl, rfl, ?_, sends, (recv s1 1).1, c2, ?_⟩
      · rw [w1]
        exact e2
      · rw [w2]
        show s1.calls ++ _ = _
        rw [c1]
    · intro hn
      exact absurd ⟨hb0, hK⟩ hn
  · have hcond : ¬ ((!b && (packEntries MAX_SEND_SIZE (keptEntries b entries) []).2.length == 0 &&
        ((packEntries MAX_SEND_SIZE (keptEntries b entries) []).1.map List.length).sum
          % ULLONG_MOD == 0) = true) := by
      by_cases hb1 : b = true
      · simp [hb1]
      · have hb0 : b = false := by simpa using hb1
        have hK : keptEntries b entries ≠ [] := fun h => hA ⟨hb0, h⟩
        have hl : (packEntries MAX_SEND_SIZE (keptEntries b entries) []).2 ≠ [] :=
          fun h => hK (hlastk.1 h)
        have : (packEntries MAX_SEND_SIZE (keptEntries b entries) []).2.length ≠ 0 := by
          intro h0
          exact hl (List.length_eq_zero.mp h0)
        simp [this]
    rw [if_neg hcond]
    by_cases hl : (packEntries MAX_SEND_SIZE (keptEntries b entries) []).2 = []
    · have hlen0 : ¬ ((packEntries MAX_SEND_SIZE (keptEntries b entries) []).2.length > 0) := by
        rw [hl]
        simp
      rw [if_neg hlen0]
      obtain ⟨myFT', e1, e2, e3⟩ := sendSuccessMessage_positive
        { controlSocket := cs, clientHost := host, clientNickname := nick, dataPort := dp,
          command := some command, filename := fn, dataSocket := some d1 }
        (((packEntries MAX_SEND_SIZE (keptEntries b entries) []).1.map List.length).sum
          % ULLONG_MOD) hpc
      have hcount : ((packEntries MAX_SEND_SIZE (keptEntries b entries) []).1.map List.length).sum
          = (keptEntries b entries).flatten.length := by
        rw [← hsum, hl]
        simp
      rw [hcount, Nat.mod_mod] at e2
      rw [e1]
      simp only []
      refine ⟨_, myFT', d1, rfl, rfl, g2, fun h => absurd h hA, fun _ => ?_⟩
      refine ⟨d1, _, e3, fun h => absurd hl h, fun _ => rfl, ?_, e1, ?_, e2⟩
      · rw [g2]
        unfold listingFrames
        simp [hl]
      · rw [hcount, Nat.mod_mod]
    · have hlen1 : (packEntries MAX_SEND_SIZE (keptEntries b entries) []).2.length > 0 :=
        List.length_pos.mpr hl
      rw [if_pos hlen1]
      obtain ⟨d2, e1, e2, -, -, -⟩ := sendMessage_frame d1
        (packEntries MAX_SEND_SIZE (keptEntries b entries) []).2 g3 g4
        (by
          have h10 : MAX_SEND_SIZE = 10000 := rfl
          omega)
      rw [e1]
      simp only [show ¬ ((0 : Int) = -1) by decide, if_false]
      obtain ⟨myFT', f1, f2, f3⟩ := sendSuccessMessage_positive
        { controlSocket := cs, clientHost := host, clientNickname := nick, dataPort := dp,
          command := some command, filename := fn, dataSocket := some d2 }
        ((((packEntries MAX_SEND_SIZE (keptEntries b entries) []).1.map List.length).sum
          % ULLONG_MOD + (packEntries MAX_SEND_SIZE (keptEntries b entries) []).2.length)
          % ULLONG_MOD) hpc
      have hcount : ((((packEntries MAX_SEND_SIZE (keptEntries b entries) []).1.map
            List.length).sum % ULLONG_MOD +
            (packEntries MAX_SEND_SIZE (keptEntries b entries) []).2.length) % ULLONG_MOD)
          = (keptEntries b entries).flatten.length % ULLONG_MOD := by
        rw [← hsum, Nat.mod_add_mod]
      rw [Nat.mod_mod, hcount] at f2
      rw [f1]
      simp only []
      refine ⟨_, myFT', d1, rfl, rfl, g2, fun h => absurd h hA, fun _ => ?_⟩
      refine ⟨d2, _, f3, fun _ => ⟨e1, e2⟩, fun h => absurd h hl, ?_, f1, ?_, f2⟩
      · rw [e2, g2]
        unfold listingFrames
        have : ¬ ((packEntries MAX_SEND_SIZE (keptEntries b entries) []).2.isEmpty = true) := by
          rw [List.isEmpty_iff]
          exact hl
        simp [this]
      · rw [Nat.mod_mod, hcount]

set_option maxRecDepth 100000 in
/-- C21: for a listing command (`-l` or `-ltxt`), a directory read without
error whose names are all shorter than 10000 bytes, and a transport that
accepts what is sent, `sendListingToClient` sends on the data socket exactly
the frames the specification describes: the kept entries (every name for `-l`,
the names `isTxtFile` accepts for `-ltxt`, each followed by a newline, in the
order of the enumeration) accumulated in a buffer that is flushed as one frame
whenever the next entry would exceed 10000 bytes, and once more at the end if
it is not empty.  The payloads of these frames put end to end are the kept
entries put end to end; every frame holds at least one and at most 10000
bytes; the frames are groups of whole entries; and the first entry of each
frame after the first would not have fitted the frame before it.  In the
session asking `-ltxt` of a directory holding `a.txt` and `b.log`, the data
socket gets, after the handshake, the one frame of `a.txt` and a newline, and
the control socket `SUCCESS! 6 bytes sent over data connection.`. -/
theorem sendListingToClient_frames (w : World) (myFT : FTInfo) (command : List Nat)
    (d : Socket) (entries : List (List Nat)) (includeAllFiles : Bool)
    (hc : myFT.command = some command)
    (hcmd : command = LIST_FILES ∨ command = LIST_TXT_FILES)
    (hd : myFT.dataSocket = some d)
    (hb : includeAllFiles = (if command = LIST_TXT_FILES then false else true))
    (hdir : w.directory = DirResult.opened entries none)
    (hfit : ∀ e ∈ entries, strlen e < 10000)
    (hpd : positive d.sendSched = true)
    (hpc : positive myFT.controlSocket.sendSched = true) :
    (∃ w' myFT' d', sendListingToClient w myFT = some (w', myFT') ∧
      myFT'.dataSocket = some d' ∧
      d'.outbound = d.outbound ++
        ((listingFrames MAX_SEND_SIZE (keptEntries includeAllFiles entries)).map frame).flatten) ∧
    MAX_SEND_SIZE = 10000 ∧
    ((command = LIST_FILES ∧
        keptEntries includeAllFiles entries = entries.map (fun e => cstr e ++ [10])) ∨
      (command = LIST_TXT_FILES ∧
        keptEntries includeAllFiles entries
          = (entries.filter isTxtFile).map (fun e => cstr e ++ [10]))) ∧
    (listingFrames MAX_SEND_SIZE (keptEntries includeAllFiles entries)).flatten
      = (keptEntries includeAllFiles entries).flatten ∧
    (∀ f ∈ listingFrames MAX_SEND_SIZE (keptEntries includeAllFiles entries),
      f ≠ [] ∧ f.length ≤ MAX_SEND_SIZE) ∧
    (∃ groups : List (List (List Nat)), groups.flatten = keptEntries includeAllFiles entries ∧
      listingFrames MAX_SEND_SIZE (keptEntries includeAllFiles entries)
        = groups.map List.flatten ∧
      (∀ g ∈ groups, g ≠ []) ∧
      ∀ pre g g' post, groups = pre ++ g :: g' :: post →
        ∃ e, g'.head? = some e ∧ MAX_SEND_SIZE < g.flatten.length + e.length) ∧
    (acceptConnection
        (World.sample (str "FTSERVER DATA CONNECTION ACCEPTED") (fun _ => OpenResult.error [])
          (DirResult.opened [str "a.txt", str "b.log"] none))
        (Socket.fresh (frame (str "DATA_PORT: 8080") ++ frame (str "-ltxt")))
        (str "10.0.0.1")).map
        (fun x => (x.2.dataSocket.map (fun d => d.outbound), x.2.controlSocket.outbound))
      = some (some (frame (str "FTSERVER DATA CONNECTION INITIALIZATION") ++
            frame (str "a.txt" ++ [10])),
          frame (str "FTSERVER CONNECTION ESTABLISHED") ++
            frame (str "SUCCESS! 6 bytes sent over data connection.")) := by
  have hfit' : ∀ e ∈ entries, strlen e + 1 ≤ MAX_SEND_SIZE := by
    intro e he
    have := hfit e he
    unfold MAX_SEND_SIZE
    omega
  obtain ⟨s1, s2, s3, -, -, -⟩ := listingFrames_spec MAX_SEND_SIZE
    (keptEntries includeAllFiles entries) (keptEntries_facts includeAllFiles entries hfit')
  refine ⟨?_, rfl, ?_, s2, s3, s1, by decide⟩
  · obtain ⟨w', myFT', d1, r1, -, r3, r4, r5⟩ := sendListingToClient_positive w myFT command d
      entries includeAllFiles hc hd hb hdir hfit' hpd hpc
    by_cases hA : includeAllFiles = false ∧ keptEntries includeAllFiles entries = []
    · obtain ⟨-, q2, -⟩ := r4 hA
      refine ⟨w', myFT', d, r1, q2, ?_⟩
      rw [hA.2]
      simp [listingFrames, packEntries]
    · obtain ⟨d2, count, q1, -, -, q4, -⟩ := r5 hA
      exact ⟨w', myFT', d2, r1, q1, q4⟩
  · rcases hcmd with h | h
    · left
      refine ⟨h, ?_⟩
      have : includeAllFiles = true := by
        rw [hb, h]
        decide
      subst this
      simp [keptEntries]
    · right
      refine ⟨h, ?_⟩
      have : includeAllFiles = false := by
        rw [hb, h]
        decide
      subst this
      simp [keptEntries]

set_option maxRecDepth 100000 in
theorem sendListingToClient_frames_witness :
    (∃ w' myFT' d', sendListingToClient 
        (World.sample (str "") (fun _ => OpenResult.error [])
        (DirResult.opened [str "notes.txt", str "Makefile", str "b.txt"] none))
         ({ FTInfo.sample (str "") with
        command := some LIST_TXT_FILES, dataSocket := some (Socket.fresh []) } : FTInfo) = some (w', myFT') ∧
      myFT'.dataSocket = some d' ∧
      d'.outbound = (Socket.fresh []).outbound ++
        ((listingFrames MAX_SEND_SIZE (keptEntries false [str "notes.txt", str "Makefile", str "b.txt"])).map frame).flatten) ∧
    MAX_SEND_SIZE = 10000 ∧
    ((LIST_TXT_FILES = LIST_FILES ∧
        keptEntries false [str "notes.txt", str "Makefile", str "b.txt"] = [str "notes.txt", str "Makefile", str "b.txt"].map (fun e => cstr e ++ [10])) ∨
      (LIST_TXT_FILES = LIST_TXT_FILES ∧
        keptEntries false [str "notes.txt", str "Makefile", str "b.txt"]
          = ([str "notes.txt", str "Makefile", str "b.txt"].filter isTxtFile).map (fun e => cstr e ++ [10]))) ∧
    (listingFrames MAX_SEND_SIZE (keptEntries false [str "notes.txt", str "Makefile", str "b.txt"])).flatten
      = (keptEntries false [str "notes.txt", str "Makefile", str "b.txt"]).flatten ∧
    (∀ f ∈ listingFrames MAX_SEND_SIZE (keptEntries false [str "notes.txt", str "Makefile", str "b.txt"]),
      f ≠ [] ∧ f.length ≤ MAX_SEND_SIZE) ∧
    (∃ groups : List (List (List Nat)), groups.flatten = keptEntries false [str "notes.txt", str "Makefile", str "b.txt"] ∧
      listingFrames MAX_SEND_SIZE (keptEntries false [str "notes.txt", str "Makefile", str "b.txt"])
        = groups.map List.flatten ∧
      (∀ g ∈ groups, g ≠ []) ∧
      ∀ pre g g' post, groups = pre ++ g :: g' :: post →
        ∃ e, g'.head? = some e ∧ MAX_SEND_SIZE < g.flatten.length + e.length) ∧
    (acceptConnection
        (World.sample (str "FTSERVER DATA CONNECTION ACCEPTED") (fun _ => OpenResult.error [])
          (DirResult.opened [str "a.txt", str "b.log"] none))
        (Socket.fresh (frame (str "DATA_PORT: 8080") ++ frame (str "-ltxt")))
        (str "10.0.0.1")).map
        (fun x => (x.2.dataSocket.map (fun d => d.outbound), x.2.controlSocket.outbound))
      = some (some (frame (str "FTSERVER DATA CONNECTION INITIALIZATION") ++
            frame (str "a.txt" ++ [10])),
          frame (str "FTSERVER CONNECTION ESTABLISHED") ++
            frame (str "SUCCESS! 6 bytes sent over data connection.")) :=
  sendListingToClient_frames
    (World.sample (str "") (fun _ => OpenResult.error [])
        (DirResult.opened [str "notes.txt", str "Makefile", str "b.txt"] none))
    ({ FTInfo.sample (str "") with
        command := some LIST_TXT_FILES, dataSocket := some (Socket.fresh []) } : FTInfo)
    LIST_TXT_FILES (Socket.fresh []) [str "notes.txt", str "Makefile", str "b.txt"] false
    rfl (Or.inr rfl) rfl (by decide) rfl (by decide) (by decide) (by decide)

/-- The loop of a filtered listing over entries none of which `isTxtFile`
accepts sends nothing and leaves its variables as they are. -/
theorem sendListingLoop_skip (entries : List (List Nat))
    (h : ∀ e ∈ entries, isTxtFile e = false) :
    ∀ (d : Socket) (buf : List Nat) (c t : Nat),
      sendListingLoop false entries d buf c t = some (some (buf, c, t), d) := by
  induction entries with
  | nil =>
    intro d buf c t
    simp [sendListingLoop]
  | cons name entries ih =>
    intro d buf c t
    have hn : isTxtFile name = false := h name (by simp)
    unfold sendListingLoop
    simp only [hn, Bool.or_self, Bool.false_eq_true, if_false]
    exact ih (fun e he => h e (by simp [he])) d buf c t

/-- C22: for the command `-ltxt` over a directory read without error in which
`isTxtFile` accepts no name, with a transport that accepts the message,
`sendListingToClient` sends the message
`There are no files with the .txt extension in this directory.` on the control
socket and nothing else (no success message), leaves the data socket as it was
(no frame), and goes on to the drain-wait: the last call on the control socket
is one `recv` of one byte, after the `send` calls. -/
theorem sendListingToClient_no_txt_files (w : World) (myFT : FTInfo) (d : Socket)
    (entries : List (List Nat))
    (hc : myFT.command = some LIST_TXT_FILES) (hd : myFT.dataSocket = some d)
    (hdir : w.directory = DirResult.opened entries none)
    (hnone : ∀ e ∈ entries, isTxtFile e = false)
    (hpc : positive myFT.controlSocket.sendSched = true) :
    ∃ w' myFT', sendListingToClient w myFT = some (w', myFT') ∧
      w'.events = w.events ++ [Event.openDir] ∧
      myFT'.dataSocket = some d ∧
      myFT'.controlSocket.outbound = myFT.controlSocket.outbound ++
        frame (str "There are no files with the .txt extension in this directory.") ∧
      (¬ ∃ N, myFT'.controlSocket.outbound
        = myFT.controlSocket.outbound ++ frame (successText N)) ∧
      ∃ sends ret, (∀ x ∈ sends, ∃ n r, x = Call.send n r) ∧
        myFT'.controlSocket.calls
          = myFT.controlSocket.calls ++ sends ++ [Call.recv 1 ret] := by
  obtain ⟨cs, host, nick, dp, cmd, fn, ds⟩ := myFT
  simp only at hc hd hpc
  subst hc hd
  obtain ⟨s1, e1, e2, -, -, -⟩ := sendMessage_frame cs noTxtFilesMessage hpc (by decide)
    (by decide)
  obtain ⟨sends, c1, c2⟩ := sendMessage_calls _ _ _ _ e1
  obtain ⟨w1, w2, -⟩ := waitToCloseDataSocket_fields
    { controlSocket := s1, clientHost := host, clientNickname := nick, dataPort := dp,
      command := some LIST_TXT_FILES, filename := fn, dataSocket := some d }
  have hout : (waitToCloseDataSocket
      { controlSocket := s1, clientHost := host, clientNickname := nick, dataPort := dp,
        command := some LIST_TXT_FILES, filename := fn,
        dataSocket := some d }).controlSocket.outbound
      = cs.outbound ++ frame noTxtFilesMessage := by
    rw [w1]
    exact e2
  unfold sendListingToClient
  simp only [hdir, if_true]
  rw [sendListingLoop_skip entries hnone]
  simp only [Bool.not_false, beq_self_eq_true, Bool.and_self, if_true, e1,
    show ¬ ((0 : Int) = -1) by decide, if_false]
  refine ⟨_, _, rfl, rfl, rfl, hout, ?_, sends, (recv s1 1).1, c2, ?_⟩
  · rintro ⟨N, hN⟩
    rw [hout] at hN
    have := frame_inj _ _ (List.append_cancel_left hN)
    have hpre : str "SUCCESS! " <+: noTxtFilesMessage := by
      rw [this]
      unfold successText
      rw [List.append_assoc]
      exact List.prefix_append _ _
    revert hpre
    decide
  · rw [w2]
    show s1.calls ++ _ = _
    rw [c1]

theorem sendListingToClient_no_txt_files_witness :
    ∃ w' myFT', sendListingToClient
        (World.sample (str "") (fun _ => OpenResult.error [])
        (DirResult.opened [str "b.log", str "a.TXT", str "txt"] none))
        ({ FTInfo.sample (str "") with
        command := some LIST_TXT_FILES, dataSocket := some (Socket.fresh []) } : FTInfo) = some (w', myFT') ∧
      w'.events =  (World.sample (str "") (fun _ => OpenResult.error [])
        (DirResult.opened [str "b.log", str "a.TXT", str "txt"] none)).events ++ [Event.openDir] ∧
      myFT'.dataSocket = some (Socket.fresh []) ∧
      myFT'.controlSocket.outbound = ({ FTInfo.sample (str "") with
        command := some LIST_TXT_FILES, dataSocket := some (Socket.fresh []) } : FTInfo).controlSocket.outbound ++
        frame (str "There are no files with the .txt extension in this directory.") ∧
      (¬ ∃ N, myFT'.controlSocket.outbound
        = ({ FTInfo.sample (str "") with
        command := some LIST_TXT_FILES, dataSocket := some (Socket.fresh []) } : FTInfo).controlSocket.outbound ++ frame (successText N)) ∧
      ∃ sends ret, (∀ x ∈ sends, ∃ n r, x = Call.send n r) ∧
        myFT'.controlSocket.calls
          = ({ FTInfo.sample (str "") with
        command := some LIST_TXT_FILES, dataSocket := some (Socket.fresh []) } : FTInfo).controlSocket.calls ++ sends ++ [Call.recv 1 ret] :=
  sendListingToClient_no_txt_files
    (World.sample (str "") (fun _ => OpenResult.error [])
        (DirResult.opened [str "b.log", str "a.TXT", str "txt"] none))
    ({ FTInfo.sample (str "") with
        command := some LIST_TXT_FILES, dataSocket := some (Socket.fresh []) } : FTInfo)
    (Socket.fresh []) [str "b.log", str "a.TXT", str "txt"] rfl rfl rfl (by decide) (by decide)

/-- Whatever the transport does, when the loop of `sendListingToClient` ends
without a failed `sendMessage`, it has sent the frames the accumulation rule
of the specification flushes and leaves in `sendBuffer` what the rule leaves. -/
theorem sendListingLoop_general (b : Bool) (entries : List (List Nat))
    (hfit : ∀ e ∈ entries, strlen e + 1 ≤ MAX_SEND_SIZE) :
    ∀ (d : Socket) (buf : List Nat) (t : Nat),
      (∀ x ∈ buf, x ≠ 0) → buf.length ≤ MAX_SEND_SIZE → t < ULLONG_MOD →
      ∀ (d1 : Socket) (buf1 : List Nat) (c1 t1 : Nat),
        sendListingLoop b entries d buf buf.length t = some (some (buf1, c1, t1), d1) →
        buf1 = (packEntries MAX_SEND_SIZE (keptEntries b entries) buf).2 ∧
        c1 = buf1.length ∧
        t1 = (t + ((packEntries MAX_SEND_SIZE (keptEntries b entries) buf).1.map
                List.length).sum) % ULLONG_MOD ∧
        d1.outbound = d.outbound ++
          ((packEntries MAX_SEND_SIZE (keptEntries b entries) buf).1.map frame).flatten ∧
        (∀ x ∈ buf1, x ≠ 0) ∧ buf1.length ≤ MAX_SEND_SIZE := by
  induction entries with
  | nil =>
    intro d buf t h0 hlen ht d1 buf1 c1 t1 h
    simp only [sendListingLoop, Option.some.injEq, Prod.mk.injEq] at h
    obtain ⟨⟨rfl, rfl, rfl⟩, rfl⟩ := h
    refine ⟨by simp [keptEntries, packEntries], rfl,
      by simp [keptEntries, packEntries, Nat.mod_eq_of_lt ht],
      by simp [keptEntries, packEntries], h0, hlen⟩
  | cons name entries ih =>
    intro d buf t h0 hlen ht d1 buf1 c1 t1 h
    have ih' := ih (fun e he => hfit e (by simp [he]))
    have hname : strlen name + 1 ≤ MAX_SEND_SIZE := hfit name (by simp)
    have he0 : ∀ x ∈ cstr name ++ [10], x ≠ 0 := by
      intro x hx
      rcases List.mem_append.mp hx with h | h
      · exact cstr_no_nul name x h
      · simp at h
        omega
    have helen : (cstr name ++ [10]).length = strlen name + 1 := by simp [strlen]
    unfold sendListingLoop at h
    simp only at h
    by_cases h1 : (b || isTxtFile name) = true
    · have hk : keptEntries b (name :: entries)
          = (cstr name ++ [10]) :: keptEntries b entries := by
        simp [keptEntries, List.filter_cons, h1]
      simp only [h1, if_true] at h
      rw [hk]
      by_cases h2 : buf.length + (strlen name + 1) > MAX_SEND_SIZE
      · have hp2 : packEntries MAX_SEND_SIZE ((cstr name ++ [10]) :: keptEntries b entries) buf
            = (buf :: (packEntries MAX_SEND_SIZE (keptEntries b entries) (cstr name ++ [10])).1,
                (packEntries MAX_SEND_SIZE (keptEntries b entries) (cstr name ++ [10])).2) := by
          rw [packEntries, helen, if_pos h2]
        have hnot : ¬ (strlen name + 1 > MAX_SEND_SIZE) := by omega
        simp only [h2, if_true] at h
        cases e : sendMessage d buf with
        | none => simp [e] at h
        | some x =>
          obtain ⟨r, d0⟩ := x
          simp only [e] at h
          by_cases hr : r = -1
          · simp [hr] at h
          · simp only [hr, if_false, hnot] at h
            obtain ⟨hr01, hout, -, -⟩ := sendMessage_result d d0 buf r e
            have hr0 : r = 0 := by
              rcases hr01 with h' | h'
              · exact h'
              · exact absurd h' hr
            have hc : cstr buf = buf := cstr_eq_self h0
            have hl : strlen buf = buf.length := by unfold strlen; rw [hc]
            have hout := hout hr0
            rw [wire_of_lt buf (by rw [hl]; unfold MAX_SEND_SIZE at hlen; omega), hl, hc] at hout
            rw [← helen] at h
            obtain ⟨g1, g2, g3, g4, g5, g6⟩ := ih' d0 (cstr name ++ [10])
              ((t + buf.length) % ULLONG_MOD) he0 (by rw [helen]; exact hname)
              (Nat.mod_lt _ (by decide)) d1 buf1 c1 t1 h
            rw [hp2]
            refine ⟨g1, g2, ?_, ?_, g5, g6⟩
            · rw [g3]
              simp only [List.map_cons, List.sum_cons]
              rw [Nat.mod_add_mod, Nat.add_assoc]
            · rw [g4, hout]
              simp [frame]
      · have hp2 : packEntries MAX_SEND_SIZE ((cstr name ++ [10]) :: keptEntries b entries) buf
            = packEntries MAX_SEND_SIZE (keptEntries b entries) (buf ++ (cstr name ++ [10])) := by
          rw [packEntries, helen, if_neg h2]
        simp only [h2, if_false] at h
        rw [hp2]
        have hl2 : (buf ++ (cstr name ++ [10])).length = buf.length + (strlen name + 1) := by
          rw [List.length_append, helen]
        rw [← hl2, ← List.append_assoc] at h
        rw [← List.append_assoc]
        exact ih' d (buf ++ cstr name ++ [10]) t
          (by
            intro x hx
            rw [List.append_assoc] at hx
            rcases List.mem_append.mp hx with h | h
            · exact h0 x h
            · exact he0 x h)
          (by rw [List.append_assoc, hl2]; omega) ht d1 buf1 c1 t1 h
    · have hk : keptEntries b (name :: entries) = keptEntries b entries := by
        simp [keptEntries, List.filter_cons, h1]
      simp only [h1, if_false] at h
      rw [hk]
      exact ih' d buf t h0 hlen ht d1 buf1 c1 t1 h

/-- The order of the last steps of `sendListingToClient`, whatever the data
transport does, for a directory read without error in every case but that of
the filtered listing which keeps no entry.  When a `sendMessage` of the loop
fails the function returns with the control socket untouched.  When the loop
ends, the bytes remaining in the buffer, if any, are given to `sendMessage`
first: when it fails the function returns with the control socket untouched;
only when it returned `0` (or nothing remained) is the success message sent,
from the session whose data socket holds every frame of the listing. -/
theorem sendListingToClient_order (w : World) (myFT : FTInfo) (command : List Nat)
    (d : Socket) (entries : List (List Nat)) (b : Bool)
    (hc : myFT.command = some command) (hd : myFT.dataSocket = some d)
    (hb : b = (if command = LIST_TXT_FILES then false else true))
    (hdir : w.directory = DirResult.opened entries none)
    (hfit : ∀ e ∈ entries, strlen e + 1 ≤ MAX_SEND_SIZE)
    (hpc : positive myFT.controlSocket.sendSched = true)
    (hcase : ¬ (b = false ∧ keptEntries b entries = [])) :
    (∀ d1, sendListingLoop b entries d [] 0 0 = some (none, d1) →
      ∃ w', sendListingToClient w myFT = some (w', { myFT with dataSocket := some d1 })) ∧
    (∀ d1 buf c t, sendListingLoop b entries d [] 0 0 = some (some (buf, c, t), d1) →
      buf = (packEntries MAX_SEND_SIZE (keptEntries b entries) []).2 ∧
      c = buf.length ∧
      d1.outbound = d.outbound ++
        ((packEntries MAX_SEND_SIZE (keptEntries b entries) []).1.map frame).flatten ∧
      ∃ r d2 w' myFT',
        (buf ≠ [] → sendMessage d1 buf = some (r, d2)) ∧
        (buf = [] → r = 0 ∧ d2 = d1) ∧
        sendListingToClient w myFT = some (w', myFT') ∧
        (r = -1 → myFT' = { myFT with dataSocket := some d2 }) ∧
        (r ≠ -1 →
          d2.outbound = d.outbound ++
            ((listingFrames MAX_SEND_SIZE (keptEntries b entries)).map frame).flatten ∧
          sendSuccessMessage { myFT with dataSocket := some d2 } ((t + c) % ULLONG_MOD)
            = some (0, myFT') ∧
          myFT'.dataSocket = some d2 ∧
          myFT'.controlSocket.outbound = myFT.controlSocket.outbound ++
            frame (successText ((keptEntries b entries).flatten.length % ULLONG_MOD)))) := by
  obtain ⟨cs, host, nick, dp, cmd, fn, ds⟩ := myFT
  obtain ⟨peer, files, dir, events⟩ := w
  simp only at hc hd hpc hdir
  subst hc hd hdir
  obtain ⟨-, -, -, -, hlastk, hsum⟩ := listingFrames_spec MAX_SEND_SIZE (keptEntries b entries)
    (keptEntries_facts b entries hfit)
  constructor
  · intro d1 hloop
    refine ⟨{ dataPeer := peer, files := files, directory := DirResult.opened entries none,
              events := events ++ [Event.openDir] }, ?_⟩
    unfold sendListingToClient
    dsimp only []
    rw [← hb, hloop]
  · intro d1 buf c t hloop
    obtain ⟨g1, g2, g3, g4, g5, g6⟩ := sendListingLoop_general b entries hfit d [] 0
      (by simp) (by simp) (by decide) d1 buf c t hloop
    simp only [Nat.zero_add] at g3
    refine ⟨g1, g2, g4, ?_⟩
    have hcond : ¬ ((!b && c == 0 && t == 0) = true) := by
      by_cases hb1 : b = true
      · simp [hb1]
      · have hb0 : b = false := by simpa using hb1
        have hK : keptEntries b entries ≠ [] := fun h => hcase ⟨hb0, h⟩
        have hl : buf ≠ [] := by
          rw [g1]
          exact fun h => hK (hlastk.1 h)
        have : c ≠ 0 := by
          rw [g2]
          intro h0
          exact hl (List.length_eq_zero.mp h0)
        simp [this]
    by_cases hl : buf = []
    · have hc0 : ¬ (c > 0) := by
        rw [g2, hl]
        simp
      obtain ⟨myFT', e1, e2, e3⟩ := sendSuccessMessage_positive
        { controlSocket := cs, clientHost := host, clientNickname := nick, dataPort := dp,
          command := some command, filename := fn, dataSocket := some d1 } t hpc
      have hl2 : (packEntries MAX_SEND_SIZE (keptEntries b entries) []).2 = [] := by
        rw [← g1]
        exact hl
      have hcount : ((packEntries MAX_SEND_SIZE (keptEntries b entries) []).1.map List.length).sum
          = (keptEntries b entries).flatten.length := by
        rw [← hsum, hl2]
        simp
      have hc00 : c = 0 := by omega
      have ht : (t + c) % ULLONG_MOD = t := by
        rw [hc00, Nat.add_zero, g3, Nat.mod_mod]
      rw [g3, Nat.mod_mod, hcount] at e2
      refine ⟨0, d1,
        { dataPeer := peer, files := files, directory := DirResult.opened entries none,
          events := events ++ [Event.openDir] },
        myFT', fun h => absurd hl h, fun _ => ⟨rfl, rfl⟩, ?_,
        fun h => absurd h (by decide), fun _ => ⟨?_, ?_, e3, e2⟩⟩
      · unfold sendListingToClient
        dsimp only []
        rw [← hb, hloop]
        dsimp only []
        rw [if_neg hcond, if_neg hc0, e1]
      · rw [g4]
        unfold listingFrames
        simp [hl2]
      · rw [ht]
        exact e1
    · have hc1 : c > 0 := by
        rw [g2]
        exact List.length_pos.mpr hl
      have hs := sendMessage_isSome d1 buf
      cases e : sendMessage d1 buf with
      | none => simp [e] at hs
      | some x =>
        obtain ⟨r, d2⟩ := x
        by_cases hr : r = -1
        · refine ⟨r, d2,
        { dataPeer := peer, files := files, directory := DirResult.opened entries none,
          events := events ++ [Event.openDir] },
        _, fun _ => rfl, fun h => absurd h hl, ?_, fun _ => rfl,
            fun h => absurd hr h⟩
          unfold sendListingToClient
          dsimp only []
          rw [← hb, hloop]
          dsimp only []
          rw [if_neg hcond, if_pos hc1, e]
          dsimp only []
          rw [if_pos hr]
        · obtain ⟨hr01, hout, -, -⟩ := sendMessage_result d1 d2 buf r e
          have hr0 : r = 0 := by
            rcases hr01 with h' | h'
            · exact h'
            · exact absurd h' hr
          have hcb : cstr buf = buf := cstr_eq_self g5
          have hlb : strlen buf = buf.length := by unfold strlen; rw [hcb]
          have hout := hout hr0
          rw [wire_of_lt buf (by rw [hlb]; unfold MAX_SEND_SIZE at g6; omega), hlb, hcb] at hout
          obtain ⟨myFT', f1, f2, f3⟩ := sendSuccessMessage_positive
            { controlSocket := cs, clientHost := host, clientNickname := nick, dataPort := dp,
              command := some command, filename := fn, dataSocket := some d2 }
            ((t + c) % ULLONG_MOD) hpc
          have hcount : (t + c) % ULLONG_MOD
              = (keptEntries b entries).flatten.length % ULLONG_MOD := by
            rw [g3, g2, g1, ← hsum, Nat.mod_add_mod]
          rw [Nat.mod_mod, hcount] at f2
          refine ⟨r, d2,
        { dataPeer := peer, files := files, directory := DirResult.opened entries none,
          events := events ++ [Event.openDir] },
        myFT', fun _ => rfl, fun h => absurd h hl, ?_,
            fun h => absurd h hr, fun _ => ⟨?_, f1, f3, f2⟩⟩
          · unfold sendListingToClient
            dsimp only []
            rw [← hb, hloop]
            dsimp only []
            rw [if_neg hcond, if_pos hc1, e]
            dsimp only []
            rw [if_neg hr, f1]
          · rw [hout, g4]
            unfold listingFrames
            have hne : ¬ ((packEntries MAX_SEND_SIZE (keptEntries b entries) []).2.isEmpty
                = true) := by
              rw [List.isEmpty_iff, ← g1]
              exact hl
            rw [if_neg hne, ← g1]
            simp [frame]

set_option maxRecDepth 100000 in
/-- C23: the end of a listing.  For the command `-l` over a directory without
entry, with a transport that accepts the message, `sendListingToClient` leaves
the data socket as it was (no frame) and sends
`SUCCESS! 0 bytes sent over data connection.` on the control socket.  For a
listing command over a directory read without error whose names fit the
buffer, in every case but that of the filtered listing which keeps no entry,
the bytes remaining in the buffer when the loop ends are given to `sendMessage`
on the data socket before anything is done on the control socket.  When that
call fails the function returns with the control socket untouched, as it does
when a `sendMessage` of the loop fails; only when it returned `0`, or when
nothing remained, is the success message sent, from the session whose data
socket holds every frame of the listing, the count being the number of bytes
of the kept entries.  So whatever the data transport does, a session whose
control socket was used at all has the final frame on its data socket.  With a
data transport that accepts what is sent, the final frame and then the success
message are sent.  Three sessions over the entries `.`, `..` and `b.txt` are
evaluated: when the first `send` on the data socket fails, and when the `send`
of the payload fails after four bytes, the control socket is left without a
call and without a byte; when the transport accepts everything, the data
socket holds the frame of the 11 bytes and the control socket the success
message for 11 bytes. -/
theorem sendListingToClient_final_flush (w : World) (myFT : FTInfo) (command : List Nat)
    (d : Socket) (entries : List (List Nat)) (includeAllFiles : Bool)
    (hc : myFT.command = some command) (hd : myFT.dataSocket = some d)
    (hb : includeAllFiles = (if command = LIST_TXT_FILES then false else true))
    (hdir : w.directory = DirResult.opened entries none)
    (hfit : ∀ e ∈ entries, strlen e < 10000)
    (hpc : positive myFT.controlSocket.sendSched = true)
    (hcase : ¬ (includeAllFiles = false ∧ keptEntries includeAllFiles entries = [])) :
    ((∀ (w0 : World) (myFT0 : FTInfo) (d0 : Socket),
      myFT0.command = some LIST_FILES → myFT0.dataSocket = some d0 →
      w0.directory = DirResult.opened [] none →
      positive myFT0.controlSocket.sendSched = true →
      ∃ w' myFT', sendListingToClient w0 myFT0 = some (w', myFT') ∧
        myFT'.dataSocket = some d0 ∧
        myFT'.controlSocket.outbound = myFT0.controlSocket.outbound ++
          frame (str "SUCCESS! 0 bytes sent over data connection.")) ∧
    (sendListingToClient
        (World.sample (str "") (fun _ => OpenResult.error [])
          (DirResult.opened [str ".", str "..", str "b.txt"] none))
        { FTInfo.sample (str "") with
          command := some LIST_FILES,
          dataSocket := some { inbound := [], recvSched := [], outbound := [],
                               sendSched := [Step.fail], calls := [] } }).map
      (fun x => (x.2.controlSocket.outbound, x.2.controlSocket.calls,
        x.2.dataSocket.map (fun s => (s.outbound, s.calls))))
      = some ([], [], some ([], [Call.send 3 (-1)])) ∧
    (sendListingToClient
        (World.sample (str "") (fun _ => OpenResult.error [])
          (DirResult.opened [str ".", str "..", str "b.txt"] none))
        { FTInfo.sample (str "") with
          command := some LIST_FILES,
          dataSocket := some { inbound := [], recvSched := [], outbound := [],
                               sendSched := [Step.give 3, Step.give 4, Step.fail],
                               calls := [] } }).map
      (fun x => (x.2.controlSocket.outbound, x.2.controlSocket.calls,
        x.2.dataSocket.map (fun s => (s.outbound, s.calls))))
      = some ([], [], some (str "11@.\n..", [Call.send 3 3, Call.send 11 4, Call.send 7 (-1)])) ∧
    (sendListingToClient
        (World.sample (str "") (fun _ => OpenResult.error [])
          (DirResult.opened [str ".", str "..", str "b.txt"] none))
        { FTInfo.sample (str "") with
          command := some LIST_FILES,
          dataSocket := some (Socket.fresh []) }).map
      (fun x => (x.2.controlSocket.outbound, x.2.dataSocket.map (fun s => s.outbound)))
      = some (frame (str "SUCCESS! 11 bytes sent over data connection."),
          some (frame (str ".\n..\nb.txt\n")))) ∧
    (positive d.sendSched = true →
      ∃ w' myFT' d1 d2 count, sendListingToClient w myFT = some (w', myFT') ∧
        d1.outbound = d.outbound ++
          ((packEntries MAX_SEND_SIZE (keptEntries includeAllFiles entries) []).1.map frame).flatten ∧
        ((packEntries MAX_SEND_SIZE (keptEntries includeAllFiles entries) []).2 ≠ [] →
          sendMessage d1 (packEntries MAX_SEND_SIZE (keptEntries includeAllFiles entries) []).2 = some (0, d2) ∧
          d2.outbound = d1.outbound ++
            frame (packEntries MAX_SEND_SIZE (keptEntries includeAllFiles entries) []).2) ∧
        ((packEntries MAX_SEND_SIZE (keptEntries includeAllFiles entries) []).2 = [] → d2 = d1) ∧
        sendSuccessMessage { myFT with dataSocket := some d2 } count = some (0, myFT') ∧
        count % ULLONG_MOD = (keptEntries includeAllFiles entries).flatten.length % ULLONG_MOD ∧
        myFT'.dataSocket = some d2 ∧
        myFT'.controlSocket.outbound = myFT.controlSocket.outbound ++
          frame (successText ((keptEntries includeAllFiles entries).flatten.length % ULLONG_MOD))) ∧
    (∀ d1, sendListingLoop includeAllFiles entries d [] 0 0 = some (none, d1) →
      ∃ w', sendListingToClient w myFT = some (w', { myFT with dataSocket := some d1 })) ∧
    (∀ d1 buf c t, sendListingLoop includeAllFiles entries d [] 0 0 = some (some (buf, c, t), d1) →
      buf = (packEntries MAX_SEND_SIZE (keptEntries includeAllFiles entries) []).2 ∧
      c = buf.length ∧
      d1.outbound = d.outbound ++
        ((packEntries MAX_SEND_SIZE (keptEntries includeAllFiles entries) []).1.map frame).flatten ∧
      ∃ r d2 w' myFT',
        (buf ≠ [] → sendMessage d1 buf = some (r, d2)) ∧
        (buf = [] → r = 0 ∧ d2 = d1) ∧
        sendListingToClient w myFT = some (w', myFT') ∧
        (r = -1 → myFT' = { myFT with dataSocket := some d2 }) ∧
        (r ≠ -1 →
          d2.outbound = d.outbound ++
            ((listingFrames MAX_SEND_SIZE (keptEntries includeAllFiles entries)).map frame).flatten ∧
          sendSuccessMessage { myFT with dataSocket := some d2 } ((t + c) % ULLONG_MOD)
            = some (0, myFT') ∧
          myFT'.dataSocket = some d2 ∧
          myFT'.controlSocket.outbound = myFT.controlSocket.outbound ++
            frame (successText ((keptEntries includeAllFiles entries).flatten.length % ULLONG_MOD)))) ∧
    (∀ w' myFT', sendListingToClient w myFT = some (w', myFT') →
      myFT'.controlSocket ≠ myFT.controlSocket →
      ∃ d2, myFT'.dataSocket = some d2 ∧
        d2.outbound = d.outbound ++
          ((listingFrames MAX_SEND_SIZE (keptEntries includeAllFiles entries)).map frame).flatten ∧
        myFT'.controlSocket.outbound = myFT.controlSocket.outbound ++
          frame (successText ((keptEntries includeAllFiles entries).flatten.length % ULLONG_MOD))) := by
  have hfit' : ∀ e ∈ entries, strlen e + 1 ≤ MAX_SEND_SIZE := by
    intro e he
    have := hfit e he
    unfold MAX_SEND_SIZE
    omega
  obtain ⟨o1, o2⟩ := sendListingToClient_order w myFT command d entries includeAllFiles
    hc hd hb hdir hfit' hpc hcase
  refine ⟨⟨?_, by decide, by decide, by decide⟩, ?_, o1, o2, ?_⟩
  · intro w0 myFT0 d0 h1 h2 h3 h4
    obtain ⟨cs, host, nick, dp, cmd, fn, ds⟩ := myFT0
    simp only at h1 h2 h4
    subst h1 h2
    obtain ⟨myFT', e1, e2, e3⟩ := sendSuccessMessage_positive
      { controlSocket := cs, clientHost := host, clientNickname := nick, dataPort := dp,
        command := some LIST_FILES, filename := fn, dataSocket := some d0 } 0 h4
    refine ⟨{ w0 with events := w0.events ++ [Event.openDir] }, myFT', ?_, e3, ?_⟩
    · unfold sendListingToClient
      simp only [h3]
      have hl : LIST_FILES ≠ LIST_TXT_FILES := by decide
      simp only [hl, if_false, sendListingLoop, Bool.not_true, Bool.false_and,
        Bool.false_eq_true, gt_iff_lt, Nat.lt_irrefl, e1]
    · rw [e2]
      rfl
  · intro hpd
    obtain ⟨w', myFT', d1, r1, -, r3, -, r5⟩ := sendListingToClient_positive w myFT command d
      entries includeAllFiles hc hd hb hdir hfit' hpd hpc
    obtain ⟨d2, count, q1, q2, q3, -, q5, q6, q7⟩ := r5 hcase
    exact ⟨w', myFT', d1, d2, count, r1, r3, q2, q3, q5, q6, q1, q7⟩
  · intro w' myFT' h hne
    have hs := sendListingLoop_isSome includeAllFiles entries hfit' d [] 0 0
    cases hl : sendListingLoop includeAllFiles entries d [] 0 0 with
    | none => simp [hl] at hs
    | some x =>
      obtain ⟨res, d1⟩ := x
      cases res with
      | none =>
        obtain ⟨w1, e⟩ := o1 d1 hl
        rw [e] at h
        simp only [Option.some.injEq, Prod.mk.injEq] at h
        exact absurd (by rw [← h.2]) hne
      | some y =>
        obtain ⟨buf, c, t⟩ := y
        obtain ⟨-, -, -, r, d2, w1, myFT1, -, -, e, a4, a5⟩ := o2 d1 buf c t hl
        rw [e] at h
        simp only [Option.some.injEq, Prod.mk.injEq] at h
        obtain ⟨-, rfl⟩ := h
        by_cases hr : r = -1
        · exact absurd (by rw [a4 hr]) hne
        · obtain ⟨b1, -, b3, b4⟩ := a5 hr
          exact ⟨d2, b3, b1, b4⟩

theorem sendListingToClient_final_flush_witness :
    (positive ({ inbound := [], recvSched := [], outbound := [], sendSched := [Step.fail], calls := [] }
        : Socket).sendSched = true →
      ∃ w' myFT' d1 d2 count, sendListingToClient (World.sample (str "") (fun _ => OpenResult.error [])
        (DirResult.opened [str ".", str "..", str "b.txt"] none)) ({ FTInfo.sample (str "") with
        command := some LIST_FILES,
        dataSocket := some { inbound := [], recvSched := [], outbound := [],
                             sendSched := [Step.fail], calls := [] } } : FTInfo) = some (w', myFT') ∧
        d1.outbound = ({ inbound := [], recvSched := [], outbound := [], sendSched := [Step.fail], calls := [] }
        : Socket).outbound ++
          ((packEntries MAX_SEND_SIZE (keptEntries true [str ".", str "..", str "b.txt"]) []).1.map frame).flatten ∧
        ((packEntries MAX_SEND_SIZE (keptEntries true [str ".", str "..", str "b.txt"]) []).2 ≠ [] →
          sendMessage d1 (packEntries MAX_SEND_SIZE (keptEntries true [str ".", str "..", str "b.txt"]) []).2 = some (0, d2) ∧
          d2.outbound = d1.outbound ++
            frame (packEntries MAX_SEND_SIZE (keptEntries true [str ".", str "..", str "b.txt"]) []).2) ∧
        ((packEntries MAX_SEND_SIZE (keptEntries true [str ".", str "..", str "b.txt"]) []).2 = [] → d2 = d1) ∧
        sendSuccessMessage { ({ FTInfo.sample (str "") with
        command := some LIST_FILES,
        dataSocket := some { inbound := [], recvSched := [], outbound := [],
                             sendSched := [Step.fail], calls := [] } } : FTInfo) with dataSocket := some d2 } count = some (0, myFT') ∧
        count % ULLONG_MOD = (keptEntries true [str ".", str "..", str "b.txt"]).flatten.length % ULLONG_MOD ∧
        myFT'.dataSocket = some d2 ∧
        myFT'.controlSocket.outbound = ({ FTInfo.sample (str "") with
        command := some LIST_FILES,
        dataSocket := some { inbound := [], recvSched := [], outbound := [],
                             sendSched := [Step.fail], calls := [] } } : FTInfo).controlSocket.outbound ++
          frame (successText ((keptEntries true [str ".", str "..", str "b.txt"]).flatten.length % ULLONG_MOD))) ∧
    (∀ d1, sendListingLoop true [str ".", str "..", str "b.txt"] ({ inbound := [], recvSched := [], outbound := [], sendSched := [Step.fail], calls := [] }
        : Socket) [] 0 0 = some (none, d1) →
      ∃ w', sendListingToClient (World.sample (str "") (fun _ => OpenResult.error [])
        (DirResult.opened [str ".", str "..", str "b.txt"] none)) ({ FTInfo.sample (str "") with
        command := some LIST_FILES,
        dataSocket := some { inbound := [], recvSched := [], outbound := [],
                             sendSched := [Step.fail], calls := [] } } : FTInfo) = some (w', { ({ FTInfo.sample (str "") with
        command := some LIST_FILES,
        dataSocket := some { inbound := [], recvSched := [], outbound := [],
                             sendSched := [Step.fail], calls := [] } } : FTInfo) with dataSocket := some d1 })) ∧
    (∀ d1 buf c t, sendListingLoop true [str ".", str "..", str "b.txt"] ({ inbound := [], recvSched := [], outbound := [], sendSched := [Step.fail], calls := [] }
        : Socket) [] 0 0 = some (some (buf, c, t), d1) →
      buf = (packEntries MAX_SEND_SIZE (keptEntries true [str ".", str "..", str "b.txt"]) []).2 ∧
      c = buf.length ∧
      d1.outbound = ({ inbound := [], recvSched := [], outbound := [], sendSched := [Step.fail], calls := [] }
        : Socket).outbound ++
        ((packEntries MAX_SEND_SIZE (keptEntries true [str ".", str "..", str "b.txt"]) []).1.map frame).flatten ∧
      ∃ r d2 w' myFT',
        (buf ≠ [] → sendMessage d1 buf = some (r, d2)) ∧
        (buf = [] → r = 0 ∧ d2 = d1) ∧
        sendListingToClient (World.sample (str "") (fun _ => OpenResult.error [])
        (DirResult.opened [str ".", str "..", str "b.txt"] none)) ({ FTInfo.sample (str "") with
        command := some LIST_FILES,
        dataSocket := some { inbound := [], recvSched := [], outbound := [],
                             sendSched := [Step.fail], calls := [] } } : FTInfo) = some (w', myFT') ∧
        (r = -1 → myFT' = { ({ FTInfo.sample (str "") with
        command := some LIST_FILES,
        dataSocket := some { inbound := [], recvSched := [], outbound := [],
                             sendSched := [Step.fail], calls := [] } } : FTInfo) with dataSocket := some d2 }) ∧
        (r ≠ -1 →
          d2.outbound = ({ inbound := [], recvSched := [], outbound := [], sendSched := [Step.fail], calls := [] }
        : Socket).outbound ++
            ((listingFrames MAX_SEND_SIZE (keptEntries true [str ".", str "..", str "b.txt"])).map frame).flatten ∧
          sendSuccessMessage { ({ FTInfo.sample (str "") with
        command := some LIST_FILES,
        dataSocket := some { inbound := [], recvSched := [], outbound := [],
                             sendSched := [Step.fail], calls := [] } } : FTInfo) with dataSocket := some d2 } ((t + c) % ULLONG_MOD)
            = some (0, myFT') ∧
          myFT'.dataSocket = some d2 ∧
          myFT'.controlSocket.outbound = ({ FTInfo.sample (str "") with
        command := some LIST_FILES,
        dataSocket := some { inbound := [], recvSched := [], outbound := [],
                             sendSched := [Step.fail], calls := [] } } : FTInfo).controlSocket.outbound ++
            frame (successText ((keptEntries true [str ".", str "..", str "b.txt"]).flatten.length % ULLONG_MOD)))) ∧
    (∀ w' myFT', sendListingToClient (World.sample (str "") (fun _ => OpenResult.error [])
        (DirResult.opened [str ".", str "..", str "b.txt"] none)) ({ FTInfo.sample (str "") with
        command := some LIST_FILES,
        dataSocket := some { inbound := [], recvSched := [], outbound := [],
                             sendSched := [Step.fail], calls := [] } } : FTInfo) = some (w', myFT') →
      myFT'.controlSocket ≠ ({ FTInfo.sample (str "") with
        command := some LIST_FILES,
        dataSocket := some { inbound := [], recvSched := [], outbound := [],
                             sendSched := [Step.fail], calls := [] } } : FTInfo).controlSocket →
      ∃ d2, myFT'.dataSocket = some d2 ∧
        d2.outbound = ({ inbound := [], recvSched := [], outbound := [], sendSched := [Step.fail], calls := [] }
        : Socket).outbound ++
          ((listingFrames MAX_SEND_SIZE (keptEntries true [str ".", str "..", str "b.txt"])).map frame).flatten ∧
        myFT'.controlSocket.outbound = ({ FTInfo.sample (str "") with
        command := some LIST_FILES,
        dataSocket := some { inbound := [], recvSched := [], outbound := [],
                             sendSched := [Step.fail], calls := [] } } : FTInfo).controlSocket.outbound ++
          frame (successText ((keptEntries true [str ".", str "..", str "b.txt"]).flatten.length % ULLONG_MOD))) :=
  (sendListingToClient_final_flush
    (World.sample (str "") (fun _ => OpenResult.error [])
        (DirResult.opened [str ".", str "..", str "b.txt"] none))
    ({ FTInfo.sample (str "") with
        command := some LIST_FILES,
        dataSocket := some { inbound := [], recvSched := [], outbound := [],
                             sendSched := [Step.fail], calls := [] } } : FTInfo)
    LIST_FILES
    { inbound := [], recvSched := [], outbound := [], sendSched := [Step.fail], calls := [] }
    [str ".", str "..", str "b.txt"] true
    rfl rfl (by decide) rfl (by decide) (by decide) (by decide)).2

end FTServer
